import Mathlib

/-!
# SGCT shared-data serialisation and frame lock

A shallow embedding of `SharedData` (src/sgct/shareddata.cpp) and of the frame-lock
stages of `Engine` (src/sgct/engine.cpp).

Conventions of the embedding:

* a byte is a natural number; every byte the code itself stores is below 256;
* `reinterpret_cast<unsigned char*>(&val)` is the native object representation, taken
  to be little-endian (`toLE`); `*reinterpret_cast<T*>(&_dataBlock[_pos])` is its
  inverse on the bytes found at the cursor (`fromLE`), signed types through
  two's complement (`toSigned`);
* `float` and `double` values are their 32- and 64-bit patterns;
* `std::vector<unsigned char>` is a `List Nat`; capacity is not modelled;
* the data-sync mutex is a counter of acquisitions that were not released yet; the
  type of the mutex is declared in mutexmanager.h, and acquiring it never blocks here;
* constants of `core::Network` (declared in network.h) are the fields of
  `NetworkConsts`; `compress2` of zlib is the field of `Zlib`.
-/

namespace sgct

/-- The constants of `core::Network` that shareddata.cpp uses. -/
structure NetworkConsts where
  HeaderSize : Nat
  DefaultId : Nat
  DataId : Nat
  CompressedDataId : Nat

/-- Return code `Z_OK` of zlib. -/
def Z_OK : Int := 0

/-- Return code `Z_STREAM_ERROR` of zlib (invalid compression level). -/
def Z_STREAM_ERROR : Int := -2

/-- Return code `Z_BUF_ERROR` of zlib (output buffer too small). -/
def Z_BUF_ERROR : Int := -5

/-- Level `Z_BEST_SPEED` of zlib. -/
def Z_BEST_SPEED : Int := 1

/-- The compressor of zlib, `compress2(dest, &destLen, source, sourceLen, level)`:
from the capacity `destLen` of the destination, the source bytes and the level it
gives the return code and the bytes it stored at the start of the destination; the
number of those bytes is the value left in `destLen`, never more than the capacity. -/
structure Zlib where
  compress2 : Nat → List Nat → Int → Int × List Nat
  fits : ∀ destLen source level, (compress2 destLen source level).2.length ≤ destLen

/-- The `n` bytes of the object representation of the unsigned value `x`. -/
def toLE : Nat → Nat → List Nat
  | 0, _ => []
  | n + 1, x => (x % 256) :: toLE n (x / 256)

/-- The unsigned value whose object representation the bytes are. -/
def fromLE : List Nat → Nat
  | [] => 0
  | b :: bs => b + 256 * fromLE bs

/-- Two's-complement reading of a `w`-byte unsigned value. -/
def toSigned (w : Nat) (u : Nat) : Int :=
  if u < 2 ^ (8 * w - 1) then (u : Int) else (u : Int) - 2 ^ (8 * w)

/-- Two's-complement pattern of a signed value in `w` bytes. -/
def ofSigned (w : Nat) (v : Int) : Nat :=
  (v % 2 ^ (8 * w)).toNat

/-- Which vector `_currentStorage` points to. -/
inductive Storage
  | dataBlock
  | dataBlockToCompress
  deriving DecidableEq, Repr

/-- The value of `_compressionRatio`: the constant `1.f`, or the quotient of two
byte counts converted to float (kept as the two counts). -/
inductive CompressionRatio
  | one
  | quotient (compressedSize uncompressedSize : Nat)
  deriving DecidableEq, Repr

/-- The state of the `SharedData` singleton. `dataSyncMutex` counts the acquisitions
of `MutexManager::instance()->dataSyncMutex` not yet released; `pastEnd i` is the byte
that an unchecked `_dataBlock[i]` finds when `i` is not below the size. -/
structure SharedData where
  _dataBlock : List Nat
  _dataBlockToCompress : List Nat
  _compressedBuffer : List Nat
  _headerSpace : List Nat
  _currentStorage : Storage
  _useCompression : Bool
  _compressionLevel : Int
  _compressionRatio : CompressionRatio
  _pos : Nat
  dataSyncMutex : Nat
  pastEnd : Nat → Nat

namespace SharedData

/-- The call `dataSyncMutex.lock()`. The model counts the acquisition and goes on.
In the program `dataSyncMutex` is a `std::mutex`, which is not re-entrant: a call made
while the counter is above 0 does not return, and the counter shows whether a call is
of that kind. -/
def lock (s : SharedData) : SharedData :=
  { s with dataSyncMutex := s.dataSyncMutex + 1 }

/-- The call `dataSyncMutex.unlock()`. -/
def unlock (s : SharedData) : SharedData :=
  { s with dataSyncMutex := s.dataSyncMutex - 1 }

/-- The constructor `SharedData::SharedData()`. The in-class initialisers of
`_useCompression`, `_compressionRatio` and `_pos` are in shareddata.h and are
arguments here. -/
def init (c : NetworkConsts) (useCompression : Bool) (ratio0 : CompressionRatio)
    (pos0 : Nat) (mem : Nat → Nat) : SharedData :=
  let DefaultSize := 1024
  let headerSpace := List.replicate c.HeaderSize c.DefaultId
  { _dataBlock := []
    _dataBlockToCompress := []
    _compressedBuffer := List.replicate (DefaultSize * 2) 0
    _headerSpace := headerSpace.set 0 c.DataId
    _currentStorage := if useCompression then .dataBlockToCompress else .dataBlock
    _useCompression := useCompression
    _compressionLevel := Z_BEST_SPEED
    _compressionRatio := ratio0
    _pos := pos0
    dataSyncMutex := 0
    pastEnd := mem }

/-- The function `SharedData::setCompression(state, level)`. -/
def setCompression (state : Bool) (level : Int) (s : SharedData) : SharedData :=
  let s := s.lock
  let s := { s with _useCompression := state }
  let s := { s with _compressionLevel := level }
  let s :=
    if s._useCompression then
      { s with _currentStorage := .dataBlockToCompress }
    else
      { s with _currentStorage := .dataBlock, _compressionRatio := .one }
  s.unlock

/-- The function `SharedData::getCompressionRatio()`. -/
def getCompressionRatio (s : SharedData) : CompressionRatio :=
  s._compressionRatio

/-- The statement `_currentStorage->insert(_currentStorage->end(), p, p + n)` for the
bytes `bs` found at `p`. -/
def insertAtEnd (bs : List Nat) (s : SharedData) : SharedData :=
  match s._currentStorage with
  | .dataBlock => { s with _dataBlock := s._dataBlock ++ bs }
  | .dataBlockToCompress => { s with _dataBlockToCompress := s._dataBlockToCompress ++ bs }

/-- The function `SharedData::writeFloat`: the value is the bit pattern of the float. -/
def writeFloat (val : Nat) (s : SharedData) : SharedData :=
  let s := s.lock
  let s := s.insertAtEnd (toLE 4 val)
  s.unlock

/-- The function `SharedData::writeDouble`: the value is the bit pattern of the double. -/
def writeDouble (val : Nat) (s : SharedData) : SharedData :=
  let s := s.lock
  let s := s.insertAtEnd (toLE 8 val)
  s.unlock

/-- The function `SharedData::writeInt64`. -/
def writeInt64 (val : Int) (s : SharedData) : SharedData :=
  let s := s.lock
  let s := s.insertAtEnd (toLE 8 (ofSigned 8 val))
  s.unlock

/-- The function `SharedData::writeInt32`. -/
def writeInt32 (val : Int) (s : SharedData) : SharedData :=
  let s := s.lock
  let s := s.insertAtEnd (toLE 4 (ofSigned 4 val))
  s.unlock

/-- The function `SharedData::writeInt16`. -/
def writeInt16 (val : Int) (s : SharedData) : SharedData :=
  let s := s.lock
  let s := s.insertAtEnd (toLE 2 (ofSigned 2 val))
  s.unlock

/-- The function `SharedData::writeInt8`. -/
def writeInt8 (val : Int) (s : SharedData) : SharedData :=
  let s := s.lock
  let s := s.insertAtEnd (toLE 1 (ofSigned 1 val))
  s.unlock

/-- The function `SharedData::writeUInt64`. -/
def writeUInt64 (val : Nat) (s : SharedData) : SharedData :=
  let s := s.lock
  let s := s.insertAtEnd (toLE 8 val)
  s.unlock

/-- The function `SharedData::writeUInt32`. -/
def writeUInt32 (val : Nat) (s : SharedData) : SharedData :=
  let s := s.lock
  let s := s.insertAtEnd (toLE 4 val)
  s.unlock

/-- The function `SharedData::writeUInt16`. -/
def writeUInt16 (val : Nat) (s : SharedData) : SharedData :=
  let s := s.lock
  let s := s.insertAtEnd (toLE 2 val)
  s.unlock

/-- The function `SharedData::writeUInt8`. -/
def writeUInt8 (val : Nat) (s : SharedData) : SharedData :=
  let s := s.lock
  let s := s.insertAtEnd (toLE 1 val)
  s.unlock

/-- The function `SharedData::writeUChar`: `_currentStorage->push_back(val)`. -/
def writeUChar (val : Nat) (s : SharedData) : SharedData :=
  let s := s.lock
  let s := s.insertAtEnd [val % 256]
  s.unlock

/-- The function `SharedData::writeBool`: `_currentStorage->push_back(val ? 1 : 0)`. -/
def writeBool (val : Bool) (s : SharedData) : SharedData :=
  let s := s.lock
  let s := s.insertAtEnd [if val then 1 else 0]
  s.unlock

/-- The function `SharedData::writeString`: the string is the list of its bytes. -/
def writeString (tmpStr : List Nat) (s : SharedData) : SharedData :=
  let s := s.lock
  let length := tmpStr.length % 2 ^ 32
  let s := s.insertAtEnd (toLE 4 length)
  let s := s.insertAtEnd (tmpStr.take length)
  s.unlock

/-- The function `SharedData::writeWString`: the wide string is the list of its code units, each
stored in `wcharSize = sizeof(wchar_t)` bytes. -/
def writeWString (wcharSize : Nat) (tmpStr : List Nat) (s : SharedData) : SharedData :=
  let s := s.lock
  let length := tmpStr.length % 2 ^ 32
  let ws := (tmpStr.map (toLE wcharSize)).flatten
  let s := s.insertAtEnd (toLE 4 length)
  let s := s.insertAtEnd (ws.take (length * wcharSize))
  s.unlock

/-- The byte that the unchecked `_dataBlock[i]` denotes. For `i` not below the size the
access is outside the vector, which the language leaves undefined; `pastEnd i` stands
for what such an access finds when it does not trap. -/
def byteAt (s : SharedData) (i : Nat) : Nat :=
  (s._dataBlock.getD i (s.pastEnd i)) % 256

/-- The `n` bytes that start at `&_dataBlock[i]`. -/
def bytesAt (s : SharedData) (i n : Nat) : List Nat :=
  (List.range n).map (fun k => s.byteAt (i + k))

/-- The function `SharedData::readFloat`: the new state and the argument of `sf.setVal`. -/
def readFloat (s : SharedData) : SharedData × Nat :=
  let s := s.lock
  let val := fromLE (s.bytesAt s._pos 4)
  let s := { s with _pos := s._pos + 4 }
  let s := s.unlock
  (s, val)

/-- The function `SharedData::readDouble`. -/
def readDouble (s : SharedData) : SharedData × Nat :=
  let s := s.lock
  let val := fromLE (s.bytesAt s._pos 8)
  let s := { s with _pos := s._pos + 8 }
  let s := s.unlock
  (s, val)

/-- The function `SharedData::readInt64`. -/
def readInt64 (s : SharedData) : SharedData × Int :=
  let s := s.lock
  let val := toSigned 8 (fromLE (s.bytesAt s._pos 8))
  let s := { s with _pos := s._pos + 8 }
  let s := s.unlock
  (s, val)

/-- The function `SharedData::readInt32`. -/
def readInt32 (s : SharedData) : SharedData × Int :=
  let s := s.lock
  let val := toSigned 4 (fromLE (s.bytesAt s._pos 4))
  let s := { s with _pos := s._pos + 4 }
  let s := s.unlock
  (s, val)

/-- The function `SharedData::readInt16`. -/
def readInt16 (s : SharedData) : SharedData × Int :=
  let s := s.lock
  let val := toSigned 2 (fromLE (s.bytesAt s._pos 2))
  let s := { s with _pos := s._pos + 2 }
  let s := s.unlock
  (s, val)

/-- The function `SharedData::readInt8`. -/
def readInt8 (s : SharedData) : SharedData × Int :=
  let s := s.lock
  let val := toSigned 1 (fromLE (s.bytesAt s._pos 1))
  let s := { s with _pos := s._pos + 1 }
  let s := s.unlock
  (s, val)

/-- The function `SharedData::readUInt64`. -/
def readUInt64 (s : SharedData) : SharedData × Nat :=
  let s := s.lock
  let val := fromLE (s.bytesAt s._pos 8)
  let s := { s with _pos := s._pos + 8 }
  let s := s.unlock
  (s, val)

/-- The function `SharedData::readUInt32`. -/
def readUInt32 (s : SharedData) : SharedData × Nat :=
  let s := s.lock
  let val := fromLE (s.bytesAt s._pos 4)
  let s := { s with _pos := s._pos + 4 }
  let s := s.unlock
  (s, val)

/-- The function `SharedData::readUInt16`. -/
def readUInt16 (s : SharedData) : SharedData × Nat :=
  let s := s.lock
  let val := fromLE (s.bytesAt s._pos 2)
  let s := { s with _pos := s._pos + 2 }
  let s := s.unlock
  (s, val)

/-- The function `SharedData::readUInt8`. -/
def readUInt8 (s : SharedData) : SharedData × Nat :=
  let s := s.lock
  let val := fromLE (s.bytesAt s._pos 1)
  let s := { s with _pos := s._pos + 1 }
  let s := s.unlock
  (s, val)

/-- The function `SharedData::readUChar`. -/
def readUChar (s : SharedData) : SharedData × Nat :=
  let s := s.lock
  let c := s.byteAt s._pos
  let s := { s with _pos := s._pos + 1 }
  let s := s.unlock
  (s, c)

/-- The function `SharedData::readBool`. -/
def readBool (s : SharedData) : SharedData × Bool :=
  let s := s.lock
  let b := s.byteAt s._pos == 1
  let s := { s with _pos := s._pos + 1 }
  let s := s.unlock
  (s, b)

/-- The function `SharedData::readString`. The branch for length 0 returns before the unlock. -/
def readString (s : SharedData) : SharedData × List Nat :=
  let s := s.lock
  let length := fromLE (s.bytesAt s._pos 4)
  let s := { s with _pos := s._pos + 4 }
  if length = 0 then
    (s, [])
  else
    let stringData := s.bytesAt s._pos length
    let s := { s with _pos := s._pos + length }
    let s := s.unlock
    (s, stringData)

/-- The function `SharedData::readWString`. The wide string is built from the byte range
`[_pos, _pos + length)`, one code unit from each byte; the cursor then moves by
`length * sizeof(wchar_t)`. The branch for length 0 returns before the unlock. -/
def readWString (wcharSize : Nat) (s : SharedData) : SharedData × List Nat :=
  let s := s.lock
  let length := fromLE (s.bytesAt s._pos 4)
  let s := { s with _pos := s._pos + 4 }
  if length = 0 then
    (s, [])
  else
    let stringData := s.bytesAt s._pos length
    let s := { s with _pos := s._pos + length * wcharSize }
    let s := s.unlock
    (s, stringData)

/-- The function `SharedData::getUserDataSize()`: a subtraction of two `std::size_t` (64 bits). -/
def getUserDataSize (c : NetworkConsts) (s : SharedData) : Nat :=
  (((s._dataBlock.length : Int) - (c.HeaderSize : Int)) % 2 ^ 64).toNat

/-- The function `SharedData::getDataSize()`. -/
def getDataSize (s : SharedData) : Nat :=
  s._dataBlock.length

end SharedData

/-- The types of shared values that `SharedData` serialises. -/
inductive Ty
  | float | double
  | int64 | int32 | int16 | int8
  | uint64 | uint32 | uint16 | uint8
  | uchar | bool | string | wstring
  deriving DecidableEq, Repr

/-- A shared value: floats as bit patterns, strings as lists of bytes, wide strings as
lists of code units. -/
inductive Val
  | float (bits : Nat)
  | double (bits : Nat)
  | int64 (v : Int)
  | int32 (v : Int)
  | int16 (v : Int)
  | int8 (v : Int)
  | uint64 (v : Nat)
  | uint32 (v : Nat)
  | uint16 (v : Nat)
  | uint8 (v : Nat)
  | uchar (v : Nat)
  | bool (b : Bool)
  | string (str : List Nat)
  | wstring (w : List Nat)
  deriving DecidableEq, Repr

/-- The type of a shared value. -/
def Val.ty : Val → Ty
  | .float _ => .float
  | .double _ => .double
  | .int64 _ => .int64
  | .int32 _ => .int32
  | .int16 _ => .int16
  | .int8 _ => .int8
  | .uint64 _ => .uint64
  | .uint32 _ => .uint32
  | .uint16 _ => .uint16
  | .uint8 _ => .uint8
  | .uchar _ => .uchar
  | .bool _ => .bool
  | .string _ => .string
  | .wstring _ => .wstring

/-- The value is one that its C++ type can hold (`wcharBits` is the width of
`wchar_t`). -/
def Val.inRange (wcharBits : Nat) : Val → Prop
  | .float b => b < 2 ^ 32
  | .double b => b < 2 ^ 64
  | .int64 v => -(2 ^ 63) ≤ v ∧ v < 2 ^ 63
  | .int32 v => -(2 ^ 31) ≤ v ∧ v < 2 ^ 31
  | .int16 v => -(2 ^ 15) ≤ v ∧ v < 2 ^ 15
  | .int8 v => -(2 ^ 7) ≤ v ∧ v < 2 ^ 7
  | .uint64 v => v < 2 ^ 64
  | .uint32 v => v < 2 ^ 32
  | .uint16 v => v < 2 ^ 16
  | .uint8 v => v < 2 ^ 8
  | .uchar v => v < 2 ^ 8
  | .bool _ => True
  | .string str => ∀ ch ∈ str, ch < 256
  | .wstring w => ∀ u ∈ w, u < 2 ^ wcharBits

namespace SharedData

/-- The `write*` operation of the value's type. -/
def write (wcharSize : Nat) : Val → SharedData → SharedData
  | .float b => writeFloat b
  | .double b => writeDouble b
  | .int64 v => writeInt64 v
  | .int32 v => writeInt32 v
  | .int16 v => writeInt16 v
  | .int8 v => writeInt8 v
  | .uint64 v => writeUInt64 v
  | .uint32 v => writeUInt32 v
  | .uint16 v => writeUInt16 v
  | .uint8 v => writeUInt8 v
  | .uchar v => writeUChar v
  | .bool b => writeBool b
  | .string str => writeString str
  | .wstring w => writeWString wcharSize w

/-- The `read*` operation of the type: the new state and the value handed to
`setVal`. -/
def read (wcharSize : Nat) : Ty → SharedData → SharedData × Val
  | .float, s => ((readFloat s).1, .float (readFloat s).2)
  | .double, s => ((readDouble s).1, .double (readDouble s).2)
  | .int64, s => ((readInt64 s).1, .int64 (readInt64 s).2)
  | .int32, s => ((readInt32 s).1, .int32 (readInt32 s).2)
  | .int16, s => ((readInt16 s).1, .int16 (readInt16 s).2)
  | .int8, s => ((readInt8 s).1, .int8 (readInt8 s).2)
  | .uint64, s => ((readUInt64 s).1, .uint64 (readUInt64 s).2)
  | .uint32, s => ((readUInt32 s).1, .uint32 (readUInt32 s).2)
  | .uint16, s => ((readUInt16 s).1, .uint16 (readUInt16 s).2)
  | .uint8, s => ((readUInt8 s).1, .uint8 (readUInt8 s).2)
  | .uchar, s => ((readUChar s).1, .uchar (readUChar s).2)
  | .bool, s => ((readBool s).1, .bool (readBool s).2)
  | .string, s => ((readString s).1, .string (readString s).2)
  | .wstring, s => ((readWString wcharSize s).1, .wstring (readWString wcharSize s).2)

/-- The operation `std::vector::resize(n)`: the first `n` elements, zero-filled at the end. -/
def resize (v : List Nat) (n : Nat) : List Nat :=
  v.take n ++ List.replicate (n - v.length) 0

end SharedData

/-- What an encode or decode callback acts on: the `SharedData` singleton, the
shared variables of the application, and the error codes that were passed to
`MessageHandler::printError`. -/
structure World (U : Type) where
  shared : SharedData
  user : U
  printed : List Int

/-- An encode callback that writes the given values in order, as `encodeFun` of
apps/remote/main.cpp does for its three variables. -/
def encodeFun {U : Type} (wcharSize : Nat) (vals : List Val) (w : World U) : World U :=
  { w with shared := vals.foldl (fun s v => s.write wcharSize v) w.shared }

/-- A decode callback that reads values of the given types in order, as `decodeFun`
of apps/remote/main.cpp does; the values handed to the shared variables are
collected in order. -/
def decodeFun (wcharSize : Nat) (tys : List Ty) (w : World (List Val)) :
    World (List Val) :=
  tys.foldl
    (fun w t => { w with shared := (w.shared.read wcharSize t).1
                         user := w.user ++ [(w.shared.read wcharSize t).2] })
    w

/-- The function `SharedData::decode(receivedData, receivedLength, int)`; `decodeFn` is the
callback `_decodeFn`, `none` for `nullptr`. -/
def decode {U : Type} (decodeFn : Option (World U → World U)) (receivedData : List Nat)
    (receivedLength : Int) (w : World U) : World U :=
  let s := w.shared
  let s := s.lock
  let s := { s with _pos := 0 }
  let s := { s with _dataBlock := [] }
  let s := { s with _dataBlock := s._dataBlock ++ receivedData.take receivedLength.toNat }
  let s := s.unlock
  let w := { w with shared := s }
  match decodeFn with
  | some f => f w
  | none => w

/-- Lines 114 to 132 of `SharedData::encode()`: both vectors are cleared, the tag is
stored in `_headerSpace[0]` and the header is copied into `_dataBlock`. -/
def SharedData.encodeReset (c : NetworkConsts) (s : SharedData) : SharedData :=
  let s := s.lock
  let s := { s with _dataBlock := [] }
  let s :=
    if s._useCompression then
      { s with _dataBlockToCompress := []
               _headerSpace := s._headerSpace.set 0 c.CompressedDataId }
    else
      { s with _headerSpace := s._headerSpace.set 0 c.DataId }
  let s := { s with _dataBlock := s._headerSpace.take c.HeaderSize ++ s._dataBlock }
  s.unlock

/-- The four bytes `p` are stored in bytes 9 to 12 of `_dataBlock`. -/
def SharedData.storeSize (p : List Nat) (d : List Nat) : List Nat :=
  (((d.set 9 (p.getD 0 0)).set 10 (p.getD 1 0)).set 11 (p.getD 2 0)).set 12 (p.getD 3 0)

/-- Lines 142 to 189 of `SharedData::encode()`, the body of
`if (_useCompression && !_dataBlockToCompress.empty())`: the new state and the error
code passed to `printError`, if any. -/
def SharedData.encodeCompress (z : Zlib) (s : SharedData) : SharedData × Option Int :=
  let s := s.lock
  let s :=
    if s._compressedBuffer.length < s._dataBlockToCompress.length / 2 then
      { s with _compressedBuffer :=
                 SharedData.resize s._compressedBuffer (s._dataBlockToCompress.length * 2) }
    else s
  let r := z.compress2 s._compressedBuffer.length s._dataBlockToCompress
    s._compressionLevel
  let compressedSize := r.2.length
  let s := { s with _compressedBuffer := r.2 ++ s._compressedBuffer.drop r.2.length }
  let err := r.1
  if err = Z_OK then
    let uncompressedSize := s._dataBlockToCompress.length % 2 ^ 32
    let p := toLE 4 uncompressedSize
    let s := { s with _dataBlock := SharedData.storeSize p s._dataBlock }
    let s := { s with _compressionRatio := .quotient compressedSize uncompressedSize }
    let s := { s with _dataBlock :=
                 s._dataBlock ++ s._compressedBuffer.take compressedSize }
    (s.unlock, none)
  else
    (s.unlock, some err)

/-- The function `SharedData::encode()`; `encodeFn` is the callback `_encodeFn`. -/
def encode {U : Type} (c : NetworkConsts) (z : Zlib)
    (encodeFn : Option (World U → World U)) (w : World U) : World U :=
  let w := { w with shared := w.shared.encodeReset c }
  let w :=
    match encodeFn with
    | some f => f w
    | none => w
  if w.shared._useCompression && !w.shared._dataBlockToCompress.isEmpty then
    match w.shared.encodeCompress z with
    | (s, none) => { w with shared := s }
    | (s, some err) => { w with shared := s, printed := w.printed ++ [err] }
  else
    w

/-- The bytes that the `write*` operation of the value appends. -/
def Val.bytes (wcharSize : Nat) : Val → List Nat
  | .float b => toLE 4 b
  | .double b => toLE 8 b
  | .int64 v => toLE 8 (ofSigned 8 v)
  | .int32 v => toLE 4 (ofSigned 4 v)
  | .int16 v => toLE 2 (ofSigned 2 v)
  | .int8 v => toLE 1 (ofSigned 1 v)
  | .uint64 v => toLE 8 v
  | .uint32 v => toLE 4 v
  | .uint16 v => toLE 2 v
  | .uint8 v => toLE 1 v
  | .uchar v => [v % 256]
  | .bool b => [if b then 1 else 0]
  | .string str => toLE 4 (str.length % 2 ^ 32) ++ str.take (str.length % 2 ^ 32)
  | .wstring w =>
      toLE 4 (w.length % 2 ^ 32) ++
        ((w.map (toLE wcharSize)).flatten).take (w.length % 2 ^ 32 * wcharSize)


/-- Decidability of `Val.inRange`. -/
instance Val.decInRange (wcharBits : Nat) : (v : Val) → Decidable (v.inRange wcharBits)
  | .float b => inferInstanceAs (Decidable (b < 2 ^ 32))
  | .double b => inferInstanceAs (Decidable (b < 2 ^ 64))
  | .int64 v => inferInstanceAs (Decidable (-(2 ^ 63) ≤ v ∧ v < 2 ^ 63))
  | .int32 v => inferInstanceAs (Decidable (-(2 ^ 31) ≤ v ∧ v < 2 ^ 31))
  | .int16 v => inferInstanceAs (Decidable (-(2 ^ 15) ≤ v ∧ v < 2 ^ 15))
  | .int8 v => inferInstanceAs (Decidable (-(2 ^ 7) ≤ v ∧ v < 2 ^ 7))
  | .uint64 v => inferInstanceAs (Decidable (v < 2 ^ 64))
  | .uint32 v => inferInstanceAs (Decidable (v < 2 ^ 32))
  | .uint16 v => inferInstanceAs (Decidable (v < 2 ^ 16))
  | .uint8 v => inferInstanceAs (Decidable (v < 2 ^ 8))
  | .uchar v => inferInstanceAs (Decidable (v < 2 ^ 8))
  | .bool _ => inferInstanceAs (Decidable True)
  | .string str => inferInstanceAs (Decidable (∀ ch ∈ str, ch < 256))
  | .wstring w => inferInstanceAs (Decidable (∀ u ∈ w, u < 2 ^ wcharBits))

/-- The length of a narrow string fits the 32-bit length prefix; true of every value
that is not a narrow string. -/
def Val.lengthFits : Val → Prop
  | .string str => str.length < 2 ^ 32
  | _ => True

/-- Decidability of `Val.lengthFits`. -/
instance Val.decLengthFits : (v : Val) → Decidable v.lengthFits
  | .string str => inferInstanceAs (Decidable (str.length < 2 ^ 32))
  | .float _ | .double _ | .int64 _ | .int32 _ | .int16 _ | .int8 _ | .uint64 _
  | .uint32 _ | .uint16 _ | .uint8 _ | .uchar _ | .bool _ | .wstring _ =>
    inferInstanceAs (Decidable True)

/-- The bytes of `_dataBlock` after the header. -/
def SharedData.payload (c : NetworkConsts) (s : SharedData) : List Nat :=
  s._dataBlock.drop c.HeaderSize

/-- Sample values for the constants of `core::Network`: a header of 13 bytes (tag,
two 4-byte fields, 4 reserved bytes) and distinct tags. -/
def sampleConsts : NetworkConsts :=
  { HeaderSize := 13, DefaultId := 0, DataId := 17, CompressedDataId := 18 }

/-- A stand-in for zlib on which `encode` can be evaluated: like `compress2` it
rejects a level outside -1..9 with `Z_STREAM_ERROR` and reports `Z_BUF_ERROR` when
the output does not fit; its output is the input framed by 11 bytes, the size of a
stored deflate block with its zlib wrapper. -/
def sampleZlib : Zlib where
  compress2 := fun destLen source level =>
    if level < -1 ∨ 9 < level then (Z_STREAM_ERROR, [])
    else if source.length + 11 ≤ destLen then
      (Z_OK, [120, 1, 1, 0, 0, 0, 0] ++ source ++ [0, 0, 0, 0])
    else (Z_BUF_ERROR, [])
  fits := by
    intro destLen source level
    dsimp only
    split_ifs
    · simp
    · simp only [List.length_append, List.length_cons, List.length_nil]; omega
    · simp

/-- A freshly constructed `SharedData` with the sample constants, compression off. -/
def sampleShared : SharedData :=
  SharedData.init sampleConsts false .one 0 (fun _ => 0)

/-- The sample state on the encoding side, with no shared variables. -/
def sampleWorld : World Unit :=
  { shared := sampleShared, user := (), printed := [] }

/-- The sample state on the decoding side, with no value read yet. -/
def sampleReceiver : World (List Val) :=
  { shared := sampleShared, user := [], printed := [] }

/-- The sample state on the encoding side after `setCompression(true, level)`. -/
def sampleCompressed (level : Int) : World Unit :=
  { shared := sampleShared.setCompression true level, user := (), printed := [] }

/-- The sample state with the given bytes in the final buffer and the cursor at 0. -/
def sampleBuffer (bytes : List Nat) : SharedData :=
  { sampleShared with _dataBlock := bytes }

/-- Sample shared values: a double (a NaN pattern), a float (the pattern of +infinity),
a bool, an empty string, the least int16, the string "frame" and the int32 42. -/
def sampleVals : List Val :=
  [.double 0x7FF8000000000001, .float 0x7F800000, .bool true, .string [],
   .int16 (-32768), .string [102, 114, 97, 109, 101], .int32 42]

/-- The number of bytes by which the `read*` operation of the type moves the cursor
in state `s`: the width of the type, and for a string 4 plus the length prefix found
at the cursor (times `sizeof(wchar_t)` for a wide string). -/
def SharedData.readWidth (wcharSize : Nat) (s : SharedData) : Ty → Nat
  | .float => 4
  | .double => 8
  | .int64 => 8
  | .int32 => 4
  | .int16 => 2
  | .int8 => 1
  | .uint64 => 8
  | .uint32 => 4
  | .uint16 => 2
  | .uint8 => 1
  | .uchar => 1
  | .bool => 1
  | .string => 4 + fromLE (s.bytesAt s._pos 4)
  | .wstring => 4 + fromLE (s.bytesAt s._pos 4) * wcharSize

/-- The 32-bit value stored in bytes 9 to 12 of a buffer (the reserved field of the
header). -/
def storedSize (d : List Nat) : Nat :=
  fromLE ((d.drop 9).take 4)

/-- The header space has the size of the header and everything after the tag byte is
the filler `DefaultId`, as the constructor leaves it. -/
def SharedData.headerOk (c : NetworkConsts) (s : SharedData) : Prop :=
  s._headerSpace.length = c.HeaderSize ∧
    s._headerSpace.tail = List.replicate (c.HeaderSize - 1) c.DefaultId

/-- Decidability of `SharedData.headerOk`. -/
instance SharedData.decHeaderOk (c : NetworkConsts) (s : SharedData) :
    Decidable (s.headerOk c) :=
  inferInstanceAs (Decidable (_ ∧ _))

/-- The function `uncompress(dest, &destLen, source, sourceLen)` of zlib on the receiving
side: from the capacity `destLen` and the compressed bytes it gives the return code and
the bytes it stored, never more than the capacity. -/
structure Inflate where
  uncompress : Nat → List Nat → Int × List Nat
  fits : ∀ destLen source, (uncompress destLen source).2.length ≤ destLen

/-- The inverse of `sampleZlib`: it removes the 11 framing bytes, and reports
`Z_BUF_ERROR` when the result does not fit the capacity. -/
def sampleInflate : Inflate where
  uncompress := fun destLen source =>
    if source.length - 11 ≤ destLen then (Z_OK, (source.drop 7).take (source.length - 11))
    else (Z_BUF_ERROR, [])
  fits := by
    intro destLen source
    dsimp only
    split_ifs with h
    · simp only [List.length_take, List.length_drop]; omega
    · simp

/-! ## ClusterManager and the frame lock of Engine -/

/-- A call of a setter of the class `User` (declared in user.h), with its argument:
vectors and matrices are lists of their components. -/
inductive UserSetting
  | eyeSeparation (value : Rat)
  | pos (value : List Rat)
  | transform (value : List Rat)
  | headTracker (tracker device : String)
  deriving DecidableEq, Repr

/-- A user of the cluster (the class `User`): the name given to the constructor and
the setter calls made on the object so far, in order. -/
structure User where
  name : String
  settings : List UserSetting := []
  deriving DecidableEq, Repr

/-- A node of the cluster (the class `core::Node`), by address. -/
structure Node where
  address : String
  deriving DecidableEq, Repr

/-- The state of `core::ClusterManager` (src/sgct/clustermanager.cpp). -/
structure ClusterManager where
  _users : List User
  _nodes : List Node
  _thisNodeId : Int
  _ignoreSync : Bool
  _firmFrameLockSync : Bool
  _externalControlPort : Int
  _masterAddress : String
  deriving DecidableEq, Repr

namespace ClusterManager

/-- The constructor `ClusterManager::ClusterManager()`; the in-class initialisers of
the other members are in clustermanager.h and are arguments here. -/
def init (thisNodeId : Int) (ignoreSync firmFrameLockSync : Bool)
    (externalControlPort : Int) : ClusterManager :=
  { _users := [{ name := "default" }]
    _nodes := []
    _thisNodeId := thisNodeId
    _ignoreSync := ignoreSync
    _firmFrameLockSync := firmFrameLockSync
    _externalControlPort := externalControlPort
    _masterAddress := "" }

/-- The function `ClusterManager::addNode`. -/
def addNode (node : Node) (cm : ClusterManager) : ClusterManager :=
  { cm with _nodes := cm._nodes ++ [node] }

/-- The function `ClusterManager::addUser`. -/
def addUser (user : User) (cm : ClusterManager) : ClusterManager :=
  { cm with _users := cm._users ++ [user] }

/-- The function `ClusterManager::getIgnoreSync`. -/
def getIgnoreSync (cm : ClusterManager) : Bool :=
  cm._ignoreSync

/-- The function `ClusterManager::setUseIgnoreSync`. -/
def setUseIgnoreSync (state : Bool) (cm : ClusterManager) : ClusterManager :=
  { cm with _ignoreSync := state }

/-- The function `ClusterManager::getNumberOfNodes`: `static_cast<int>(_nodes.size())`. -/
def getNumberOfNodes (cm : ClusterManager) : Int :=
  toSigned 4 (cm._nodes.length % 2 ^ 32)

end ClusterManager

/-- The argument of `NetworkManager::sync`. -/
inductive SyncMode
  | SendDataToClients
  | AcknowledgeData
  deriving DecidableEq, Repr

/-- What the synchronisation code of `Engine` does that is visible outside it. -/
inductive Event
  | preSync
  | encode
  | printError
  | sync (mode : SyncMode)
  | sleep
  | condWait
  | printInfo (connection : Nat)
  deriving DecidableEq, Repr

/-- How a call ends: it returns, it throws `Error` with a code and the fixed part of
its message, or it is still in its wait loop after the last recorded wake-up. -/
inductive Outcome
  | returned
  | thrown (code : Nat) (message : String)
  | waiting
  deriving DecidableEq, Repr

/-- The events of a call, in order, and how it ended. -/
structure Run where
  events : List Event
  outcome : Outcome
  deriving DecidableEq, Repr

/-- What the frame-lock stages read from outside `Engine`'s wait loops. -/
structure FrameLockEnv where
  ignoreSync : Bool
  isComputerServer : Bool
  _syncTimeout : Rat
  _printSyncMessage : Bool

/-- What one pass through a wait loop observes: the two running flags and the number
of active connections at the loop test, `isSyncComplete()`, the value of
`glfwGetTime() - t0` in the test against 1.0, `isUpdated()` of each sync connection,
and the value of `glfwGetTime() - t0` in the test against `_syncTimeout`. -/
structure Wake where
  nmRunning : Bool
  engineRunning : Bool
  activeConnections : Int
  syncComplete : Bool
  elapsedFirst : Rat
  updated : List Bool
  elapsedSecond : Rat

namespace Engine

/-- The constant `UseSleepToWaitForNodes` of engine.cpp. -/
def UseSleepToWaitForNodes : Bool := false

/-- Lines 393 to 396 of `Engine::init`: a single node skips syncing. -/
def initIgnoreSync (cm : ClusterManager) : ClusterManager :=
  if cm.getNumberOfNodes = 1 then cm.setUseIgnoreSync true else cm

/-- The wait of one loop pass. -/
def waitEvent : Event :=
  if UseSleepToWaitForNodes then .sleep else .condWait

/-- The `while` loop of `Engine::frameLockPreStage` and the acknowledgment after it;
`ev` are the events so far. -/
def preStageLoop (env : FrameLockEnv) : List Wake → List Event → Run
  | [], ev => { events := ev, outcome := .waiting }
  | k :: rest, ev =>
    if k.nmRunning && k.engineRunning then
      if k.syncComplete then
        { events := ev ++ [.sync .AcknowledgeData], outcome := .returned }
      else
        let ev := ev ++ [waitEvent]
        if k.elapsedFirst ≤ 1 then
          preStageLoop env rest ev
        else
          let ev :=
            if env._printSyncMessage && !(k.updated.headD true) then ev ++ [.printInfo 0]
            else ev
          if k.elapsedSecond > env._syncTimeout then
            { events := ev
              outcome := .thrown 3006 "No sync signal from master after " }
          else
            preStageLoop env rest ev
    else
      { events := ev ++ [.sync .AcknowledgeData], outcome := .returned }

/-- The function `Engine::frameLockPreStage`; the statistics are left out. -/
def frameLockPreStage (env : FrameLockEnv) (wakes : List Wake) : Run :=
  let ev := [Event.sync .SendDataToClients]
  if env.ignoreSync || env.isComputerServer then
    { events := ev, outcome := .returned }
  else
    preStageLoop env wakes ev

/-- The messages of one pass of the post-stage loop: one for each sync connection that
is not updated. -/
def postStagePrints (env : FrameLockEnv) (updated : List Bool) : List Event :=
  (List.range updated.length).filterMap fun i =>
    if env._printSyncMessage && !(updated.getD i true) then some (.printInfo i) else none

/-- The `while` loop of `Engine::frameLockPostStage`. -/
def postStageLoop (env : FrameLockEnv) : List Wake → List Event → Run
  | [], ev => { events := ev, outcome := .waiting }
  | k :: rest, ev =>
    if k.nmRunning && k.engineRunning && decide (k.activeConnections > 0) then
      if k.syncComplete then
        { events := ev, outcome := .returned }
      else
        let ev := ev ++ [waitEvent]
        if k.elapsedFirst ≤ 1 then
          postStageLoop env rest ev
        else
          let ev := ev ++ postStagePrints env k.updated
          if k.elapsedSecond > env._syncTimeout then
            { events := ev
              outcome := .thrown 3007 "No sync signal from slaves after " }
          else
            postStageLoop env rest ev
    else
      { events := ev, outcome := .returned }

/-- The function `Engine::frameLockPostStage`; the statistics are left out. -/
def frameLockPostStage (env : FrameLockEnv) (wakes : List Wake) : Run :=
  if env.ignoreSync || !env.isComputerServer then
    { events := [], outcome := .returned }
  else
    postStageLoop env wakes []

/-- Lines 1016 to 1030 of `Engine::render`, the start of one frame: the pre-sync
callback, `SharedData::encode` on the server (on a client whose network manager
stopped, an error message and the end of the loop), then `frameLockPreStage`. The
result is the state of the shared data, the events in order and how the frame-lock
stage ended. -/
def renderSyncPhase {U : Type} (c : NetworkConsts) (z : Zlib) (env : FrameLockEnv)
    (nmRunning : Bool) (preSyncFn encodeFn : Option (World U → World U))
    (wakes : List Wake) (w : World U) : World U × Run :=
  let (w, ev) :=
    match preSyncFn with
    | some f => (f w, [Event.preSync])
    | none => (w, [])
  if env.isComputerServer then
    let w := encode c z encodeFn w
    let r := frameLockPreStage env wakes
    (w, { events := ev ++ [.encode] ++ r.events, outcome := r.outcome })
  else if !nmRunning then
    (w, { events := ev ++ [.printError], outcome := .returned })
  else
    let r := frameLockPreStage env wakes
    (w, { events := ev ++ r.events, outcome := r.outcome })

end Engine

/-! ## The error table, network initialisation, cluster configuration -/

/-- The entries 3000 to 3010 of the table of error codes in error.h: the component and
the message documented for a code. -/
def errorTable : Nat → Option (String × String)
  | 3000 => some ("Engine", "Failed to initialize GLFW")
  | 3001 => some ("Engine", "Requested node id was not found in the cluster configuration")
  | 3002 => some ("Engine", "When running locally, a node ID needs to be specified")
  | 3003 => some ("Engine", "Computer is not a part of the cluster configuration")
  | 3004 => some ("Engine", "No sync signal from master after X seconds")
  | 3005 => some ("Engine", "No sync signal from clients after X seconds")
  | 3006 => some ("Engine", "Error requesting maximum number of swap groups")
  | 3010 => some ("Engine", "GLFW error")
  | _ => none

namespace ClusterManager

/-- The function `ClusterManager::getThisNodeId`. -/
def getThisNodeId (cm : ClusterManager) : Int :=
  cm._thisNodeId

/-- The function `ClusterManager::setThisNodeId`. -/
def setThisNodeId (id : Int) (cm : ClusterManager) : ClusterManager :=
  { cm with _thisNodeId := id }

/-- The function `ClusterManager::setExternalControlPort`. -/
def setExternalControlPort (port : Int) (cm : ClusterManager) : ClusterManager :=
  { cm with _externalControlPort := port }

/-- The function `ClusterManager::setFirmFrameLockSyncStatus`. -/
def setFirmFrameLockSyncStatus (state : Bool) (cm : ClusterManager) : ClusterManager :=
  { cm with _firmFrameLockSync := state }

/-- The function `ClusterManager::getDefaultUser`, the unchecked `_users[0]`: `none`
when the list is empty. -/
def getDefaultUser (cm : ClusterManager) : Option User :=
  cm._users.head?

end ClusterManager

/-- A user of the configuration (`config::User`, declared in config.h). -/
structure ConfigUser where
  name : Option String
  eyeSeparation : Option Rat
  position : Option (List Rat)
  transformation : Option (List Rat)
  tracking : Option (String × String)
  deriving DecidableEq, Repr

/-- The configuration of a cluster (`config::Cluster`, declared in config.h), as far as
`applyCluster` stores it in `ClusterManager`; a configured node is the node that
`Node::applyNode` makes of it. -/
structure ConfigCluster where
  masterAddress : String
  externalControlPort : Option Int
  firmSync : Option Bool
  users : List ConfigUser
  nodes : List Node
  deriving DecidableEq, Repr

namespace ClusterManager

/-- The four conditional setter calls on `usrPtr` in the user loop of `applyCluster`. -/
def configureUser (user : ConfigUser) (u : User) : User :=
  let u :=
    match user.eyeSeparation with
    | some v => { u with settings := u.settings ++ [.eyeSeparation v] }
    | none => u
  let u :=
    match user.position with
    | some v => { u with settings := u.settings ++ [.pos v] }
    | none => u
  let u :=
    match user.transformation with
    | some v => { u with settings := u.settings ++ [.transform v] }
    | none => u
  match user.tracking with
  | some (tracker, device) => { u with settings := u.settings ++ [.headTracker tracker device] }
  | none => u

/-- An update of the element that `_users[0]` refers to. -/
def modifyFront (f : User → User) : List User → List User
  | [] => []
  | u :: us => f u :: us

/-- An update of the element that `_users.back()` refers to. -/
def modifyBack (f : User → User) : List User → List User
  | [] => []
  | [u] => [f u]
  | u :: v :: us => u :: modifyBack f (v :: us)

/-- One pass of the user loop of `ClusterManager::applyCluster`. -/
def applyUser (cm : ClusterManager) (user : ConfigUser) : ClusterManager :=
  match user.name with
  | some name =>
    let cm := cm.addUser { name := name }
    { cm with _users := modifyBack (configureUser user) cm._users }
  | none =>
    { cm with _users := modifyFront (configureUser user) cm._users }

/-- The function `ClusterManager::applyCluster`; the log level, the scene transform
and the `Settings` singleton are left out. -/
def applyCluster (cluster : ConfigCluster) (cm : ClusterManager) : ClusterManager :=
  let cm := { cm with _masterAddress := cluster.masterAddress }
  let cm :=
    match cluster.externalControlPort with
    | some port => cm.setExternalControlPort port
    | none => cm
  let cm :=
    match cluster.firmSync with
    | some state => cm.setFirmFrameLockSyncStatus state
    | none => cm
  let cm := cluster.users.foldl applyUser cm
  cluster.nodes.foldl (fun cm node => cm.addNode node) cm

/-- The states of `ClusterManager` that the constructor followed by `addUser`,
`addNode`, `applyCluster` and the setters can produce. -/
inductive Reachable : ClusterManager → Prop
  | init (thisNodeId : Int) (ignoreSync firmFrameLockSync : Bool)
      (externalControlPort : Int) :
      Reachable (init thisNodeId ignoreSync firmFrameLockSync externalControlPort)
  | addUser (user : User) (cm : ClusterManager) : Reachable cm → Reachable (cm.addUser user)
  | addNode (node : Node) (cm : ClusterManager) : Reachable cm → Reachable (cm.addNode node)
  | applyCluster (cluster : ConfigCluster) (cm : ClusterManager) :
      Reachable cm → Reachable (cm.applyCluster cluster)
  | setUseIgnoreSync (state : Bool) (cm : ClusterManager) :
      Reachable cm → Reachable (cm.setUseIgnoreSync state)
  | setExternalControlPort (port : Int) (cm : ClusterManager) :
      Reachable cm → Reachable (cm.setExternalControlPort port)
  | setThisNodeId (id : Int) (cm : ClusterManager) :
      Reachable cm → Reachable (cm.setThisNodeId id)
  | setFirmFrameLockSyncStatus (state : Bool) (cm : ClusterManager) :
      Reachable cm → Reachable (cm.setFirmFrameLockSyncStatus state)

end ClusterManager

/-- A call that `Engine::initNetwork` makes on `NetworkManager`. -/
inductive NetworkCall
  | create
  | retrieveNodeId
  | close
  | init
  deriving DecidableEq, Repr

/-- The result of `Engine::initNetwork`: the cluster manager, the calls made on
`NetworkManager` in order, and how the function ended. -/
structure InitNetworkRun where
  cluster : ClusterManager
  calls : List NetworkCall
  outcome : Outcome

/-- The function `Engine::initNetwork` of engine.cpp. `remote` says that the network
mode is `Remote`; `retrieveNodeId` is what `NetworkManager::retrieveNodeId` does to the
cluster manager and `networkInitSuccess` what `NetworkManager::init` returns, both
defined outside the sources. -/
def Engine.initNetwork (remote : Bool) (retrieveNodeId : ClusterManager → ClusterManager)
    (networkInitSuccess : Bool) (cm : ClusterManager) : InitNetworkRun :=
  let calls := [NetworkCall.create]
  let (cm, calls) :=
    if remote then (retrieveNodeId cm, calls ++ [NetworkCall.retrieveNodeId])
    else (cm, calls)
  if cm.getThisNodeId ≥ cm.getNumberOfNodes ∨ cm.getThisNodeId < 0 then
    { cluster := cm, calls := calls ++ [.close]
      outcome := .thrown 3001 "Computer is not a part of the cluster configuration" }
  else
    let calls := calls ++ [.init]
    if !networkInitSuccess then
      { cluster := cm, calls := calls
        outcome := .thrown 3002 "Error initializing network connections" }
    else
      { cluster := cm, calls := calls, outcome := .returned }

/-! ## One pass of the render loop -/

/-- A step of one pass of the loop of `Engine::render`, as far as the order of the
synchronisation is concerned; a frame-lock stage carries its events. The drawing of all
windows is one step, the copy to the screen another. -/
inductive Step
  | updateTracking
  | preSync
  | encode
  | printError
  | preStage (events : List Event)
  | updateWindows
  | postSyncPreDraw
  | draw
  | renderToScreen
  | postDraw
  | postStage (events : List Event)
  | swap
  | pollEvents
  deriving DecidableEq, Repr

/-- Which of the callbacks `_preSyncFn`, `_postSyncPreDrawFn` and `_postDrawFn` are
set. -/
structure RenderCallbacks where
  preSync : Bool
  postSyncPreDraw : Bool
  postDraw : Bool

/-- The steps of one pass of the render loop, in order, and how the pass ended. -/
structure FrameRun where
  steps : List Step
  outcome : Outcome
  deriving DecidableEq, Repr

namespace Engine

/-- Lines 1032 to 1236 of `Engine::render` of engine.cpp, from the update of the
windows after `frameLockPreStage` to the end of the pass; `steps` are the steps so
far. -/
def renderAfterPreStage (env : FrameLockEnv) (cb : RenderCallbacks)
    (wakesPost : List Wake) (steps : List Step) : FrameRun :=
  let steps := steps ++ [.updateWindows]
  let steps := if cb.postSyncPreDraw then steps ++ [.postSyncPreDraw] else steps
  let steps := steps ++ [.draw, .renderToScreen]
  let steps := if cb.postDraw then steps ++ [.postDraw] else steps
  let post := frameLockPostStage env wakesPost
  let steps := steps ++ [.postStage post.events]
  match post.outcome with
  | .returned => { steps := steps ++ [.swap, .pollEvents], outcome := .returned }
  | o => { steps := steps, outcome := o }

/-- One pass of the `while (_isRunning)` loop of `Engine::render` of engine.cpp.
`nmRunning` is `NetworkManager::isRunning()` at line 1024; `env.isComputerServer` is
also the value of `isMaster()`. A pass that leaves the loop at the `break` ends with
the step `printError`. -/
def renderIteration (env : FrameLockEnv) (cb : RenderCallbacks) (nmRunning : Bool)
    (wakesPre wakesPost : List Wake) : FrameRun :=
  let steps := if env.isComputerServer then [Step.updateTracking] else []
  let steps := if cb.preSync then steps ++ [.preSync] else steps
  if env.isComputerServer then
    let steps := steps ++ [.encode]
    let pre := frameLockPreStage env wakesPre
    let steps := steps ++ [.preStage pre.events]
    match pre.outcome with
    | .returned => renderAfterPreStage env cb wakesPost steps
    | o => { steps := steps, outcome := o }
  else if !nmRunning then
    { steps := steps ++ [.printError], outcome := .returned }
  else
    let pre := frameLockPreStage env wakesPre
    let steps := steps ++ [.preStage pre.events]
    match pre.outcome with
    | .returned => renderAfterPreStage env cb wakesPost steps
    | o => { steps := steps, outcome := o }

/-- Lines 882 to 892 of the legacy `sgct::Engine::render` of Engine.cpp: the post
stage before `glfwSwapBuffers()` when the swap barrier is not active, after it when the
barrier is active. -/
def legacyFrameEnd (barrierActive : Bool) (postStageEvents : List Event) : List Step :=
  let steps := if !barrierActive then [Step.postStage postStageEvents] else []
  let steps := steps ++ [.swap]
  if barrierActive then steps ++ [.postStage postStageEvents] else steps

end Engine

/-! ## The arguments of the legacy engine -/

/-- The values of `NetworkManager::NetworkMode` that the legacy `parseArguments` uses. -/
inductive LocalRunningMode
  | NotLocal
  | LocalServer
  | LocalClient
  deriving DecidableEq, Repr

/-- The values of `SGCTSettings::FBOMode`. -/
inductive FBOMode
  | NoFBO
  | RegularFBO
  | MultiSampledFBO
  deriving DecidableEq, Repr

/-- The values of `ScreenCapture::CaptureFormat`. -/
inductive CaptureFormat
  | TGA
  | PNG
  deriving DecidableEq, Repr

/-- What the legacy `sgct::Engine::parseArguments` writes besides `argc` and `argv`. -/
structure LegacySettings where
  configFilename : String
  localRunningMode : LocalRunningMode
  thisNodeId : Int
  mIgnoreSync : Bool
  fboMode : FBOMode
  fxaa : Bool
  captureFormat : CaptureFormat
  numberOfCaptureThreads : Int
  deriving DecidableEq, Repr

namespace LegacyEngine

/-- The `while (i < argc)` loop of the legacy `sgct::Engine::parseArguments`
(Engine.cpp): the settings and the deque `argumentsToRemove`. `readInt` is the
extraction `ss >> tmpi` of an int from the text of an argument. -/
def parseLoop (readInt : String → Int) (argv : List String) (i : Nat)
    (st : LegacySettings) (argumentsToRemove : List Nat) : LegacySettings × List Nat :=
  if i < argv.length then
    if argv.getD i "" = "-config" ∧ argv.length > i + 1 then
      parseLoop readInt argv (i + 2) { st with configFilename := argv.getD (i + 1) "" }
        (argumentsToRemove ++ [i, i + 1])
    else if argv.getD i "" = "--client" then
      parseLoop readInt argv (i + 1) { st with localRunningMode := .LocalClient }
        (argumentsToRemove ++ [i])
    else if argv.getD i "" = "--slave" then
      parseLoop readInt argv (i + 1) { st with localRunningMode := .LocalClient }
        (argumentsToRemove ++ [i])
    else if argv.getD i "" = "-local" ∧ argv.length > i + 1 then
      parseLoop readInt argv (i + 2)
        { st with localRunningMode := .LocalServer
                  thisNodeId := readInt (argv.getD (i + 1) "") }
        (argumentsToRemove ++ [i, i + 1])
    else if argv.getD i "" = "--Ignore-Sync" then
      parseLoop readInt argv (i + 1) { st with mIgnoreSync := true }
        (argumentsToRemove ++ [i])
    else if argv.getD i "" = "--No-FBO" then
      parseLoop readInt argv (i + 1) { st with fboMode := .NoFBO }
        (argumentsToRemove ++ [i])
    else if argv.getD i "" = "--Regular-FBO" then
      parseLoop readInt argv (i + 1) { st with fboMode := .RegularFBO }
        (argumentsToRemove ++ [i])
    else if argv.getD i "" = "--MultiSampled-FBO" then
      parseLoop readInt argv (i + 1) { st with fboMode := .MultiSampledFBO }
        (argumentsToRemove ++ [i])
    else if argv.getD i "" = "--FXAA" then
      parseLoop readInt argv (i + 1) { st with fxaa := true }
        (argumentsToRemove ++ [i])
    else if argv.getD i "" = "--Capture-TGA" then
      parseLoop readInt argv (i + 1) { st with captureFormat := .TGA }
        (argumentsToRemove ++ [i])
    else if argv.getD i "" = "--Capture-PNG" then
      parseLoop readInt argv (i + 1) { st with captureFormat := .PNG }
        (argumentsToRemove ++ [i])
    else if argv.getD i "" = "-numberOfCaptureThreads" ∧ argv.length > i + 1 then
      parseLoop readInt argv (i + 2)
        (if readInt (argv.getD (i + 1) "") > 0 then
          { st with numberOfCaptureThreads := readInt (argv.getD (i + 1) "") }
         else st)
        (argumentsToRemove ++ [i, i + 1])
    else
      parseLoop readInt argv (i + 1) st argumentsToRemove
  else
    (st, argumentsToRemove)
termination_by argv.length - i
decreasing_by all_goals simp_wf; all_goals omega

/-- The `for` loop that copies the arguments that stay: `oldIterator` counts the
arguments of `argv` passed so far, and the front of the deque is popped when it is the
index of the argument at hand. -/
def copyLoop : List String → Nat → List Nat → List String
  | [], _, _ => []
  | arg :: rest, oldIterator, argumentsToRemove =>
    if argumentsToRemove.head? = some oldIterator then
      copyLoop rest (oldIterator + 1) argumentsToRemove.tail
    else
      arg :: copyLoop rest (oldIterator + 1) argumentsToRemove

/-- The result of the legacy `parseArguments`: the new values of `argc` and `argv` and
the settings. -/
structure ParseResult where
  argc : Int
  argv : List String
  settings : LegacySettings
  deriving DecidableEq, Repr

/-- The legacy `sgct::Engine::parseArguments(argc, argv)` for `argc` the number of
strings in `argv`. -/
def parseArguments (readInt : String → Int) (argv : List String) (st : LegacySettings) :
    ParseResult :=
  let argc : Int := argv.length
  let r := parseLoop readInt argv 0 st []
  if r.2.length > 0 then
    let newArgc := argc - r.2.length
    { argc := newArgc, argv := copyLoop argv 0 r.2, settings := r.1 }
  else
    { argc := argc, argv := argv, settings := r.1 }

/-- The flags of SGCT that take the following argument as their value. -/
def valueFlags : List String :=
  ["-config", "-local", "-numberOfCaptureThreads"]

/-- The flags of SGCT that stand alone. -/
def plainFlags : List String :=
  ["--client", "--slave", "--Ignore-Sync", "--No-FBO", "--Regular-FBO",
   "--MultiSampled-FBO", "--FXAA", "--Capture-TGA", "--Capture-PNG"]

/-- The arguments that are not consumed, in the words of the specification: a flag
that takes a value is removed together with the argument after it, a flag that stands
alone is removed, every other argument stays, in the original order. A flag that takes
a value and is the last argument has no argument after it and stays. -/
def keptArguments : List String → List String
  | [] => []
  | [arg] => if arg ∈ plainFlags then [] else [arg]
  | arg :: value :: rest =>
    if arg ∈ valueFlags then keptArguments rest
    else if arg ∈ plainFlags then keptArguments (value :: rest)
    else arg :: keptArguments (value :: rest)

end LegacyEngine

/-! ## Sample inputs of the frame lock -/

/-- A client that does not ignore the sync, with the given timeout in seconds. -/
def sampleClient (timeout : Rat) : FrameLockEnv :=
  { ignoreSync := false, isComputerServer := false, _syncTimeout := timeout
    _printSyncMessage := true }

/-- A server that does not ignore the sync, with the given timeout in seconds. -/
def sampleServer (timeout : Rat) : FrameLockEnv :=
  { ignoreSync := false, isComputerServer := true, _syncTimeout := timeout
    _printSyncMessage := true }

/-- A wake-up with everything running, one active connection that is not updated, the
sync incomplete, and the given time elapsed at both readings of the clock. -/
def sampleWake (elapsed : Rat) : Wake :=
  { nmRunning := true, engineRunning := true, activeConnections := 1
    syncComplete := false, elapsedFirst := elapsed, updated := [false]
    elapsedSecond := elapsed }

/-- A loop test at which the network manager has stopped running, the sync being
incomplete. -/
def stoppedWake : Wake :=
  { nmRunning := false, engineRunning := true, activeConnections := 1
    syncComplete := false, elapsedFirst := 0, updated := [false], elapsedSecond := 0 }

/-- A wake-up at which the sync is complete. -/
def doneWake : Wake :=
  { nmRunning := true, engineRunning := true, activeConnections := 1
    syncComplete := true, elapsedFirst := 0, updated := [true], elapsedSecond := 0 }

/-- The component that the macro `Error(code, msg)` of engine.cpp (line 32) gives to
every error that `Engine` throws. -/
def Engine.errorComponent : String := "Engine"

/-- Whether a step is a run of `frameLockPostStage`. -/
def Step.isPostStage : Step → Bool
  | .postStage _ => true
  | _ => false

/-- A cluster manager after construction and the configuration of two nodes and of two
users, one of them without a name. -/
def sampleCluster : ClusterManager :=
  (ClusterManager.init 0 false false 0).applyCluster
    { masterAddress := "10.0.0.1", externalControlPort := some 20500, firmSync := none
      users := [{ name := none, eyeSeparation := some (13 / 200), position := none
                  transformation := none, tracking := none },
                { name := some "guest", eyeSeparation := none, position := some [0, 0, 4]
                  transformation := none, tracking := some ("head", "glasses") }]
      nodes := [{ address := "10.0.0.1" }, { address := "10.0.0.2" }] }

/-- Whether a step is the buffer swap. -/
def Step.isSwap : Step → Bool
  | .swap => true
  | _ => false

/-- The invariant of the user list: the first user exists and is named "default". -/
def ClusterManager.DefaultFirst (users : List User) : Prop :=
  ∃ u rest, users = u :: rest ∧ u.name = "default"

/-- The settings of the legacy engine before the arguments are parsed, as a sample. -/
def sampleSettings : LegacySettings :=
  { configFilename := "", localRunningMode := .NotLocal, thisNodeId := -1
    mIgnoreSync := false, fboMode := .MultiSampledFBO, fxaa := false
    captureFormat := .PNG, numberOfCaptureThreads := 4 }

/-! ## The widths of the shared values -/

/-- The number of bytes of a value in the buffer according to the specification: 1 for
bool, unsigned char, int8 and uint8; 2, 4 and 8 for the wider integers; 4 for float; 8
for double; 4 + length for a narrow string; 4 + length * sizeof(wchar_t) for a wide
string. -/
def Val.width (wcharSize : Nat) : Val → Nat
  | .float _ => 4
  | .double _ => 8
  | .int64 _ => 8
  | .int32 _ => 4
  | .int16 _ => 2
  | .int8 _ => 1
  | .uint64 _ => 8
  | .uint32 _ => 4
  | .uint16 _ => 2
  | .uint8 _ => 1
  | .uchar _ => 1
  | .bool _ => 1
  | .string str => 4 + str.length
  | .wstring w => 4 + w.length * wcharSize

/-- The length of a narrow or wide string fits the 32-bit length prefix; true of every
value that is not a string. -/
def Val.prefixFits : Val → Prop
  | .string str => str.length < 2 ^ 32
  | .wstring w => w.length < 2 ^ 32
  | _ => True

/-- Decidability of `Val.prefixFits`. -/
instance Val.decPrefixFits : (v : Val) → Decidable v.prefixFits
  | .string str => inferInstanceAs (Decidable (str.length < 2 ^ 32))
  | .wstring w => inferInstanceAs (Decidable (w.length < 2 ^ 32))
  | .float _ | .double _ | .int64 _ | .int32 _ | .int16 _ | .int8 _ | .uint64 _
  | .uint32 _ | .uint16 _ | .uint8 _ | .uchar _ | .bool _ =>
    inferInstanceAs (Decidable True)

/-- The contents of the vector that `_currentStorage` points to. -/
def SharedData.current (s : SharedData) : List Nat :=
  match s._currentStorage with
  | .dataBlock => s._dataBlock
  | .dataBlockToCompress => s._dataBlockToCompress

/-! ## The node check of the legacy engine -/

/-- What the legacy `sgct::Engine::initNetwork` does that is visible outside it. -/
inductive LegacyCall
  | create
  | matchAddress (ip : String)
  | close
  | printNodeInfo (index : Nat)
  | init
  deriving DecidableEq, Repr

/-- The result of the legacy `initNetwork`: the node id it leaves in the cluster
manager, its calls in order and the value it returns. -/
structure LegacyInitRun where
  thisNodeId : Int
  calls : List LegacyCall
  result : Bool
  deriving DecidableEq, Repr

namespace LegacyEngine

/-- The loop of the legacy `initNetwork` that looks for the first node whose address
matches: the calls of `matchAddress` and the index found, if any; `i` is the index of
the head of the list. -/
def matchLoop (matchAddress : String → Bool) : List String → Nat → List LegacyCall × Option Nat
  | [], _ => ([], none)
  | ip :: rest, i =>
    if matchAddress ip then ([.matchAddress ip], some i)
    else
      let r := matchLoop matchAddress rest (i + 1)
      (.matchAddress ip :: r.1, r.2)

/-- The condition of the fatal branch of the legacy `initNetwork` (Engine.cpp lines 267
and 268): the node id is -1, or at least `static_cast<int>(getNumberOfNodes())`. -/
def rejectsNodeId (thisNodeId : Int) (numberOfNodes : Nat) : Bool :=
  decide (thisNodeId = -1 ∨ thisNodeId ≥ toSigned 4 (numberOfNodes % 2 ^ 32))

/-- The legacy `sgct::Engine::initNetwork` (Engine.cpp). `constructed` says that
`new NetworkManager` did not throw, `nodeIps` are the addresses of the configured nodes,
`thisNodeId` the node id before the call, `matchAddress` and `initResult` what
`NetworkManager::matchAddress` and `NetworkManager::init` return. -/
def initNetwork (constructed : Bool) (mode : LocalRunningMode)
    (matchAddress : String → Bool) (nodeIps : List String) (thisNodeId : Int)
    (initResult : Bool) : LegacyInitRun :=
  if !constructed then
    { thisNodeId := thisNodeId, calls := [.create], result := false }
  else
    let calls := [LegacyCall.create]
    let (calls, thisNodeId) :=
      if mode = .NotLocal then
        let r := matchLoop matchAddress nodeIps 0
        match r.2 with
        | some i => (calls ++ r.1, toSigned 4 (i % 2 ^ 32))
        | none => (calls ++ r.1, thisNodeId)
      else (calls, thisNodeId)
    if rejectsNodeId thisNodeId nodeIps.length then
      { thisNodeId := thisNodeId, calls := calls ++ [.close], result := false }
    else
      let calls := calls ++ [.printNodeInfo (ofSigned 4 thisNodeId)]
      let calls := calls ++ [.init]
      if !initResult then
        { thisNodeId := thisNodeId, calls := calls, result := false }
      else
        { thisNodeId := thisNodeId, calls := calls, result := true }

end LegacyEngine

/-- The condition of the fatal branch of `Engine::initNetwork` of engine.cpp (lines 503
to 505), on the node id and the value of `getNumberOfNodes()`. -/
def Engine.rejectsNodeId (thisNodeId numberOfNodes : Int) : Bool :=
  decide (thisNodeId ≥ numberOfNodes ∨ thisNodeId < 0)

/-! ## The frame-time statistics -/

/-- The function `Engine::getAvgDt`; `HistoryLength` is `Statistics::HistoryLength`
(declared in engine.h) and the doubles are rationals. -/
def Engine.getAvgDt (HistoryLength : Nat) (frametimes : List Rat) : Rat :=
  let accFrameTime := frametimes.foldl (fun acc x => acc + x) (0 : Rat)
  let avgFrametime := accFrameTime / HistoryLength
  avgFrametime

/-- The function `Engine::getDtStandardDeviation`. -/
def Engine.getDtStandardDeviation (HistoryLength : Nat) (frametimes : List Rat) : Rat :=
  let avg := Engine.getAvgDt HistoryLength frametimes
  let sumSquare := frametimes.foldl (fun cur rhs => cur + (rhs - avg) ^ 2) (0 : Rat)
  sumSquare / HistoryLength

/-- The mean over the stored frame times of the squared deviation from their mean, in
the words of the specification. -/
def meanSquaredDeviation (frametimes : List Rat) : Rat :=
  (frametimes.map (fun x => (x - frametimes.sum / frametimes.length) ^ 2)).sum /
    frametimes.length

/-! ## Run-length coded TGA data: decoding -/

/-- The members `_sizeX`, `_sizeY` and `_nChannels` of `Image`. -/
structure ImageSize where
  _sizeX : Nat
  _sizeY : Nat
  _nChannels : Nat
  deriving DecidableEq, Repr

/-- The number of bytes of the pixel buffer `_data` of a TGA image (one byte per
channel). -/
def ImageSize.dataSize (img : ImageSize) : Nat :=
  img._sizeX * img._sizeY * img._nChannels

/-- The local variables of `Image::decodeTGARLE(data, len)`, with the offsets into
`data` that were read and the offsets into `_data` that were written, in order. -/
structure TgaDecode where
  index : Nat
  currentbyte : Nat
  currentpixel : Nat
  reads : List Nat
  writes : List Nat
  deriving DecidableEq, Repr

namespace TgaDecode

/-- The statements `memcpy(&_data[currentbyte], &data[index], _nChannels)`,
`index += _nChannels`, `currentbyte += _nChannels`, `currentpixel++`. -/
def copyFromInput (nChannels : Nat) (st : TgaDecode) : TgaDecode :=
  { index := st.index + nChannels
    currentbyte := st.currentbyte + nChannels
    currentpixel := st.currentpixel + 1
    reads := st.reads ++ (List.range nChannels).map (fun k => st.index + k)
    writes := st.writes ++ (List.range nChannels).map (fun k => st.currentbyte + k) }

/-- The statements `memcpy(&_data[currentbyte], chunkPtr, _nChannels)`,
`currentbyte += _nChannels`, `currentpixel++`. -/
def copyFromChunk (nChannels : Nat) (st : TgaDecode) : TgaDecode :=
  { st with
    currentbyte := st.currentbyte + nChannels
    currentpixel := st.currentpixel + 1
    writes := st.writes ++ (List.range nChannels).map (fun k => st.currentbyte + k) }

end TgaDecode

namespace Image

/-- The `for` loop of a raw packet of `decodeTGARLE(data, len)` with `n` passes left:
the state, and false when the function returns false. -/
def rawPacketLoop (len nChannels pixelcount : Nat) : Nat → TgaDecode → TgaDecode × Bool
  | 0, st => (st, true)
  | n + 1, st =>
    if len ≥ st.index + nChannels then
      let st := st.copyFromInput nChannels
      if st.currentpixel > pixelcount then (st, false)
      else rawPacketLoop len nChannels pixelcount n st
    else (st, false)

/-- The `for` loop of a run-length packet of `decodeTGARLE(data, len)` with `n` passes
left. -/
def rlePacketLoop (nChannels pixelcount : Nat) : Nat → TgaDecode → TgaDecode × Bool
  | 0, st => (st, true)
  | n + 1, st =>
    let st := st.copyFromChunk nChannels
    if st.currentpixel > pixelcount then (st, false)
    else rlePacketLoop nChannels pixelcount n st

/-- One pass of the `do` loop of `decodeTGARLE(data, len)`: the packet header and the
packet. -/
def decodePacket (data : List Nat) (len nChannels pixelcount : Nat) (st : TgaDecode) :
    TgaDecode × Bool :=
  if len > st.index then
    let chunkheader := data.getD st.index 0 % 256
    let st := { st with reads := st.reads ++ [st.index], index := st.index + 1 }
    if chunkheader < 128 then
      let chunkheader := chunkheader + 1
      rawPacketLoop len nChannels pixelcount chunkheader st
    else
      let chunkheader := chunkheader - 127
      if len ≥ st.index + nChannels then
        let st := st.copyFromInput nChannels
        rlePacketLoop nChannels pixelcount (chunkheader - 1) st
      else (st, false)
  else (st, false)

/-- The `do ... while (currentpixel < pixelcount)` loop of `decodeTGARLE(data, len)`
with `fuel` passes allowed: the final state and the value returned, `none` when the
passes are used up. -/
def decodeLoop (data : List Nat) (len nChannels pixelcount : Nat) :
    Nat → TgaDecode → Option (TgaDecode × Bool)
  | 0, _ => none
  | fuel + 1, st =>
    let r := decodePacket data len nChannels pixelcount st
    if !r.2 then some (r.1, false)
    else if r.1.currentpixel < pixelcount then
      decodeLoop data len nChannels pixelcount fuel r.1
    else some (r.1, true)

/-- The function `Image::decodeTGARLE(unsigned char* data, size_t len)`. Every pass of
the `do` loop that goes on adds a pixel, so `pixelcount + 1` passes are enough. -/
def decodeTGARLE (img : ImageSize) (data : List Nat) (len : Nat) :
    Option (TgaDecode × Bool) :=
  let pixelcount := img._sizeX * img._sizeY % 2 ^ 64
  decodeLoop data len img._nChannels pixelcount (pixelcount + 1)
    { index := 0, currentbyte := 0, currentpixel := 0, reads := [], writes := [] }

end Image

/-! ## Run-length coded TGA data: encoding -/

/-- An image whose pixel buffer is read unchecked: `mem i` is the byte at `_data + i`. -/
structure TgaImage where
  _sizeX : Nat
  _sizeY : Nat
  _nChannels : Nat
  mem : Nat → Nat

/-- A packet that `saveTGA` writes: the header byte, the position in the row and the
number of pixels it stands for, and whether it is a run. -/
structure TgaPacket where
  packetHeader : Nat
  pos : Nat
  len : Nat
  rle : Bool
  deriving DecidableEq, Repr

/-- The difference of two `size_t` values. -/
def subSize (a b : Nat) : Nat :=
  ((a : Int) - (b : Int)) % 2 ^ 64 |>.toNat

namespace Image

/-- The test `memcmp(_data + p, _data + q, _nChannels) == 0`. -/
def samePixel (img : TgaImage) (p q : Nat) : Bool :=
  (List.range img._nChannels).all fun k => img.mem (p + k) == img.mem (q + k)

/-- The function `Image::isTGAPackageRLE(row, pos)`; `row` is the offset of the row in
`_data`. -/
def isTGAPackageRLE (img : TgaImage) (row pos : Nat) : Bool :=
  if pos = subSize img._sizeX 1 then false
  else
    let p0 := row + pos * img._nChannels
    let p1 := p0 + img._nChannels
    decide (pos < subSize img._sizeX 2) && samePixel img p0 p1 &&
      samePixel img p1 (p1 + img._nChannels)

/-- The `while` loop of the run branch of `getTGAPackageLength` with `n` passes left;
the loop returns when `len` reaches 128, so 126 passes from `len = 2` are enough. -/
def runLengthLoop (img : TgaImage) (row pos : Nat) : Nat → Nat → Nat
  | 0, len => len
  | n + 1, len =>
    if (pos + len) % 2 ^ 64 < img._sizeX then
      if samePixel img (row + pos * img._nChannels) (row + (pos + len) * img._nChannels)
      then
        if len + 1 = 128 then 128 else runLengthLoop img row pos n (len + 1)
      else len
    else len

/-- The `while` loop of the raw branch of `getTGAPackageLength` with `n` passes left. -/
def rawLengthLoop (img : TgaImage) (row pos : Nat) : Nat → Nat → Nat
  | 0, len => len
  | n + 1, len =>
    if (pos + len) % 2 ^ 64 < img._sizeX then
      if isTGAPackageRLE img row ((pos + len) % 2 ^ 64) then len
      else if len + 1 = 128 then 128 else rawLengthLoop img row pos n (len + 1)
    else len

/-- The function `Image::getTGAPackageLength(row, pos, rle)`. -/
def getTGAPackageLength (img : TgaImage) (row pos : Nat) (rle : Bool) : Nat :=
  if subSize img._sizeX pos < 3 then subSize img._sizeX pos
  else if rle then runLengthLoop img row pos 126 2
  else rawLengthLoop img row pos 126 2

/-- The loop `while (pos < _sizeY)` of `Image::saveTGA` for the row `y`, with `fuel`
passes allowed: the packets written, `none` when the passes are used up. -/
def saveRowLoop (img : TgaImage) (y : Nat) : Nat → Nat → List TgaPacket →
    Option (List TgaPacket)
  | 0, _, _ => none
  | fuel + 1, pos, out =>
    if pos < img._sizeY then
      let row := y * img._sizeX * img._nChannels
      let rle := isTGAPackageRLE img row pos
      let len := getTGAPackageLength img row pos rle
      let packetHeader := ((len % 256 : Nat) + 255) % 256
      let packetHeader := if rle then packetHeader ||| 128 else packetHeader
      saveRowLoop img y fuel ((pos + len) % 2 ^ 64)
        (out ++ [{ packetHeader := packetHeader, pos := pos, len := len, rle := rle }])
    else some out

end Image

/-- A sample image from the bytes of its pixel buffer; bytes past the buffer read as 0. -/
def sampleImage (sizeX sizeY nChannels : Nat) (bytes : List Nat) : TgaImage :=
  { _sizeX := sizeX, _sizeY := sizeY, _nChannels := nChannels
    mem := fun i => bytes.getD i 0 }

/-! ## The arrays of the sphere -/

/-- The difference of two `unsigned int` values. -/
def subU32 (a b : Nat) : Nat :=
  (a % 2 ^ 32 + 2 ^ 32 - b % 2 ^ 32) % 2 ^ 32

/-- What `Sphere::createVBO` does to its two arrays: `_nVertices` and `_nFaces`, the
subscripts of `verts` it assigns, and the subscripts of `indices` it assigns with the
values stored, all in order. -/
structure SphereArrays where
  nVertices : Nat
  nFaces : Nat
  vertexWrites : List Nat
  indexWrites : List (Nat × Nat)
  deriving DecidableEq, Repr

namespace Sphere

/-- The assignments of lines 116 to 123, the two triangles of one cell of the middle
part. -/
def middleCell (hsegs j i : Nat) : List (Nat × Nat) :=
  let base := (3 * (hsegs + 2 * (j * hsegs + i))) % 2 ^ 32
  let i0 := (1 + j * (hsegs + 1) + i) % 2 ^ 32
  [(base, i0),
   ((base + 1) % 2 ^ 32, (i0 + 1) % 2 ^ 32),
   ((base + 2) % 2 ^ 32, (i0 + hsegs + 1) % 2 ^ 32),
   ((base + 3) % 2 ^ 32, (i0 + hsegs + 1) % 2 ^ 32),
   ((base + 4) % 2 ^ 32, (i0 + 1) % 2 ^ 32),
   ((base + 5) % 2 ^ 32, (i0 + hsegs + 2) % 2 ^ 32)]

/-- The assignments of lines 127 to 130, one triangle of the bottom cap. -/
def bottomCell (vsegs hsegs nVertices i : Nat) : List (Nat × Nat) :=
  let base := (3 * (hsegs + 2 * (vsegs - 2) * hsegs)) % 2 ^ 32
  [((base + 3 * i) % 2 ^ 32, subU32 nVertices 1),
   ((base + 3 * i + 2) % 2 ^ 32, subU32 (subU32 nVertices 2) i),
   ((base + 3 * i + 1) % 2 ^ 32, subU32 (subU32 nVertices 3) i)]

/-- The function `Sphere::createVBO(radius, segments)` up to the OpenGL calls, for a
`segments` that is an `unsigned int`; the arithmetic is that of `unsigned int`. The
differences `vsegs - 1` and `vsegs - 2` do not wrap, `vsegs` being at least 2. The
values of the vertices (floats) are left out. -/
def createVBO (segments : Nat) : SphereArrays :=
  let vsegs := max segments 2
  let hsegs := (vsegs * 2) % 2 ^ 32
  let nVertices := (1 + (vsegs - 1) * (hsegs + 1) + 1) % 2 ^ 32
  let nFaces := (hsegs + (vsegs - 2) * hsegs * 2 + hsegs) % 2 ^ 32
  let vertexWrites :=
    [0, subU32 nVertices 1] ++
    (List.range (vsegs - 1)).flatMap fun j =>
      (List.range (hsegs + 1)).map fun i => (1 + j * (hsegs + 1) + i) % 2 ^ 32
  let top :=
    (List.range hsegs).flatMap fun i =>
      [((3 * i) % 2 ^ 32, 0),
       ((3 * i + 2) % 2 ^ 32, (1 + i) % 2 ^ 32),
       ((3 * i + 1) % 2 ^ 32, (2 + i) % 2 ^ 32)]
  let middle :=
    (List.range (vsegs - 2)).flatMap fun j =>
      (List.range hsegs).flatMap fun i => middleCell hsegs j i
  let bottom :=
    (List.range hsegs).flatMap fun i => bottomCell vsegs hsegs nVertices i
  { nVertices := nVertices
    nFaces := nFaces
    vertexWrites := vertexWrites
    indexWrites := top ++ middle ++ bottom }

end Sphere

/-! ## The function saveTGA as a whole -/

/-- What `Image::saveTGA` writes between the header and the footer, or that it
returned false. -/
inductive TgaSaved
  | refused
  | uncompressed (dataType : Nat)
  | runLength (rows : List (List TgaPacket))
  deriving DecidableEq, Repr

namespace Image

/-- The `switch (_nChannels)` of `saveTGA` that sets `data_type`; `useRLE` is
`Settings::instance()->getUseRLE()`. -/
def dataType (nChannels : Nat) (useRLE : Bool) : Nat :=
  if nChannels = 1 then 3 else if useRLE then 10 else 2

/-- The loop of `saveTGA` that converts the image data from RGB(A) to BGR(A): the bytes
0 and 2 of every pixel change places. -/
def toBGR (img : TgaImage) : TgaImage :=
  { img with
    mem := fun i =>
      if i < img._nChannels * img._sizeX * img._sizeY then
        if i % img._nChannels = 0 then img.mem (i + 2)
        else if i % img._nChannels = 2 then img.mem (i - 2)
        else img.mem i
      else img.mem i }

/-- The loop `for (size_t y = 0; y < _sizeY; y++)` of `saveTGA` over the rows `ys`,
each row with `fuel` passes of its packet loop allowed. -/
def saveRows (img : TgaImage) (fuel : Nat) : List Nat → Option (List (List TgaPacket))
  | [] => some []
  | y :: ys =>
    match saveRowLoop img y fuel 0 [] with
    | none => none
    | some packets =>
      match saveRows img fuel ys with
      | none => none
      | some rest => some (packets :: rest)

/-- The function `Image::saveTGA` for an image with data and one byte per channel,
whose file can be opened: what it writes after the header, `none` when a packet loop
uses up its `fuel` passes. `useRLE` is `Settings::instance()->getUseRLE()`. -/
def saveTGA (img : TgaImage) (preferBGRForExport useRLE : Bool) (fuel : Nat) :
    Option TgaSaved :=
  if img._nChannels = 2 then some .refused
  else
    let data_type := dataType img._nChannels useRLE
    let img := if !preferBGRForExport && decide (img._nChannels ≥ 3) then toBGR img else img
    if data_type ≠ 10 then some (.uncompressed data_type)
    else (saveRows img fuel (List.range img._sizeY)).map .runLength

end Image

/-! ## A frame and the swap barrier -/

/-- What a pass of the loop of `Engine::render` finds around it: what the frame-lock
stages read, and the state of the hardware swap barrier
(`Window::isBarrierActive()`). -/
structure FrameEnv where
  frameLock : FrameLockEnv
  barrierActive : Bool

/-- One pass of the loop of `Engine::render` of engine.cpp in the environment `fe`.
The loop does not read the state of the swap barrier: lines 1212 to 1218 call
`frameLockPostStage()` and then swap the windows. -/
def Engine.renderFrame (fe : FrameEnv) (cb : RenderCallbacks) (nmRunning : Bool)
    (wakesPre wakesPost : List Wake) : FrameRun :=
  Engine.renderIteration fe.frameLock cb nmRunning wakesPre wakesPost

/-! ## Reads inside the buffer -/

/-- The bytes of the final buffer from the cursor on, `n` of them or as many as are
left, each taken as an `unsigned char`. -/
def SharedData.window (s : SharedData) (n : Nat) : List Nat :=
  ((s._dataBlock.drop s._pos).take n).map (fun b => b % 256)

/-- The value that the `read*` operation of the type hands to `setVal` when the bytes it
reads are `bs`: the `memcpy`-ed object for the numeric types (`fromLE`, read as two's
complement for the signed ones), `bs[0] == 1` for a bool, and for both kinds of string
the bytes after the 4-byte length prefix, as many as the prefix says (the constructor
call `std::string(first, first + length)` of `readString`, and the same range of bytes
in `readWString`). -/
def Val.ofWindow : Ty → List Nat → Val
  | .float, bs => .float (fromLE (bs.take 4))
  | .double, bs => .double (fromLE (bs.take 8))
  | .int64, bs => .int64 (toSigned 8 (fromLE (bs.take 8)))
  | .int32, bs => .int32 (toSigned 4 (fromLE (bs.take 4)))
  | .int16, bs => .int16 (toSigned 2 (fromLE (bs.take 2)))
  | .int8, bs => .int8 (toSigned 1 (fromLE (bs.take 1)))
  | .uint64, bs => .uint64 (fromLE (bs.take 8))
  | .uint32, bs => .uint32 (fromLE (bs.take 4))
  | .uint16, bs => .uint16 (fromLE (bs.take 2))
  | .uint8, bs => .uint8 (fromLE (bs.take 1))
  | .uchar, bs => .uchar (bs.getD 0 0)
  | .bool, bs => .bool (bs.getD 0 0 == 1)
  | .string, bs => .string ((bs.drop 4).take (fromLE (bs.take 4)))
  | .wstring, bs => .wstring ((bs.drop 4).take (fromLE (bs.take 4)))

/-! ## Strings that are read back with the mutex released -/

/-- The value is not the empty narrow string; true of every value that is not a narrow
string. (`readString` returns without `unlock()` when the length it finds is 0.) -/
def Val.nonEmpty : Val → Prop
  | .string str => str ≠ []
  | _ => True

/-- Decidability of `Val.nonEmpty`. -/
instance Val.decNonEmpty : (v : Val) → Decidable v.nonEmpty
  | .string str => inferInstanceAs (Decidable (str ≠ []))
  | .float _ | .double _ | .int64 _ | .int32 _ | .int16 _ | .int8 _ | .uint64 _
  | .uint32 _ | .uint16 _ | .uint8 _ | .uchar _ | .bool _ | .wstring _ =>
    inferInstanceAs (Decidable True)

/-- Sample shared values without an empty string: a double (a NaN pattern), a float (the
pattern of +infinity), a bool, the least int16, the string "frame" and the int32 42. -/
def sampleFrameVals : List Val :=
  [.double 0x7FF8000000000001, .float 0x7F800000, .bool true,
   .int16 (-32768), .string [102, 114, 97, 109, 101], .int32 42]
/-! ## Byte representations -/


theorem toLE_length (n x : Nat) : (toLE n x).length = n := by
  induction n generalizing x with
  | zero => rfl
  | succ n ih => simp [toLE, ih]

theorem toLE_lt (n x : Nat) : ∀ b ∈ toLE n x, b < 256 := by
  induction n generalizing x with
  | zero => simp [toLE]
  | succ n ih =>
    intro b hb
    simp only [toLE, List.mem_cons] at hb
    rcases hb with h | h
    · omega
    · exact ih _ b h

theorem fromLE_toLE (n x : Nat) : fromLE (toLE n x) = x % 256 ^ n := by
  induction n generalizing x with
  | zero => simp [toLE, fromLE, Nat.mod_one]
  | succ n ih =>
    simp only [toLE, fromLE, ih]
    rw [pow_succ, Nat.mul_comm (256 ^ n) 256, Nat.mod_mul]

theorem fromLE_toLE_of_lt (n x : Nat) (h : x < 256 ^ n) : fromLE (toLE n x) = x := by
  rw [fromLE_toLE, Nat.mod_eq_of_lt h]

theorem toSigned_ofSigned (w : Nat) (hw : 0 < w) (v : Int)
    (hlo : -(2 ^ (8 * w - 1)) ≤ v) (hhi : v < 2 ^ (8 * w - 1)) :
    toSigned w (ofSigned w v % 256 ^ w) = v := by
  have hpow : (2 : Int) ^ (8 * w) = 2 * 2 ^ (8 * w - 1) := by
    have : 8 * w = (8 * w - 1) + 1 := by omega
    conv_lhs => rw [this, pow_succ]
    ring
  have h256 : (256 : Nat) ^ w = 2 ^ (8 * w) := by
    rw [pow_mul]; norm_num
  have hpos : (0 : Int) < 2 ^ (8 * w - 1) := by positivity
  have hmodlt : ofSigned w v < 2 ^ (8 * w) := by
    unfold ofSigned
    have h1 : v % 2 ^ (8 * w) < 2 ^ (8 * w) := Int.emod_lt_of_pos _ (by positivity)
    have h0 : 0 ≤ v % 2 ^ (8 * w) := Int.emod_nonneg _ (by positivity)
    zify
    rw [Int.toNat_of_nonneg h0]
    exact_mod_cast h1
  rw [h256, Nat.mod_eq_of_lt hmodlt]
  unfold toSigned ofSigned
  have h0 : 0 ≤ v % 2 ^ (8 * w) := Int.emod_nonneg _ (by positivity)
  by_cases hv : 0 ≤ v
  · have e : v % 2 ^ (8 * w) = v := Int.emod_eq_of_lt hv (by omega)
    rw [e]
    have : v.toNat < 2 ^ (8 * w - 1) := by
      zify; rw [Int.toNat_of_nonneg hv]; exact_mod_cast hhi
    rw [if_pos this, Int.toNat_of_nonneg hv]
  · have e : v % 2 ^ (8 * w) = v + 2 ^ (8 * w) := by
      rw [← Int.add_emod_self]
      exact Int.emod_eq_of_lt (by omega) (by omega)
    rw [e]
    have hnn : 0 ≤ v + 2 ^ (8 * w) := by omega
    have : ¬ (v + 2 ^ (8 * w)).toNat < 2 ^ (8 * w - 1) := by
      zify; rw [Int.toNat_of_nonneg hnn]; omega
    rw [if_neg this, Int.toNat_of_nonneg hnn]
    ring


/-! ## Writing and reading single values -/

namespace SharedData

theorem unlock_lock (s : SharedData) : s.lock.unlock = s := by
  cases s; simp [lock, unlock]

theorem insertAtEnd_lock (bs : List Nat) (s : SharedData) :
    (s.lock.insertAtEnd bs).unlock = s.insertAtEnd bs := by
  cases s with
  | mk d dc cb hs cur uc lvl cr pos m pe =>
    cases cur <;> simp [lock, unlock, insertAtEnd]

theorem insertAtEnd_insertAtEnd (a b : List Nat) (s : SharedData) :
    (s.insertAtEnd a).insertAtEnd b = s.insertAtEnd (a ++ b) := by
  cases s with
  | mk d dc cb hs cur uc lvl cr pos m pe =>
    cases cur <;> simp [insertAtEnd]

theorem insertAtEnd_nil (s : SharedData) : s.insertAtEnd [] = s := by
  cases s with
  | mk d dc cb hs cur uc lvl cr pos m pe =>
    cases cur <;> simp [insertAtEnd]

theorem write_eq (wcharSize : Nat) (v : Val) (s : SharedData) :
    s.write wcharSize v = s.insertAtEnd (v.bytes wcharSize) := by
  cases v <;>
    simp only [write, writeFloat, writeDouble, writeInt64, writeInt32, writeInt16,
      writeInt8, writeUInt64, writeUInt32, writeUInt16, writeUInt8, writeUChar,
      writeBool, writeString, writeWString, Val.bytes, insertAtEnd_insertAtEnd,
      insertAtEnd_lock]

theorem foldl_write_eq (wcharSize : Nat) (vals : List Val) (s : SharedData) :
    vals.foldl (fun s v => s.write wcharSize v) s =
      s.insertAtEnd (vals.map (Val.bytes wcharSize)).flatten := by
  induction vals generalizing s with
  | nil => simp [insertAtEnd_nil]
  | cons v vs ih =>
    rw [List.foldl_cons, ih, write_eq, insertAtEnd_insertAtEnd, List.map_cons,
      List.flatten_cons]

end SharedData
namespace SharedData

theorem read_dataBlock (wcharSize : Nat) (t : Ty) (s : SharedData) :
    (s.read wcharSize t).1._dataBlock = s._dataBlock := by
  cases t <;>
    simp only [read, readFloat, readDouble, readInt64, readInt32, readInt16, readInt8,
      readUInt64, readUInt32, readUInt16, readUInt8, readUChar, readBool, readString,
      readWString, lock, unlock] <;>
    first
      | rfl
      | (split <;> rfl)

theorem read_pastEnd (wcharSize : Nat) (t : Ty) (s : SharedData) :
    (s.read wcharSize t).1.pastEnd = s.pastEnd := by
  cases t <;>
    simp only [read, readFloat, readDouble, readInt64, readInt32, readInt16, readInt8,
      readUInt64, readUInt32, readUInt16, readUInt8, readUChar, readBool, readString,
      readWString, lock, unlock] <;>
    first
      | rfl
      | (split <;> rfl)

theorem byteAt_append (s : SharedData) (pre bs rest : List Nat)
    (hd : s._dataBlock = pre ++ bs ++ rest) (hb : ∀ b ∈ bs, b < 256)
    (k : Nat) (hk : k < bs.length) :
    s.byteAt (pre.length + k) = bs[k] := by
  unfold byteAt
  rw [hd, List.getD_eq_getElem?_getD, List.append_assoc,
    List.getElem?_append_right (by omega)]
  simp only [Nat.add_sub_cancel_left]
  rw [List.getElem?_append_left hk, List.getElem?_eq_getElem hk]
  simp only [Option.getD_some]
  exact Nat.mod_eq_of_lt (hb _ (List.getElem_mem _))

theorem bytesAt_append (s : SharedData) (pre bs rest : List Nat) (i n : Nat)
    (hd : s._dataBlock = pre ++ bs ++ rest) (hb : ∀ b ∈ bs, b < 256)
    (hi : i = pre.length) (hn : n = bs.length) :
    s.bytesAt i n = bs := by
  subst hi hn
  apply List.ext_getElem
  · simp [bytesAt]
  · intro k h1 h2
    simp only [bytesAt, List.getElem_map, List.getElem_range]
    exact byteAt_append s pre bs rest hd hb k h2

end SharedData
namespace SharedData

theorem bytesAt_lock (s : SharedData) (i n : Nat) : s.lock.bytesAt i n = s.bytesAt i n := rfl

theorem byteAt_lock (s : SharedData) (i : Nat) : s.lock.byteAt i = s.byteAt i := rfl

theorem pos_lock (s : SharedData) : s.lock._pos = s._pos := rfl

theorem readFloat_val (s : SharedData) :
    (readFloat s).2 = fromLE (s.bytesAt s._pos 4) := by
  simp only [readFloat, bytesAt_lock, pos_lock]

theorem readFloat_pos (s : SharedData) : (readFloat s).1._pos = s._pos + 4 := by
  simp only [readFloat, unlock, pos_lock]

theorem readDouble_val (s : SharedData) :
    (readDouble s).2 = fromLE (s.bytesAt s._pos 8) := by
  simp only [readDouble, bytesAt_lock, pos_lock]

theorem readDouble_pos (s : SharedData) : (readDouble s).1._pos = s._pos + 8 := by
  simp only [readDouble, unlock, pos_lock]

theorem readInt64_val (s : SharedData) :
    (readInt64 s).2 = toSigned 8 (fromLE (s.bytesAt s._pos 8)) := by
  simp only [readInt64, bytesAt_lock, pos_lock]

theorem readInt64_pos (s : SharedData) : (readInt64 s).1._pos = s._pos + 8 := by
  simp only [readInt64, unlock, pos_lock]

theorem readInt32_val (s : SharedData) :
    (readInt32 s).2 = toSigned 4 (fromLE (s.bytesAt s._pos 4)) := by
  simp only [readInt32, bytesAt_lock, pos_lock]

theorem readInt32_pos (s : SharedData) : (readInt32 s).1._pos = s._pos + 4 := by
  simp only [readInt32, unlock, pos_lock]

theorem readInt16_val (s : SharedData) :
    (readInt16 s).2 = toSigned 2 (fromLE (s.bytesAt s._pos 2)) := by
  simp only [readInt16, bytesAt_lock, pos_lock]

theorem readInt16_pos (s : SharedData) : (readInt16 s).1._pos = s._pos + 2 := by
  simp only [readInt16, unlock, pos_lock]

theorem readInt8_val (s : SharedData) :
    (readInt8 s).2 = toSigned 1 (fromLE (s.bytesAt s._pos 1)) := by
  simp only [readInt8, bytesAt_lock, pos_lock]

theorem readInt8_pos (s : SharedData) : (readInt8 s).1._pos = s._pos + 1 := by
  simp only [readInt8, unlock, pos_lock]

theorem readUInt64_val (s : SharedData) :
    (readUInt64 s).2 = fromLE (s.bytesAt s._pos 8) := by
  simp only [readUInt64, bytesAt_lock, pos_lock]

theorem readUInt64_pos (s : SharedData) : (readUInt64 s).1._pos = s._pos + 8 := by
  simp only [readUInt64, unlock, pos_lock]

theorem readUInt32_val (s : SharedData) :
    (readUInt32 s).2 = fromLE (s.bytesAt s._pos 4) := by
  simp only [readUInt32, bytesAt_lock, pos_lock]

theorem readUInt32_pos (s : SharedData) : (readUInt32 s).1._pos = s._pos + 4 := by
  simp only [readUInt32, unlock, pos_lock]

theorem readUInt16_val (s : SharedData) :
    (readUInt16 s).2 = fromLE (s.bytesAt s._pos 2) := by
  simp only [readUInt16, bytesAt_lock, pos_lock]

theorem readUInt16_pos (s : SharedData) : (readUInt16 s).1._pos = s._pos + 2 := by
  simp only [readUInt16, unlock, pos_lock]

theorem readUInt8_val (s : SharedData) :
    (readUInt8 s).2 = fromLE (s.bytesAt s._pos 1) := by
  simp only [readUInt8, bytesAt_lock, pos_lock]

theorem readUInt8_pos (s : SharedData) : (readUInt8 s).1._pos = s._pos + 1 := by
  simp only [readUInt8, unlock, pos_lock]

theorem readUChar_val (s : SharedData) : (readUChar s).2 = s.byteAt s._pos := by
  simp only [readUChar, byteAt_lock, pos_lock]

theorem readUChar_pos (s : SharedData) : (readUChar s).1._pos = s._pos + 1 := by
  simp only [readUChar, unlock, pos_lock]

theorem readBool_val (s : SharedData) : (readBool s).2 = (s.byteAt s._pos == 1) := by
  simp only [readBool, byteAt_lock, pos_lock]

theorem readBool_pos (s : SharedData) : (readBool s).1._pos = s._pos + 1 := by
  simp only [readBool, unlock, pos_lock]

end SharedData
namespace SharedData

theorem fixedU (n x : Nat) (hx : x < 256 ^ n) (s : SharedData) (pre rest : List Nat)
    (hd : s._dataBlock = pre ++ toLE n x ++ rest) (hp : s._pos = pre.length) :
    fromLE (s.bytesAt s._pos n) = x := by
  rw [bytesAt_append s pre (toLE n x) rest s._pos n hd (toLE_lt n x) hp
    (toLE_length n x).symm]
  exact fromLE_toLE_of_lt n x hx

theorem fixedS (w : Nat) (hw : 0 < w) (v : Int) (hlo : -(2 ^ (8 * w - 1)) ≤ v)
    (hhi : v < 2 ^ (8 * w - 1)) (s : SharedData) (pre rest : List Nat)
    (hd : s._dataBlock = pre ++ toLE w (ofSigned w v) ++ rest)
    (hp : s._pos = pre.length) :
    toSigned w (fromLE (s.bytesAt s._pos w)) = v := by
  rw [bytesAt_append s pre (toLE w (ofSigned w v)) rest s._pos w hd (toLE_lt w _) hp
    (toLE_length w _).symm, fromLE_toLE]
  exact toSigned_ofSigned w hw v hlo hhi

theorem readString_at (str : List Nat) (hlen : str.length < 2 ^ 32)
    (hch : ∀ ch ∈ str, ch < 256) (s : SharedData) (pre rest : List Nat)
    (hd : s._dataBlock = pre ++ (toLE 4 str.length ++ str) ++ rest)
    (hp : s._pos = pre.length) :
    (readString s).2 = str ∧ (readString s).1._pos = pre.length + (4 + str.length) := by
  have hd1 : s._dataBlock = pre ++ toLE 4 str.length ++ (str ++ rest) := by
    rw [hd]; simp only [List.append_assoc]
  have h4 : fromLE (s.bytesAt s._pos 4) = str.length :=
    fixedU 4 str.length (by norm_num; omega) s pre (str ++ rest) hd1 hp
  have h4lock : fromLE (s.lock.bytesAt s.lock._pos 4) = str.length := h4
  unfold readString
  simp only [h4lock]
  by_cases h0 : str.length = 0
  · rw [if_pos h0]
    have : str = [] := List.length_eq_zero.mp h0
    subst this
    exact ⟨rfl, by show s._pos + 4 = _; rw [hp]; rfl⟩
  · rw [if_neg h0]
    have hd2 : s._dataBlock = (pre ++ toLE 4 str.length) ++ str ++ rest := by
      rw [hd]; simp only [List.append_assoc]
    have hb : s.bytesAt (s._pos + 4) str.length = str :=
      bytesAt_append s (pre ++ toLE 4 str.length) str rest _ _ hd2 hch
        (by rw [hp, List.length_append, toLE_length]) rfl
    refine ⟨hb, ?_⟩
    show s._pos + 4 + str.length = _
    rw [hp]; omega

theorem read_at (wcharSize wcharBits : Nat) (v : Val) (hty : v.ty ≠ .wstring)
    (hr : v.inRange wcharBits) (hlen : ∀ str, v = .string str → str.length < 2 ^ 32)
    (s : SharedData) (pre rest : List Nat)
    (hd : s._dataBlock = pre ++ v.bytes wcharSize ++ rest) (hp : s._pos = pre.length) :
    (s.read wcharSize v.ty).2 = v ∧
      (s.read wcharSize v.ty).1._pos = pre.length + (v.bytes wcharSize).length := by
  cases v with
  | float b =>
    have h := fixedU 4 b (by simpa [Val.inRange] using hr) s pre rest hd hp
    refine ⟨?_, ?_⟩
    · show Val.float (readFloat s).2 = _
      rw [readFloat_val, h]
    · show (readFloat s).1._pos = _
      rw [readFloat_pos, hp, Val.bytes, toLE_length]
  | double b =>
    have h := fixedU 8 b (by simpa [Val.inRange] using hr) s pre rest hd hp
    refine ⟨?_, ?_⟩
    · show Val.double (readDouble s).2 = _
      rw [readDouble_val, h]
    · show (readDouble s).1._pos = _
      rw [readDouble_pos, hp, Val.bytes, toLE_length]
  | int64 x =>
    have h := fixedS 8 (by norm_num) x
      (by simp only [Val.inRange] at hr; obtain ⟨h, -⟩ := hr; norm_num; exact h)
      (by simp only [Val.inRange] at hr; obtain ⟨-, h⟩ := hr; norm_num; exact h)
      s pre rest hd hp
    refine ⟨?_, ?_⟩
    · show Val.int64 (readInt64 s).2 = _
      rw [readInt64_val, h]
    · show (readInt64 s).1._pos = _
      rw [readInt64_pos, hp, Val.bytes, toLE_length]
  | int32 x =>
    have h := fixedS 4 (by norm_num) x
      (by simp only [Val.inRange] at hr; obtain ⟨h, -⟩ := hr; norm_num; exact h)
      (by simp only [Val.inRange] at hr; obtain ⟨-, h⟩ := hr; norm_num; exact h)
      s pre rest hd hp
    refine ⟨?_, ?_⟩
    · show Val.int32 (readInt32 s).2 = _
      rw [readInt32_val, h]
    · show (readInt32 s).1._pos = _
      rw [readInt32_pos, hp, Val.bytes, toLE_length]
  | int16 x =>
    have h := fixedS 2 (by norm_num) x
      (by simp only [Val.inRange] at hr; obtain ⟨h, -⟩ := hr; norm_num; exact h)
      (by simp only [Val.inRange] at hr; obtain ⟨-, h⟩ := hr; norm_num; exact h)
      s pre rest hd hp
    refine ⟨?_, ?_⟩
    · show Val.int16 (readInt16 s).2 = _
      rw [readInt16_val, h]
    · show (readInt16 s).1._pos = _
      rw [readInt16_pos, hp, Val.bytes, toLE_length]
  | int8 x =>
    have h := fixedS 1 (by norm_num) x
      (by simp only [Val.inRange] at hr; obtain ⟨h, -⟩ := hr; norm_num; exact h)
      (by simp only [Val.inRange] at hr; obtain ⟨-, h⟩ := hr; norm_num; exact h)
      s pre rest hd hp
    refine ⟨?_, ?_⟩
    · show Val.int8 (readInt8 s).2 = _
      rw [readInt8_val, h]
    · show (readInt8 s).1._pos = _
      rw [readInt8_pos, hp, Val.bytes, toLE_length]
  | uint64 b =>
    have h := fixedU 8 b (by simpa [Val.inRange] using hr) s pre rest hd hp
    refine ⟨?_, ?_⟩
    · show Val.uint64 (readUInt64 s).2 = _
      rw [readUInt64_val, h]
    · show (readUInt64 s).1._pos = _
      rw [readUInt64_pos, hp, Val.bytes, toLE_length]
  | uint32 b =>
    have h := fixedU 4 b (by simpa [Val.inRange] using hr) s pre rest hd hp
    refine ⟨?_, ?_⟩
    · show Val.uint32 (readUInt32 s).2 = _
      rw [readUInt32_val, h]
    · show (readUInt32 s).1._pos = _
      rw [readUInt32_pos, hp, Val.bytes, toLE_length]
  | uint16 b =>
    have h := fixedU 2 b (by simpa [Val.inRange] using hr) s pre rest hd hp
    refine ⟨?_, ?_⟩
    · show Val.uint16 (readUInt16 s).2 = _
      rw [readUInt16_val, h]
    · show (readUInt16 s).1._pos = _
      rw [readUInt16_pos, hp, Val.bytes, toLE_length]
  | uint8 b =>
    have h := fixedU 1 b (by simpa [Val.inRange] using hr) s pre rest hd hp
    refine ⟨?_, ?_⟩
    · show Val.uint8 (readUInt8 s).2 = _
      rw [readUInt8_val, h]
    · show (readUInt8 s).1._pos = _
      rw [readUInt8_pos, hp, Val.bytes, toLE_length]
  | uchar b =>
    have hb : b < 256 := by simpa [Val.inRange] using hr
    have hd1 : s._dataBlock = pre ++ [b] ++ rest := by
      rw [hd, Val.bytes, Nat.mod_eq_of_lt hb]
    have h := byteAt_append s pre [b] rest hd1 (by simpa using hb) 0 (by simp)
    rw [Nat.add_zero, ← hp] at h
    refine ⟨?_, ?_⟩
    · show Val.uchar (readUChar s).2 = _
      rw [readUChar_val, h]; rfl
    · show (readUChar s).1._pos = _
      rw [readUChar_pos, hp]; rfl
  | bool b =>
    have hd1 : s._dataBlock = pre ++ [if b then 1 else 0] ++ rest := hd
    have h := byteAt_append s pre [if b then 1 else 0] rest hd1
      (by intro x hx; simp only [List.mem_singleton] at hx; subst hx; split <;> omega)
      0 (by simp)
    rw [Nat.add_zero, ← hp] at h
    refine ⟨?_, ?_⟩
    · show Val.bool (readBool s).2 = _
      rw [readBool_val, h]
      cases b <;> rfl
    · show (readBool s).1._pos = _
      rw [readBool_pos, hp]; rfl
  | string str =>
    have hl := hlen str rfl
    have hb : Val.bytes wcharSize (.string str) = toLE 4 str.length ++ str := by
      rw [Val.bytes, Nat.mod_eq_of_lt hl, List.take_length]
    rw [hb] at hd ⊢
    have h := readString_at str hl hr s pre rest hd hp
    exact ⟨congrArg Val.string h.1, by
      rw [List.length_append, toLE_length]; exact h.2⟩
  | wstring w => exact absurd rfl hty

end SharedData

/-! ## The reset at the start of `encode` -/

theorem encodeReset_compressed_eq (c : NetworkConsts) (s : SharedData)
    (huc : s._useCompression = true) :
    s.encodeReset c =
      { s with _dataBlock := (s._headerSpace.set 0 c.CompressedDataId).take c.HeaderSize
               _dataBlockToCompress := []
               _headerSpace := s._headerSpace.set 0 c.CompressedDataId } := by
  cases s with
  | mk d dc cb hs cur uc lvl cr pos m pe =>
    simp only at huc
    subst huc
    simp [SharedData.encodeReset, SharedData.lock, SharedData.unlock]

theorem encodeReset_plain_eq (c : NetworkConsts) (s : SharedData)
    (huc : s._useCompression = false) :
    s.encodeReset c =
      { s with _dataBlock := (s._headerSpace.set 0 c.DataId).take c.HeaderSize
               _headerSpace := s._headerSpace.set 0 c.DataId } := by
  cases s with
  | mk d dc cb hs cur uc lvl cr pos m pe =>
    simp only at huc
    subst huc
    simp [SharedData.encodeReset, SharedData.lock, SharedData.unlock]


/-! ## Invariants of the states that the interface reaches -/

theorem init_headerOk (c : NetworkConsts) (useCompression : Bool)
    (ratio0 : CompressionRatio) (pos0 : Nat) (mem : Nat → Nat) :
    (SharedData.init c useCompression ratio0 pos0 mem).headerOk c := by
  unfold SharedData.headerOk SharedData.init
  simp only [List.length_set, List.length_replicate, true_and]
  cases h : c.HeaderSize with
  | zero => rfl
  | succ n => simp [List.replicate_succ]

theorem init_storage (c : NetworkConsts) (useCompression : Bool)
    (ratio0 : CompressionRatio) (pos0 : Nat) (mem : Nat → Nat) :
    (SharedData.init c useCompression ratio0 pos0 mem)._currentStorage =
      if (SharedData.init c useCompression ratio0 pos0 mem)._useCompression then
        .dataBlockToCompress else .dataBlock := rfl

theorem setCompression_storage (state : Bool) (level : Int) (s : SharedData) :
    (s.setCompression state level)._currentStorage =
      if (s.setCompression state level)._useCompression then .dataBlockToCompress
      else .dataBlock := by
  cases s
  cases state <;> rfl

theorem setCompression_headerOk (c : NetworkConsts) (state : Bool) (level : Int)
    (s : SharedData) (h : s.headerOk c) : (s.setCompression state level).headerOk c := by
  cases s
  cases state <;> exact h

theorem headerOk_set_tag (c : NetworkConsts) (hs : List Nat) (tag : Nat)
    (h : hs.length = c.HeaderSize ∧ hs.tail = List.replicate (c.HeaderSize - 1) c.DefaultId) :
    (hs.set 0 tag).length = c.HeaderSize ∧
      (hs.set 0 tag).tail = List.replicate (c.HeaderSize - 1) c.DefaultId := by
  cases hs with
  | nil => exact h
  | cons a l => exact ⟨by simpa using h.1, by simpa using h.2⟩

theorem encodeReset_headerOk (c : NetworkConsts) (s : SharedData) (h : s.headerOk c) :
    (s.encodeReset c).headerOk c ∧
      (s.encodeReset c)._currentStorage = s._currentStorage ∧
      (s.encodeReset c)._useCompression = s._useCompression := by
  cases huc : s._useCompression with
  | true =>
    rw [encodeReset_compressed_eq c s huc]
    exact ⟨headerOk_set_tag c _ _ h, rfl, huc⟩
  | false =>
    rw [encodeReset_plain_eq c s huc]
    exact ⟨headerOk_set_tag c _ _ h, rfl, huc⟩

/-! ## Sequences of values: encode, then decode -/

theorem decodeFun_cons (wcharSize : Nat) (t : Ty) (ts : List Ty) (w : World (List Val)) :
    decodeFun wcharSize (t :: ts) w =
      decodeFun wcharSize ts
        { w with shared := (w.shared.read wcharSize t).1
                 user := w.user ++ [(w.shared.read wcharSize t).2] } := rfl

theorem decodeFun_at (wcharSize wcharBits : Nat) (vals : List Val)
    (hty : ∀ v ∈ vals, v.ty ≠ .wstring) (hr : ∀ v ∈ vals, v.inRange wcharBits)
    (hlen : ∀ str, Val.string str ∈ vals → str.length < 2 ^ 32)
    (w : World (List Val)) (pre rest : List Nat)
    (hd : w.shared._dataBlock = pre ++ (vals.map (Val.bytes wcharSize)).flatten ++ rest)
    (hp : w.shared._pos = pre.length) :
    (decodeFun wcharSize (vals.map Val.ty) w).user = w.user ++ vals ∧
      (decodeFun wcharSize (vals.map Val.ty) w).shared._pos =
        pre.length + ((vals.map (Val.bytes wcharSize)).flatten).length ∧
      (decodeFun wcharSize (vals.map Val.ty) w).shared._dataBlock = w.shared._dataBlock := by
  induction vals generalizing w pre with
  | nil =>
    refine ⟨?_, ?_, ?_⟩
    · show w.user = w.user ++ []
      rw [List.append_nil]
    · show w.shared._pos = _
      rw [hp]; rfl
    · rfl
  | cons v vs ih =>
    have hd1 : w.shared._dataBlock =
        pre ++ v.bytes wcharSize ++
          ((vs.map (Val.bytes wcharSize)).flatten ++ rest) := by
      rw [hd, List.map_cons, List.flatten_cons]
      simp only [List.append_assoc]
    have hv := SharedData.read_at wcharSize wcharBits v (hty v (List.mem_cons_self _ _))
      (hr v (List.mem_cons_self _ _))
      (fun str h => hlen str (h ▸ List.mem_cons_self _ _)) w.shared pre _ hd1 hp
    have hdb := SharedData.read_dataBlock wcharSize v.ty w.shared
    rw [List.map_cons, decodeFun_cons]
    have hd2 : (w.shared.read wcharSize v.ty).1._dataBlock =
        (pre ++ v.bytes wcharSize) ++ (vs.map (Val.bytes wcharSize)).flatten ++ rest := by
      rw [hdb, hd1]
      simp only [List.append_assoc]
    have hp2 : (w.shared.read wcharSize v.ty).1._pos = (pre ++ v.bytes wcharSize).length := by
      rw [hv.2, List.length_append]
    have h := ih (fun x hx => hty x (List.mem_cons_of_mem _ hx))
      (fun x hx => hr x (List.mem_cons_of_mem _ hx))
      (fun str hx => hlen str (List.mem_cons_of_mem _ hx))
      { w with shared := (w.shared.read wcharSize v.ty).1
               user := w.user ++ [(w.shared.read wcharSize v.ty).2] }
      (pre ++ v.bytes wcharSize) hd2 hp2
    refine ⟨?_, ?_, ?_⟩
    · rw [h.1]
      show (w.user ++ [(w.shared.read wcharSize v.ty).2]) ++ vs = _
      rw [hv.1, List.append_assoc]; rfl
    · rw [h.2.1, List.map_cons, List.flatten_cons, List.length_append, List.length_append]
      omega
    · rw [h.2.2]
      exact hdb

theorem encodeReset_plain (c : NetworkConsts) (s : SharedData)
    (hplain : s._useCompression = false) :
    (s.encodeReset c)._dataBlock = (s._headerSpace.set 0 c.DataId).take c.HeaderSize ∧
      (s.encodeReset c)._currentStorage = s._currentStorage ∧
      (s.encodeReset c)._useCompression = false := by
  cases s with
  | mk d dc cb hs cur uc lvl cr pos m pe =>
    simp only at hplain
    subst hplain
    simp [SharedData.encodeReset, SharedData.lock, SharedData.unlock]

theorem insertAtEnd_dataBlock (bs : List Nat) (s : SharedData)
    (hcur : s._currentStorage = .dataBlock) :
    (s.insertAtEnd bs)._dataBlock = s._dataBlock ++ bs ∧
      (s.insertAtEnd bs)._useCompression = s._useCompression ∧
      (s.insertAtEnd bs)._dataBlockToCompress = s._dataBlockToCompress := by
  cases s with
  | mk d dc cb hs cur uc lvl cr pos m pe =>
    simp only at hcur
    subst hcur
    simp [SharedData.insertAtEnd]

theorem encode_plain {U : Type} (c : NetworkConsts) (z : Zlib) (wcharSize : Nat)
    (vals : List Val) (w : World U) (hplain : w.shared._useCompression = false)
    (hcur : w.shared._currentStorage = .dataBlock) :
    (encode c z (some (encodeFun wcharSize vals)) w).shared._dataBlock =
      (w.shared._headerSpace.set 0 c.DataId).take c.HeaderSize ++
        (vals.map (Val.bytes wcharSize)).flatten := by
  obtain ⟨h1, h2, h3⟩ := encodeReset_plain c w.shared hplain
  obtain ⟨h4, h5, -⟩ := insertAtEnd_dataBlock (vals.map (Val.bytes wcharSize)).flatten
    (w.shared.encodeReset c) (h2.trans hcur)
  unfold encode
  simp only [encodeFun, SharedData.foldl_write_eq, h5, h3, Bool.false_and]
  simp only [Bool.false_eq_true, if_false, h4, h1]

theorem decode_some {U : Type} (f : World U → World U) (receivedData : List Nat)
    (w : World U) :
    decode (some f) receivedData receivedData.length w =
      f { w with shared := { w.shared with _pos := 0, _dataBlock := receivedData } } := by
  unfold decode
  simp [SharedData.lock, SharedData.unlock]

theorem decode_none {U : Type} (receivedData : List Nat) (w : World U) :
    decode none receivedData receivedData.length w =
      { w with shared := { w.shared with _pos := 0, _dataBlock := receivedData } } := by
  unfold decode
  simp [SharedData.lock, SharedData.unlock]

/-- The round trip on the payload: whatever bytes the values encode to, decoding them
with the matching reads gives the values back and leaves the cursor at the end. -/
theorem roundtrip_payload {U : Type} (c : NetworkConsts) (z : Zlib)
    (wcharSize wcharBits : Nat) (vals : List Val) (wEnc : World U)
    (wDec : World (List Val))
    (hplain : wEnc.shared._useCompression = false)
    (hcur : wEnc.shared._currentStorage = .dataBlock)
    (hhdr : wEnc.shared._headerSpace.length = c.HeaderSize)
    (hty : ∀ v ∈ vals, v.ty ≠ .wstring) (hr : ∀ v ∈ vals, v.inRange wcharBits)
    (hlen : ∀ str, Val.string str ∈ vals → str.length < 2 ^ 32) :
    (decode (some (decodeFun wcharSize (vals.map Val.ty)))
        ((encode c z (some (encodeFun wcharSize vals)) wEnc).shared._dataBlock.drop
          c.HeaderSize)
        ((encode c z (some (encodeFun wcharSize vals)) wEnc).shared._dataBlock.drop
          c.HeaderSize).length wDec).user = wDec.user ++ vals ∧
    (decode (some (decodeFun wcharSize (vals.map Val.ty)))
        ((encode c z (some (encodeFun wcharSize vals)) wEnc).shared._dataBlock.drop
          c.HeaderSize)
        ((encode c z (some (encodeFun wcharSize vals)) wEnc).shared._dataBlock.drop
          c.HeaderSize).length wDec).shared._pos =
      ((encode c z (some (encodeFun wcharSize vals)) wEnc).shared._dataBlock.drop
          c.HeaderSize).length := by
  have he := encode_plain c z wcharSize vals wEnc hplain hcur
  have hl : ((wEnc.shared._headerSpace.set 0 c.DataId).take c.HeaderSize).length =
      c.HeaderSize := by
    rw [List.length_take, List.length_set, hhdr, Nat.min_self]
  have hdrop : (encode c z (some (encodeFun wcharSize vals)) wEnc).shared._dataBlock.drop
      c.HeaderSize = (vals.map (Val.bytes wcharSize)).flatten := by
    rw [he]
    exact List.drop_left' hl
  rw [hdrop, decode_some]
  have h := decodeFun_at wcharSize wcharBits vals hty hr hlen
    { wDec with shared :=
        { wDec.shared with _pos := 0
                           _dataBlock := (vals.map (Val.bytes wcharSize)).flatten } }
    [] [] (by simp) rfl
  exact ⟨h.1, by rw [h.2.1]; simp⟩

theorem encode_plain_payload {U : Type} (c : NetworkConsts) (z : Zlib) (wcharSize : Nat)
    (vals : List Val) (w : World U) (hplain : w.shared._useCompression = false)
    (hcur : w.shared._currentStorage = .dataBlock)
    (hhdr : w.shared._headerSpace.length = c.HeaderSize) :
    (encode c z (some (encodeFun wcharSize vals)) w).shared._dataBlock.drop c.HeaderSize =
      (vals.map (Val.bytes wcharSize)).flatten := by
  have hl : ((w.shared._headerSpace.set 0 c.DataId).take c.HeaderSize).length =
      c.HeaderSize := by
    rw [List.length_take, List.length_set, hhdr, Nat.min_self]
  rw [encode_plain c z wcharSize vals w hplain hcur]
  exact List.drop_left' hl

theorem bytes_string_of_length_two_pow_32 (wcharSize ch : Nat) :
    Val.bytes wcharSize (Val.string (List.replicate (2 ^ 32) ch)) = [0, 0, 0, 0] := by
  simp only [Val.bytes, List.length_replicate, Nat.mod_self, List.take_zero,
    List.append_nil]
  rfl


/-! ## Wide strings, unchecked reads, decode -/

/-- C2, at the failing input. The wide string L"AB" (code units 65, 66), written by
`writeWString` and read back by `readWString` from the same payload, comes back as the
code units 65, 0, both for a 4-byte and for a 2-byte `wchar_t`: `readWString` builds
the string from the first `length` bytes, one code unit per byte. -/
theorem c2_wstring_AB_reads_back_wrong :
    (decode (some (decodeFun 4 [Ty.wstring]))
        ((encode sampleConsts sampleZlib (some (encodeFun 4 [Val.wstring [65, 66]]))
          sampleWorld).shared.payload sampleConsts)
        12 sampleReceiver).user = [Val.wstring [65, 0]] ∧
    (decode (some (decodeFun 2 [Ty.wstring]))
        ((encode sampleConsts sampleZlib (some (encodeFun 2 [Val.wstring [65, 66]]))
          sampleWorld).shared.payload sampleConsts)
        8 sampleReceiver).user = [Val.wstring [65, 0]] ∧
    (encode sampleConsts sampleZlib (some (encodeFun 4 [Val.wstring [65, 66]]))
          sampleWorld).shared.payload sampleConsts =
      [2, 0, 0, 0, 65, 0, 0, 0, 66, 0, 0, 0] := by
  refine ⟨?_, ?_, ?_⟩ <;> decide

theorem read_pos (wcharSize : Nat) (t : Ty) (s : SharedData) :
    (s.read wcharSize t).1._pos = s._pos + s.readWidth wcharSize t := by
  cases t
  case string =>
    show (SharedData.readString s).1._pos = _
    unfold SharedData.readString
    simp only [SharedData.bytesAt_lock, SharedData.pos_lock, SharedData.readWidth]
    split
    · rename_i h
      rw [h]
    · show s._pos + 4 + _ = _
      omega
  case wstring =>
    show (SharedData.readWString wcharSize s).1._pos = _
    unfold SharedData.readWString
    simp only [SharedData.bytesAt_lock, SharedData.pos_lock, SharedData.readWidth]
    split
    · rename_i h
      rw [h, Nat.zero_mul]
    · show s._pos + 4 + _ = _
      omega
  all_goals rfl

namespace SharedData

theorem bytesAt_inbounds (s : SharedData) (i n : Nat) (h : i + n ≤ s._dataBlock.length) :
    s.bytesAt i n = ((s._dataBlock.drop i).take n).map (fun b => b % 256) := by
  apply List.ext_getElem
  · simp only [bytesAt, List.length_map, List.length_range, List.length_take,
      List.length_drop]
    omega
  · intro k h1 h2
    simp only [bytesAt, List.length_map, List.length_range] at h1
    simp only [bytesAt, List.getElem_map, List.getElem_range, byteAt, List.getElem_take,
      List.getElem_drop]
    rw [List.getD_eq_getElem?_getD, List.getElem?_eq_getElem (by omega)]
    rfl

theorem bytesAt_window (s : SharedData) (n : Nat) (h : s._pos + n ≤ s._dataBlock.length) :
    s.bytesAt s._pos n = s.window n :=
  bytesAt_inbounds s s._pos n h

theorem window_take (s : SharedData) (n m : Nat) (h : n ≤ m) :
    (s.window m).take n = s.window n := by
  unfold window
  rw [← List.map_take, List.take_take, Nat.min_eq_left h]

end SharedData

namespace SharedData

theorem window_getD (s : SharedData) (n : Nat) (hn : 0 < n)
    (h : s._pos + n ≤ s._dataBlock.length) :
    (s.window n).getD 0 0 = s.byteAt s._pos := by
  have h1 : s.bytesAt s._pos n = s.window n := bytesAt_window s n h
  rw [← h1]
  obtain ⟨m, rfl⟩ : ∃ m, n = m + 1 := ⟨n - 1, by omega⟩
  simp [bytesAt, List.range_succ_eq_map]

theorem window_drop (s : SharedData) (k n : Nat) :
    (s.window (k + n)).drop k =
      ((s._dataBlock.drop (s._pos + k)).take n).map (fun b => b % 256) := by
  unfold window
  rw [← List.map_drop, List.drop_take, List.drop_drop]
  simp only [Nat.add_sub_cancel_left]

theorem read_val_inbounds (wcharSize : Nat) (hw : 0 < wcharSize) (t : Ty) (s : SharedData)
    (hin : s._pos + s.readWidth wcharSize t ≤ s._dataBlock.length) :
    (s.read wcharSize t).2 = Val.ofWindow t (s.window (s.readWidth wcharSize t)) := by
  cases t
  case string =>
    simp only [readWidth] at hin ⊢
    have h4 : s.bytesAt s._pos 4 = s.window 4 := bytesAt_window s 4 (by omega)
    show Val.string (readString s).2 = _
    simp only [Val.ofWindow, window_take s 4 _ (Nat.le_add_right _ _), window_drop,
      readString, bytesAt_lock, pos_lock]
    congr 1
    split
    · rename_i h0
      rw [h0]; simp
    · show s.bytesAt (s._pos + 4) _ = _
      rw [bytesAt_inbounds s _ _ (by omega), ← List.map_take, List.take_take, ← h4,
        Nat.min_self]
  case wstring =>
    simp only [readWidth] at hin ⊢
    have h4 : s.bytesAt s._pos 4 = s.window 4 := bytesAt_window s 4 (by omega)
    have hle : fromLE (s.bytesAt s._pos 4) ≤ fromLE (s.bytesAt s._pos 4) * wcharSize :=
      Nat.le_mul_of_pos_right _ hw
    show Val.wstring (readWString wcharSize s).2 = _
    simp only [Val.ofWindow, window_take s 4 _ (Nat.le_add_right _ _), window_drop,
      readWString, bytesAt_lock, pos_lock]
    congr 1
    split
    · rename_i h0
      rw [← h4, h0]; rfl
    · show s.bytesAt (s._pos + 4) _ = _
      rw [bytesAt_inbounds s _ _ (by omega), ← List.map_take, List.take_take, ← h4,
        Nat.min_eq_left hle]
  case uchar =>
    show Val.uchar (readUChar s).2 = _
    rw [readUChar_val]
    simp only [Val.ofWindow, readWidth]
    rw [window_getD s 1 (by decide) hin]
  case bool =>
    show Val.bool (readBool s).2 = _
    rw [readBool_val]
    simp only [Val.ofWindow, readWidth]
    rw [window_getD s 1 (by decide) hin]
  case float =>
    show Val.float (readFloat s).2 = _
    rw [readFloat_val, bytesAt_window s 4 hin]
    simp only [Val.ofWindow, readWidth, window_take s _ _ (Nat.le_refl _)]
  case double =>
    show Val.double (readDouble s).2 = _
    rw [readDouble_val, bytesAt_window s 8 hin]
    simp only [Val.ofWindow, readWidth, window_take s _ _ (Nat.le_refl _)]
  case int64 =>
    show Val.int64 (readInt64 s).2 = _
    rw [readInt64_val, bytesAt_window s 8 hin]
    simp only [Val.ofWindow, readWidth, window_take s _ _ (Nat.le_refl _)]
  case int32 =>
    show Val.int32 (readInt32 s).2 = _
    rw [readInt32_val, bytesAt_window s 4 hin]
    simp only [Val.ofWindow, readWidth, window_take s _ _ (Nat.le_refl _)]
  case int16 =>
    show Val.int16 (readInt16 s).2 = _
    rw [readInt16_val, bytesAt_window s 2 hin]
    simp only [Val.ofWindow, readWidth, window_take s _ _ (Nat.le_refl _)]
  case int8 =>
    show Val.int8 (readInt8 s).2 = _
    rw [readInt8_val, bytesAt_window s 1 hin]
    simp only [Val.ofWindow, readWidth, window_take s _ _ (Nat.le_refl _)]
  case uint64 =>
    show Val.uint64 (readUInt64 s).2 = _
    rw [readUInt64_val, bytesAt_window s 8 hin]
    simp only [Val.ofWindow, readWidth, window_take s _ _ (Nat.le_refl _)]
  case uint32 =>
    show Val.uint32 (readUInt32 s).2 = _
    rw [readUInt32_val, bytesAt_window s 4 hin]
    simp only [Val.ofWindow, readWidth, window_take s _ _ (Nat.le_refl _)]
  case uint16 =>
    show Val.uint16 (readUInt16 s).2 = _
    rw [readUInt16_val, bytesAt_window s 2 hin]
    simp only [Val.ofWindow, readWidth, window_take s _ _ (Nat.le_refl _)]
  case uint8 =>
    show Val.uint8 (readUInt8 s).2 = _
    rw [readUInt8_val, bytesAt_window s 1 hin]
    simp only [Val.ofWindow, readWidth, window_take s _ _ (Nat.le_refl _)]

theorem readWidth_inbounds (wcharSize : Nat) (t : Ty) (s : SharedData) (mem : Nat → Nat)
    (hin : s._pos + s.readWidth wcharSize t ≤ s._dataBlock.length) :
    ({ s with pastEnd := mem } : SharedData).readWidth wcharSize t =
      s.readWidth wcharSize t := by
  cases t
  case string =>
    simp only [readWidth] at hin ⊢
    have h4 : s._pos + 4 ≤ s._dataBlock.length := by omega
    rw [bytesAt_inbounds s _ 4 h4, bytesAt_inbounds { s with pastEnd := mem } _ 4 h4]
  case wstring =>
    by_cases h4 : s._pos + 4 ≤ s._dataBlock.length
    · simp only [readWidth]
      rw [bytesAt_inbounds s _ 4 h4,
        bytesAt_inbounds { s with pastEnd := mem } _ 4 h4]
    · simp only [readWidth] at hin
      omega
  all_goals rfl

end SharedData

namespace SharedData

theorem read_mutex (wcharSize : Nat) (t : Ty) (s : SharedData) :
    (s.read wcharSize t).1.dataSyncMutex =
      if (t = .string ∨ t = .wstring) ∧ fromLE (s.bytesAt s._pos 4) = 0 then
        s.dataSyncMutex + 1
      else s.dataSyncMutex := by
  cases t
  case string =>
    show (readString s).1.dataSyncMutex = _
    unfold readString
    simp only [bytesAt_lock, pos_lock, true_or, true_and]
    split <;> rfl
  case wstring =>
    show (readWString wcharSize s).1.dataSyncMutex = _
    unfold readWString
    simp only [bytesAt_lock, pos_lock, or_true, true_and]
    split <;> rfl
  all_goals
    rw [if_neg (by simp)]
    rfl

end SharedData

/-- C3, counterexample. With the two bytes 1, 2 in the buffer and the cursor at 0,
`readFloat` returns with the cursor at 4, past the end of the buffer; with the bytes
5, 0, 0, 0, 65 (a length prefix of 5 and one byte left), `readString` returns a string
of 5 bytes with the cursor at 9. Neither is stopped. -/
theorem c3_read_past_end_moves_cursor :
    (sampleBuffer [1, 2]).readFloat.1._pos = 4 ∧
    ¬ ((sampleBuffer [1, 2]).readFloat.1._pos ≤
        (sampleBuffer [1, 2]).readFloat.1._dataBlock.length) ∧
    (sampleBuffer [5, 0, 0, 0, 65]).readString.1._pos = 9 ∧
    (sampleBuffer [5, 0, 0, 0, 65]).readString.2.length = 5 ∧
    ¬ ((sampleBuffer [5, 0, 0, 0, 65]).readString.1._pos ≤
        (sampleBuffer [5, 0, 0, 0, 65]).readString.1._dataBlock.length) := by
  refine ⟨?_, ?_, ?_, ?_, ?_⟩ <;> decide

/-- C3 (amended). A `read*` operation called with the data mutex free (and
`sizeof(wchar_t)` at least 1) whose bytes all lie between the cursor and the end of the
buffer (for a string: the 4-byte length prefix and the bytes that the prefix announces)
delivers the value built from exactly those bytes, leaves the buffer as it was and moves
the cursor by that number of bytes, so not past the end of the buffer; on return the
mutex is free again unless a string was read whose length prefix is 0; and neither the
number of bytes nor the value depends on what lies past the end of the buffer. -/
theorem c3_read_inside_buffer (wcharSize : Nat) (hw : 0 < wcharSize) (t : Ty)
    (s : SharedData) (hfree : s.dataSyncMutex = 0)
    (hin : s._pos + s.readWidth wcharSize t ≤ s._dataBlock.length) :
    (s.read wcharSize t).2 = Val.ofWindow t (s.window (s.readWidth wcharSize t)) ∧
    (s.read wcharSize t).1._pos = s._pos + s.readWidth wcharSize t ∧
    (s.read wcharSize t).1._pos ≤ (s.read wcharSize t).1._dataBlock.length ∧
    (s.read wcharSize t).1._dataBlock = s._dataBlock ∧
    (s.read wcharSize t).1.dataSyncMutex =
      (if (t = .string ∨ t = .wstring) ∧ fromLE (s.window 4) = 0 then 1 else 0) ∧
    ∀ mem : Nat → Nat,
      ({ s with pastEnd := mem } : SharedData).readWidth wcharSize t =
        s.readWidth wcharSize t ∧
      (({ s with pastEnd := mem } : SharedData).read wcharSize t).2 =
        (s.read wcharSize t).2 := by
  refine ⟨SharedData.read_val_inbounds wcharSize hw t s hin, read_pos wcharSize t s, ?_,
    SharedData.read_dataBlock wcharSize t s, ?_, ?_⟩
  · rw [read_pos, SharedData.read_dataBlock]
    exact hin
  · rw [SharedData.read_mutex, hfree]
    by_cases ht : t = .string ∨ t = .wstring
    · have h4 : s._pos + 4 ≤ s._dataBlock.length := by
        rcases ht with rfl | rfl <;> simp only [SharedData.readWidth] at hin <;> omega
      rw [SharedData.bytesAt_window s 4 h4]
    · rw [if_neg (fun h => ht h.1), if_neg (fun h => ht h.1)]
  · intro mem
    have hwid := SharedData.readWidth_inbounds wcharSize t s mem hin
    refine ⟨hwid, ?_⟩
    rw [SharedData.read_val_inbounds wcharSize hw t { s with pastEnd := mem }
        (by rw [hwid]; exact hin),
      SharedData.read_val_inbounds wcharSize hw t s hin, hwid]
    rfl

/-- C3 (amended), for `readString` on the nine bytes 5, 0, 0, 0, 65, 66, 67, 68, 69: the
string of the five bytes 65 to 69 is delivered and the cursor ends at 9, the size of the
buffer. -/
theorem c3_read_inside_buffer_witness :
    (sampleBuffer [5, 0, 0, 0, 65, 66, 67, 68, 69]).dataSyncMutex = 0 ∧
    (sampleBuffer [5, 0, 0, 0, 65, 66, 67, 68, 69])._pos +
        (sampleBuffer [5, 0, 0, 0, 65, 66, 67, 68, 69]).readWidth 4 .string ≤
      (sampleBuffer [5, 0, 0, 0, 65, 66, 67, 68, 69])._dataBlock.length ∧
    Val.ofWindow .string ((sampleBuffer [5, 0, 0, 0, 65, 66, 67, 68, 69]).window 9) =
      .string [65, 66, 67, 68, 69] ∧
    ((sampleBuffer [5, 0, 0, 0, 65, 66, 67, 68, 69]).read 4 .string).1._pos = 9 :=
  ⟨rfl, by decide, by decide,
    (c3_read_inside_buffer 4 (by decide) .string
      (sampleBuffer [5, 0, 0, 0, 65, 66, 67, 68, 69]) rfl (by decide)).2.1⟩

theorem encode_plain_eq {U : Type} (c : NetworkConsts) (z : Zlib) (wcharSize : Nat)
    (vals : List Val) (w : World U) (huc : w.shared._useCompression = false)
    (hcur : w.shared._currentStorage = .dataBlock) :
    encode c z (some (encodeFun wcharSize vals)) w =
      { w with shared :=
        { w.shared with
          _dataBlock := (w.shared._headerSpace.set 0 c.DataId).take c.HeaderSize ++
            (vals.map (Val.bytes wcharSize)).flatten
          _headerSpace := w.shared._headerSpace.set 0 c.DataId } } := by
  obtain ⟨s, u, p⟩ := w
  obtain ⟨d, dc, cb, hs, cur, uc, lvl, cr, pos, m, pe⟩ := s
  simp only at huc hcur
  subst huc hcur
  simp [encode, encodeFun, SharedData.foldl_write_eq, encodeReset_plain_eq,
    SharedData.insertAtEnd]

theorem encodeCompress_eq (z : Zlib) (s : SharedData) (dest : List Nat)
    (r : Int × List Nat)
    (hdest : dest = if s._compressedBuffer.length < s._dataBlockToCompress.length / 2 then
      SharedData.resize s._compressedBuffer (s._dataBlockToCompress.length * 2)
      else s._compressedBuffer)
    (hr : r = z.compress2 dest.length s._dataBlockToCompress s._compressionLevel) :
    s.encodeCompress z =
      if r.1 = Z_OK then
        ({ s with
            _dataBlock :=
              SharedData.storeSize (toLE 4 (s._dataBlockToCompress.length % 2 ^ 32))
                s._dataBlock ++ r.2
            _compressedBuffer := r.2 ++ dest.drop r.2.length
            _compressionRatio :=
              .quotient r.2.length (s._dataBlockToCompress.length % 2 ^ 32) }, none)
      else
        ({ s with _compressedBuffer := r.2 ++ dest.drop r.2.length }, some r.1) := by
  obtain ⟨d, dc, cb, hs, cur, uc, lvl, cr, pos, m, pe⟩ := s
  simp only at hdest hr
  by_cases hlt : cb.length < dc.length / 2
  · rw [if_pos hlt] at hdest
    subst hdest
    by_cases hok : r.1 = Z_OK
    · rw [if_pos hok]
      simp only [SharedData.encodeCompress, SharedData.lock, SharedData.unlock, if_pos hlt,
        if_pos hok, ← hr, List.take_left', Nat.add_sub_cancel]
    · rw [if_neg hok]
      simp only [SharedData.encodeCompress, SharedData.lock, SharedData.unlock, if_pos hlt,
        if_neg hok, ← hr, Nat.add_sub_cancel]
  · rw [if_neg hlt] at hdest
    subst hdest
    by_cases hok : r.1 = Z_OK
    · rw [if_pos hok]
      simp only [SharedData.encodeCompress, SharedData.lock, SharedData.unlock, if_neg hlt,
        if_pos hok, ← hr, List.take_left', Nat.add_sub_cancel]
    · rw [if_neg hok]
      simp only [SharedData.encodeCompress, SharedData.lock, SharedData.unlock, if_neg hlt,
        if_neg hok, ← hr, Nat.add_sub_cancel]

/-- The result of `encode` with compression enabled, for a callback that writes the
values `vals`: `bytes` are the bytes written, `hdr` the header, `dest` the destination
buffer handed to the compressor (`_compressedBuffer`, resized to twice the size of the
scratch buffer when it is shorter than half of it) and `r` the result of the
compressor. -/
theorem encode_compressed_eq {U : Type} (c : NetworkConsts) (z : Zlib) (wcharSize : Nat)
    (vals : List Val) (w : World U) (huc : w.shared._useCompression = true)
    (hcur : w.shared._currentStorage = .dataBlockToCompress)
    (bytes hdr dest : List Nat) (r : Int × List Nat)
    (hbytes : bytes = (vals.map (Val.bytes wcharSize)).flatten)
    (hhdr : hdr = (w.shared._headerSpace.set 0 c.CompressedDataId).take c.HeaderSize)
    (hdest : dest = if w.shared._compressedBuffer.length < bytes.length / 2 then
      SharedData.resize w.shared._compressedBuffer (bytes.length * 2)
      else w.shared._compressedBuffer)
    (hr : r = z.compress2 dest.length bytes w.shared._compressionLevel) :
    encode c z (some (encodeFun wcharSize vals)) w =
      if bytes = [] then
        { w with shared :=
          { w.shared with
            _dataBlock := hdr
            _dataBlockToCompress := []
            _headerSpace := w.shared._headerSpace.set 0 c.CompressedDataId } }
      else if r.1 = Z_OK then
        { w with shared :=
          { w.shared with
            _dataBlock := SharedData.storeSize (toLE 4 (bytes.length % 2 ^ 32)) hdr ++ r.2
            _dataBlockToCompress := bytes
            _compressedBuffer := r.2 ++ dest.drop r.2.length
            _compressionRatio := .quotient r.2.length (bytes.length % 2 ^ 32)
            _headerSpace := w.shared._headerSpace.set 0 c.CompressedDataId } }
      else
        { shared :=
          { w.shared with
            _dataBlock := hdr
            _dataBlockToCompress := bytes
            _compressedBuffer := r.2 ++ dest.drop r.2.length
            _headerSpace := w.shared._headerSpace.set 0 c.CompressedDataId }
          user := w.user
          printed := w.printed ++ [r.1] } := by
  obtain ⟨s, u, p⟩ := w
  obtain ⟨d, dc, cb, hs, cur, uc, lvl, cr, pos, m, pe⟩ := s
  simp only at huc hcur hhdr hdest hr
  subst huc hcur
  have hmid : (encodeFun wcharSize vals
      ({ shared := SharedData.encodeReset c
          { _dataBlock := d, _dataBlockToCompress := dc, _compressedBuffer := cb,
            _headerSpace := hs, _currentStorage := .dataBlockToCompress,
            _useCompression := true, _compressionLevel := lvl, _compressionRatio := cr,
            _pos := pos, dataSyncMutex := m, pastEnd := pe }
         user := u, printed := p } : World U)) =
      { shared :=
          { _dataBlock := hdr, _dataBlockToCompress := bytes, _compressedBuffer := cb,
            _headerSpace := hs.set 0 c.CompressedDataId,
            _currentStorage := .dataBlockToCompress,
            _useCompression := true, _compressionLevel := lvl, _compressionRatio := cr,
            _pos := pos, dataSyncMutex := m, pastEnd := pe }
        user := u, printed := p } := by
    simp [encodeFun, SharedData.foldl_write_eq, encodeReset_compressed_eq,
      SharedData.insertAtEnd, ← hbytes, hhdr]
  unfold encode
  simp only [hmid]
  by_cases hb : bytes = []
  · rw [if_pos hb]
    subst hb
    simp
  · rw [if_neg hb]
    have hcond : (true && !bytes.isEmpty) = true := by
      cases bytes with
      | nil => exact absurd rfl hb
      | cons a l => rfl
    rw [if_pos hcond]
    rw [encodeCompress_eq z _ dest r hdest hr]
    by_cases hok : r.1 = Z_OK
    · rw [if_pos hok, if_pos hok]
    · rw [if_neg hok, if_neg hok]
/-! ## The round trip of a sequence of values -/

theorem read_mutex_at (wcharSize : Nat) (v : Val) (hty : v.ty ≠ .wstring)
    (hlen : v.lengthFits) (hne : v.nonEmpty)
    (s : SharedData) (pre rest : List Nat)
    (hd : s._dataBlock = pre ++ v.bytes wcharSize ++ rest) (hp : s._pos = pre.length) :
    (s.read wcharSize v.ty).1.dataSyncMutex = s.dataSyncMutex := by
  rw [SharedData.read_mutex]
  cases v
  case string str =>
    have hl : str.length < 2 ^ 32 := hlen
    have hn : str ≠ [] := hne
    have hd1 : s._dataBlock = pre ++ toLE 4 str.length ++ (str ++ rest) := by
      rw [hd]
      simp only [Val.bytes, Nat.mod_eq_of_lt hl, List.take_length, List.append_assoc]
    have h4 : fromLE (s.bytesAt s._pos 4) = str.length :=
      SharedData.fixedU 4 str.length (by norm_num; omega) s pre (str ++ rest) hd1 hp
    rw [h4, if_neg]
    intro h
    exact hn (List.length_eq_zero.mp h.2)
  case wstring w => exact absurd rfl hty
  all_goals
    rw [if_neg]
    intro h
    rcases h.1 with h1 | h1 <;> cases h1

theorem decodeFun_mutex_at (wcharSize wcharBits : Nat) (vals : List Val)
    (hty : ∀ v ∈ vals, v.ty ≠ .wstring) (hr : ∀ v ∈ vals, v.inRange wcharBits)
    (hlen : ∀ v ∈ vals, v.lengthFits) (hne : ∀ v ∈ vals, v.nonEmpty)
    (w : World (List Val)) (pre rest : List Nat)
    (hd : w.shared._dataBlock = pre ++ (vals.map (Val.bytes wcharSize)).flatten ++ rest)
    (hp : w.shared._pos = pre.length) :
    (decodeFun wcharSize (vals.map Val.ty) w).shared.dataSyncMutex =
      w.shared.dataSyncMutex := by
  induction vals generalizing w pre with
  | nil => rfl
  | cons v vs ih =>
    have hd1 : w.shared._dataBlock =
        pre ++ v.bytes wcharSize ++
          ((vs.map (Val.bytes wcharSize)).flatten ++ rest) := by
      rw [hd, List.map_cons, List.flatten_cons]
      simp only [List.append_assoc]
    have hv := SharedData.read_at wcharSize wcharBits v (hty v (List.mem_cons_self _ _))
      (hr v (List.mem_cons_self _ _))
      (fun str h => by
        have := hlen v (List.mem_cons_self _ _)
        rw [h] at this
        exact this) w.shared pre _ hd1 hp
    have hm := read_mutex_at wcharSize v (hty v (List.mem_cons_self _ _))
      (hlen v (List.mem_cons_self _ _)) (hne v (List.mem_cons_self _ _))
      w.shared pre _ hd1 hp
    have hdb := SharedData.read_dataBlock wcharSize v.ty w.shared
    rw [List.map_cons, decodeFun_cons]
    have hd2 : (w.shared.read wcharSize v.ty).1._dataBlock =
        (pre ++ v.bytes wcharSize) ++ (vs.map (Val.bytes wcharSize)).flatten ++ rest := by
      rw [hdb, hd1]
      simp only [List.append_assoc]
    have hp2 : (w.shared.read wcharSize v.ty).1._pos = (pre ++ v.bytes wcharSize).length := by
      rw [hv.2, List.length_append]
    have h := ih (fun x hx => hty x (List.mem_cons_of_mem _ hx))
      (fun x hx => hr x (List.mem_cons_of_mem _ hx))
      (fun x hx => hlen x (List.mem_cons_of_mem _ hx))
      (fun x hx => hne x (List.mem_cons_of_mem _ hx))
      { w with shared := (w.shared.read wcharSize v.ty).1
               user := w.user ++ [(w.shared.read wcharSize v.ty).2] }
      (pre ++ v.bytes wcharSize) hd2 hp2
    rw [h]
    exact hm

/-- After the first `k` reads of the matching decode callback the data mutex is as
`decode` left it. -/
theorem decode_prefix_mutex (wcharSize wcharBits : Nat) (vals : List Val)
    (hty : ∀ v ∈ vals, v.ty ≠ .wstring) (hr : ∀ v ∈ vals, v.inRange wcharBits)
    (hlen : ∀ v ∈ vals, v.lengthFits) (hne : ∀ v ∈ vals, v.nonEmpty)
    (wDec : World (List Val)) (k : Nat) :
    (decode (some (decodeFun wcharSize ((vals.take k).map Val.ty)))
        (vals.map (Val.bytes wcharSize)).flatten
        ((vals.map (Val.bytes wcharSize)).flatten).length wDec).shared.dataSyncMutex =
      wDec.shared.dataSyncMutex := by
  rw [decode_some]
  have hsplit : (vals.map (Val.bytes wcharSize)).flatten =
      [] ++ ((vals.take k).map (Val.bytes wcharSize)).flatten ++
        ((vals.drop k).map (Val.bytes wcharSize)).flatten := by
    rw [List.nil_append, ← List.flatten_append, ← List.map_append, List.take_append_drop]
  have h := decodeFun_mutex_at wcharSize wcharBits (vals.take k)
    (fun v hv => hty v (List.mem_of_mem_take hv))
    (fun v hv => hr v (List.mem_of_mem_take hv))
    (fun v hv => hlen v (List.mem_of_mem_take hv))
    (fun v hv => hne v (List.mem_of_mem_take hv))
    { wDec with shared :=
        { wDec.shared with _pos := 0
                           _dataBlock := (vals.map (Val.bytes wcharSize)).flatten } }
    [] (((vals.drop k).map (Val.bytes wcharSize)).flatten) hsplit rfl
  rw [h]

/-- C1, counterexample. A narrow string of 2^32 bytes is written as the length prefix 0
and no bytes (`static_cast<uint32_t>(tmpStr.size())`), so the matching `readString`
delivers the empty string: the value read differs from the value written. And when the
empty string and the int32 42 are written, the data mutex, free when `decode` is called,
is held after the string has been read back (`readString` returns before `unlock()` when
the length is 0), so the `lock()` of the `readInt32` that follows finds it held. -/
theorem c1_long_or_empty_string_breaks_round_trip :
    (decode (some (decodeFun 4 ([Val.string (List.replicate (2 ^ 32) 97)].map Val.ty)))
        ((encode sampleConsts sampleZlib
            (some (encodeFun 4 [Val.string (List.replicate (2 ^ 32) 97)]))
            sampleWorld).shared.payload sampleConsts)
        ((encode sampleConsts sampleZlib
            (some (encodeFun 4 [Val.string (List.replicate (2 ^ 32) 97)]))
            sampleWorld).shared.payload sampleConsts).length
        sampleReceiver).user = [Val.string []] ∧
    [Val.string []] ≠ [Val.string (List.replicate (2 ^ 32) 97)] ∧
    (encode sampleConsts sampleZlib (some (encodeFun 4 [Val.string [], Val.int32 42]))
        sampleWorld).shared.payload sampleConsts = [0, 0, 0, 0, 42, 0, 0, 0] ∧
    sampleReceiver.shared.dataSyncMutex = 0 ∧
    (decode (some (decodeFun 4 [Ty.string])) [0, 0, 0, 0, 42, 0, 0, 0] 8
        sampleReceiver).shared.dataSyncMutex = 1 := by
  refine ⟨?_, ?_, by decide, rfl, by decide⟩
  · unfold SharedData.payload
    rw [encode_plain_payload sampleConsts sampleZlib 4
      [Val.string (List.replicate (2 ^ 32) 97)] sampleWorld rfl rfl rfl]
    simp only [List.map_cons, List.map_nil, List.flatten_cons, List.flatten_nil,
      List.append_nil, bytes_string_of_length_two_pow_32]
    rfl
  · intro h
    have h1 := congrArg (fun l => (l.map (fun v => match v with
      | Val.string str => str.length
      | _ => 0))) h
    simp only [List.map_cons, List.map_nil, List.length_nil, List.length_replicate,
      List.cons.injEq, and_true] at h1
    exact absurd h1 (by norm_num)

/-- C1 (amended). With compression disabled and the data mutex free on both sides, for
every sequence of values of the types bool, unsigned char, the signed and unsigned
integers of 8 to 64 bits, float and double (as bit patterns) and narrow string, each
narrow string non-empty and shorter than 2^32 bytes: when the encode callback writes
them with the matching `write*` operations and the payload that `encode()` placed after
the header is handed to `decode()` whose callback performs the matching `read*`
operations in the same order, the values read are the values written, in order, and the
cursor ends at the payload length; and the data mutex is free after the first `k` writes
and after the first `k` reads, for every `k`, so that every `lock()` of the run finds
the mutex free. -/
theorem c1_roundtrip_nonempty {U : Type} (c : NetworkConsts) (z : Zlib)
    (wcharSize wcharBits : Nat) (vals : List Val) (wEnc : World U)
    (wDec : World (List Val))
    (hplain : wEnc.shared._useCompression = false)
    (hcur : wEnc.shared._currentStorage = .dataBlock)
    (hhdr : wEnc.shared._headerSpace.length = c.HeaderSize)
    (hencFree : wEnc.shared.dataSyncMutex = 0)
    (hdecFree : wDec.shared.dataSyncMutex = 0)
    (hty : ∀ v ∈ vals, v.ty ≠ .wstring) (hr : ∀ v ∈ vals, v.inRange wcharBits)
    (hlen : ∀ v ∈ vals, v.lengthFits) (hne : ∀ v ∈ vals, v.nonEmpty) :
    (decode (some (decodeFun wcharSize (vals.map Val.ty)))
        ((encode c z (some (encodeFun wcharSize vals)) wEnc).shared.payload c)
        ((encode c z (some (encodeFun wcharSize vals)) wEnc).shared.payload c).length
        wDec).user = wDec.user ++ vals ∧
    (decode (some (decodeFun wcharSize (vals.map Val.ty)))
        ((encode c z (some (encodeFun wcharSize vals)) wEnc).shared.payload c)
        ((encode c z (some (encodeFun wcharSize vals)) wEnc).shared.payload c).length
        wDec).shared._pos =
      ((encode c z (some (encodeFun wcharSize vals)) wEnc).shared.payload c).length ∧
    (∀ k : Nat,
      (encode c z (some (encodeFun wcharSize (vals.take k)))
        wEnc).shared.dataSyncMutex = 0) ∧
    (∀ k : Nat,
      (decode (some (decodeFun wcharSize ((vals.take k).map Val.ty)))
        ((encode c z (some (encodeFun wcharSize vals)) wEnc).shared.payload c)
        ((encode c z (some (encodeFun wcharSize vals)) wEnc).shared.payload c).length
        wDec).shared.dataSyncMutex = 0) := by
  have h := roundtrip_payload c z wcharSize wcharBits vals wEnc wDec hplain hcur hhdr
    hty hr (fun str hs => hlen (Val.string str) hs)
  refine ⟨h.1, h.2, ?_, ?_⟩
  · intro k
    rw [encode_plain_eq c z wcharSize (vals.take k) wEnc hplain hcur]
    exact hencFree
  · intro k
    unfold SharedData.payload
    rw [encode_plain_payload c z wcharSize vals wEnc hplain hcur hhdr,
      decode_prefix_mutex wcharSize wcharBits vals hty hr hlen hne wDec k]
    exact hdecFree

/-- C1 (amended), at the sample values without an empty string on a freshly constructed
`SharedData`. -/
theorem c1_roundtrip_nonempty_witness :
    (sampleWorld.shared._useCompression = false ∧
      sampleWorld.shared._currentStorage = .dataBlock ∧
      sampleWorld.shared._headerSpace.length = sampleConsts.HeaderSize ∧
      sampleWorld.shared.dataSyncMutex = 0 ∧
      sampleReceiver.shared.dataSyncMutex = 0 ∧
      (∀ v ∈ sampleFrameVals, v.ty ≠ .wstring) ∧ (∀ v ∈ sampleFrameVals, v.inRange 32) ∧
      (∀ v ∈ sampleFrameVals, v.lengthFits) ∧ (∀ v ∈ sampleFrameVals, v.nonEmpty)) ∧
    (decode (some (decodeFun 4 (sampleFrameVals.map Val.ty)))
        ((encode sampleConsts sampleZlib (some (encodeFun 4 sampleFrameVals))
          sampleWorld).shared.payload sampleConsts)
        ((encode sampleConsts sampleZlib (some (encodeFun 4 sampleFrameVals))
          sampleWorld).shared.payload sampleConsts).length
        sampleReceiver).user = [] ++ sampleFrameVals ∧
    (decode (some (decodeFun 4 (sampleFrameVals.map Val.ty)))
        ((encode sampleConsts sampleZlib (some (encodeFun 4 sampleFrameVals))
          sampleWorld).shared.payload sampleConsts)
        ((encode sampleConsts sampleZlib (some (encodeFun 4 sampleFrameVals))
          sampleWorld).shared.payload sampleConsts).length
        sampleReceiver).shared._pos =
      ((encode sampleConsts sampleZlib (some (encodeFun 4 sampleFrameVals))
          sampleWorld).shared.payload sampleConsts).length :=
  ⟨⟨rfl, rfl, rfl, rfl, rfl, by decide, by decide, by decide, by decide⟩,
    (c1_roundtrip_nonempty sampleConsts sampleZlib 4 32 sampleFrameVals
      sampleWorld sampleReceiver rfl rfl rfl rfl rfl
      (by decide) (by decide) (by decide) (by decide)).1,
    (c1_roundtrip_nonempty sampleConsts sampleZlib 4 32 sampleFrameVals
      sampleWorld sampleReceiver rfl rfl rfl rfl rfl
      (by decide) (by decide) (by decide) (by decide)).2.1⟩


theorem encode_compressed_fields {U : Type} (c : NetworkConsts) (z : Zlib)
    (wcharSize : Nat) (vals : List Val) (w : World U)
    (huc : w.shared._useCompression = true)
    (hcur : w.shared._currentStorage = .dataBlockToCompress)
    (bytes hdr dest : List Nat) (r : Int × List Nat)
    (hbytes : bytes = (vals.map (Val.bytes wcharSize)).flatten)
    (hhdr : hdr = (w.shared._headerSpace.set 0 c.CompressedDataId).take c.HeaderSize)
    (hdest : dest = if w.shared._compressedBuffer.length < bytes.length / 2 then
      SharedData.resize w.shared._compressedBuffer (bytes.length * 2)
      else w.shared._compressedBuffer)
    (hr : r = z.compress2 dest.length bytes w.shared._compressionLevel) :
    (encode c z (some (encodeFun wcharSize vals)) w).shared._useCompression = true ∧
    (encode c z (some (encodeFun wcharSize vals)) w).shared._currentStorage =
      .dataBlockToCompress ∧
    (encode c z (some (encodeFun wcharSize vals)) w).shared._compressionLevel =
      w.shared._compressionLevel ∧
    (encode c z (some (encodeFun wcharSize vals)) w).shared._headerSpace =
      w.shared._headerSpace.set 0 c.CompressedDataId ∧
    (encode c z (some (encodeFun wcharSize vals)) w).shared._dataBlockToCompress = bytes ∧
    (encode c z (some (encodeFun wcharSize vals)) w).shared._dataBlock =
      (if bytes = [] then hdr
       else if r.1 = Z_OK then
         SharedData.storeSize (toLE 4 (bytes.length % 2 ^ 32)) hdr ++ r.2
       else hdr) ∧
    (encode c z (some (encodeFun wcharSize vals)) w).shared._compressedBuffer =
      (if bytes = [] then w.shared._compressedBuffer else r.2 ++ dest.drop r.2.length) := by
  rw [encode_compressed_eq c z wcharSize vals w huc hcur bytes hdr dest r hbytes hhdr
    hdest hr]
  by_cases hb : bytes = []
  · simp [hb, huc, hcur]
  · by_cases hok : r.1 = Z_OK
    · simp [hb, hok, huc, hcur]
    · simp [hb, hok, huc, hcur]

theorem resize_length (v : List Nat) (n : Nat) : (SharedData.resize v n).length = n := by
  unfold SharedData.resize
  rw [List.length_append, List.length_take, List.length_replicate]
  omega

/-- The destination buffer keeps its size over a call of the compressor, and it is
not resized a second time for the same scratch buffer. -/
theorem dest_stable (z : Zlib) (cb bytes dest : List Nat) (level : Int)
    (hdest : dest = if cb.length < bytes.length / 2 then
      SharedData.resize cb (bytes.length * 2) else cb) :
    (if ((z.compress2 dest.length bytes level).2 ++
          dest.drop (z.compress2 dest.length bytes level).2.length).length <
        bytes.length / 2 then
      SharedData.resize ((z.compress2 dest.length bytes level).2 ++
          dest.drop (z.compress2 dest.length bytes level).2.length) (bytes.length * 2)
      else (z.compress2 dest.length bytes level).2 ++
          dest.drop (z.compress2 dest.length bytes level).2.length).length =
      dest.length := by
  have hfit := z.fits dest.length bytes level
  have hlen : ((z.compress2 dest.length bytes level).2 ++
      dest.drop (z.compress2 dest.length bytes level).2.length).length = dest.length := by
    rw [List.length_append, List.length_drop]
    omega
  have hge : ¬ dest.length < bytes.length / 2 := by
    rw [hdest]
    split
    · rw [resize_length]; omega
    · assumption
  rw [hlen, if_neg hge, hlen]

theorem encode_twice_compressed {U : Type} (c : NetworkConsts) (z : Zlib)
    (wcharSize : Nat) (vals : List Val) (w : World U)
    (huc : w.shared._useCompression = true)
    (hcur : w.shared._currentStorage = .dataBlockToCompress)
    (bytes hdr dest : List Nat) (r : Int × List Nat)
    (hbytes : bytes = (vals.map (Val.bytes wcharSize)).flatten)
    (hhdr : hdr = (w.shared._headerSpace.set 0 c.CompressedDataId).take c.HeaderSize)
    (hdest : dest = if w.shared._compressedBuffer.length < bytes.length / 2 then
      SharedData.resize w.shared._compressedBuffer (bytes.length * 2)
      else w.shared._compressedBuffer)
    (hr : r = z.compress2 dest.length bytes w.shared._compressionLevel) :
    (encode c z (some (encodeFun wcharSize vals))
        (encode c z (some (encodeFun wcharSize vals)) w)).shared._dataBlockToCompress =
      bytes ∧
    (encode c z (some (encodeFun wcharSize vals))
        (encode c z (some (encodeFun wcharSize vals)) w)).shared._dataBlock =
      (if bytes = [] then hdr
       else if r.1 = Z_OK then
         SharedData.storeSize (toLE 4 (bytes.length % 2 ^ 32)) hdr ++ r.2
       else hdr) := by
  obtain ⟨h1, h2, h3, h4, -, -, h7⟩ :=
    encode_compressed_fields c z wcharSize vals w huc hcur bytes hdr dest r hbytes hhdr
      hdest hr
  have hhdr1 : hdr =
      ((encode c z (some (encodeFun wcharSize vals)) w).shared._headerSpace.set 0
        c.CompressedDataId).take c.HeaderSize := by
    rw [h4, List.set_set, hhdr]
  obtain ⟨-, -, -, -, g5, g6, -⟩ :=
    encode_compressed_fields c z wcharSize vals
      (encode c z (some (encodeFun wcharSize vals)) w) h1 h2 bytes hdr _ _ hbytes hhdr1
      rfl rfl
  refine ⟨g5, ?_⟩
  rw [g6]
  by_cases hb : bytes = []
  · rw [if_pos hb, if_pos hb]
  · rw [if_neg hb, if_neg hb]
    rw [h7, if_neg hb, h3, hr]
    rw [dest_stable z w.shared._compressedBuffer bytes dest w.shared._compressionLevel
      hdest]

theorem encode_twice_plain {U : Type} (c : NetworkConsts) (z : Zlib) (wcharSize : Nat)
    (vals : List Val) (w : World U) (huc : w.shared._useCompression = false)
    (hcur : w.shared._currentStorage = .dataBlock) :
    encode c z (some (encodeFun wcharSize vals))
        (encode c z (some (encodeFun wcharSize vals)) w) =
      encode c z (some (encodeFun wcharSize vals)) w := by
  have h1 := encode_plain_eq c z wcharSize vals w huc hcur
  have huc1 : (encode c z (some (encodeFun wcharSize vals)) w).shared._useCompression =
      false := by rw [h1]; exact huc
  have hcur1 : (encode c z (some (encodeFun wcharSize vals)) w).shared._currentStorage =
      .dataBlock := by rw [h1]; exact hcur
  rw [encode_plain_eq c z wcharSize vals _ huc1 hcur1, h1]
  simp only [List.set_set]

/-- C5. For the callback that writes a fixed sequence of values and a state whose
storage pointer agrees with the compression flag, a second `encode()` right after the
first leaves the final buffer and the scratch buffer as the first call left them.
Without compression that final buffer is the header followed by the bytes of one run
of the callback; with compression the scratch buffer holds the bytes of one run and
the final buffer is the header followed by the compressor output for exactly those
bytes (the header alone when nothing was written or the compressor failed). -/
theorem c5_encode_twice {U : Type} (c : NetworkConsts) (z : Zlib) (wcharSize : Nat)
    (vals : List Val) (w : World U)
    (hcons : w.shared._currentStorage =
      if w.shared._useCompression then .dataBlockToCompress else .dataBlock) :
    (encode c z (some (encodeFun wcharSize vals))
        (encode c z (some (encodeFun wcharSize vals)) w)).shared._dataBlock =
      (encode c z (some (encodeFun wcharSize vals)) w).shared._dataBlock ∧
    (encode c z (some (encodeFun wcharSize vals))
        (encode c z (some (encodeFun wcharSize vals)) w)).shared._dataBlockToCompress =
      (encode c z (some (encodeFun wcharSize vals)) w).shared._dataBlockToCompress ∧
    (w.shared._useCompression = false →
      (encode c z (some (encodeFun wcharSize vals))
          (encode c z (some (encodeFun wcharSize vals)) w)).shared._dataBlock =
        (w.shared._headerSpace.set 0 c.DataId).take c.HeaderSize ++
          (vals.map (Val.bytes wcharSize)).flatten) ∧
    (w.shared._useCompression = true →
      ∀ (dest : List Nat) (r : Int × List Nat),
        dest = (if w.shared._compressedBuffer.length <
            ((vals.map (Val.bytes wcharSize)).flatten).length / 2 then
          SharedData.resize w.shared._compressedBuffer
            (((vals.map (Val.bytes wcharSize)).flatten).length * 2)
          else w.shared._compressedBuffer) →
        r = z.compress2 dest.length (vals.map (Val.bytes wcharSize)).flatten
          w.shared._compressionLevel →
        (encode c z (some (encodeFun wcharSize vals))
            (encode c z (some (encodeFun wcharSize vals)) w)).shared._dataBlockToCompress =
          (vals.map (Val.bytes wcharSize)).flatten ∧
        (encode c z (some (encodeFun wcharSize vals))
            (encode c z (some (encodeFun wcharSize vals)) w)).shared._dataBlock =
          (if (vals.map (Val.bytes wcharSize)).flatten = [] then
            (w.shared._headerSpace.set 0 c.CompressedDataId).take c.HeaderSize
           else if r.1 = Z_OK then
            SharedData.storeSize
              (toLE 4 (((vals.map (Val.bytes wcharSize)).flatten).length % 2 ^ 32))
              ((w.shared._headerSpace.set 0 c.CompressedDataId).take c.HeaderSize) ++ r.2
           else (w.shared._headerSpace.set 0 c.CompressedDataId).take c.HeaderSize)) := by
  cases huc : w.shared._useCompression with
  | false =>
    rw [huc] at hcons
    have hcur : w.shared._currentStorage = .dataBlock := hcons
    rw [encode_twice_plain c z wcharSize vals w huc hcur]
    refine ⟨rfl, rfl, fun _ => ?_, fun h => absurd h (by simp)⟩
    rw [encode_plain_eq c z wcharSize vals w huc hcur]
  | true =>
    rw [huc] at hcons
    have hcur : w.shared._currentStorage = .dataBlockToCompress := hcons
    obtain ⟨-, -, -, -, f5, f6, -⟩ :=
      encode_compressed_fields c z wcharSize vals w huc hcur _ _ _ _ rfl rfl rfl rfl
    obtain ⟨t1, t2⟩ :=
      encode_twice_compressed c z wcharSize vals w huc hcur _ _ _ _ rfl rfl rfl rfl
    refine ⟨?_, ?_, fun h => absurd h (by simp), ?_⟩
    · rw [t2, f6]
    · rw [t1, f5]
    · intro _ dest r hdest hr
      subst hr
      subst hdest
      exact ⟨t1, t2⟩

/-- C5 at the sample values, with compression enabled at level 6. -/
theorem c5_encode_twice_witness :
    ((sampleCompressed 6).shared._currentStorage =
      if (sampleCompressed 6).shared._useCompression then .dataBlockToCompress
      else .dataBlock) ∧
    (encode sampleConsts sampleZlib (some (encodeFun 4 sampleVals))
        (encode sampleConsts sampleZlib (some (encodeFun 4 sampleVals))
          (sampleCompressed 6))).shared._dataBlock =
      (encode sampleConsts sampleZlib (some (encodeFun 4 sampleVals))
        (sampleCompressed 6)).shared._dataBlock :=
  ⟨rfl, (c5_encode_twice sampleConsts sampleZlib 4 sampleVals
    (sampleCompressed 6) rfl).1⟩

/-! ## The header after a compressed encode -/

theorem storeSize_length (p d : List Nat) : (SharedData.storeSize p d).length = d.length := by
  simp [SharedData.storeSize]

theorem storeSize_head (p d : List Nat) :
    (SharedData.storeSize p d).head? = d.head? := by
  cases d with
  | nil => rfl
  | cons a l => simp [SharedData.storeSize, List.set_cons_succ]

theorem drop_take_append (a b : List Nat) (h : 13 ≤ a.length) :
    ((a ++ b).drop 9).take 4 = (a.drop 9).take 4 := by
  rw [List.drop_append_of_le_length (by omega), List.take_append_of_le_length]
  rw [List.length_drop]; omega

theorem storeSize_field (x : Nat) (d : List Nat) (h : 13 ≤ d.length) :
    ((SharedData.storeSize (toLE 4 x) d).drop 9).take 4 = toLE 4 x := by
  match d, h with
  | _ :: _ :: _ :: _ :: _ :: _ :: _ :: _ :: _ :: _ :: _ :: _ :: _ :: rest, _ =>
    simp [SharedData.storeSize, toLE]

theorem storedSize_storeSize (x : Nat) (d b : List Nat) (h : 13 ≤ d.length)
    (hx : x < 2 ^ 32) :
    storedSize (SharedData.storeSize (toLE 4 x) d ++ b) = x := by
  unfold storedSize
  rw [drop_take_append _ _ (by rw [storeSize_length]; exact h), storeSize_field x d h]
  exact fromLE_toLE_of_lt 4 x (by norm_num; omega)

theorem header_length (c : NetworkConsts) (hs : List Nat) (tag : Nat)
    (h : hs.length = c.HeaderSize) :
    ((hs.set 0 tag).take c.HeaderSize).length = c.HeaderSize := by
  rw [List.length_take, List.length_set, h, Nat.min_self]

theorem header_field (c : NetworkConsts) (s : SharedData) (tag : Nat)
    (hok : s.headerOk c) (h13 : 13 ≤ c.HeaderSize) :
    (((s._headerSpace.set 0 tag).take c.HeaderSize).drop 9).take 4 =
      List.replicate 4 c.DefaultId := by
  obtain ⟨hl, ht⟩ := hok
  cases hs : s._headerSpace with
  | nil => rw [hs] at hl; simp at hl; omega
  | cons a l =>
    rw [hs] at hl ht
    simp only [List.tail_cons] at ht
    have hlen : l.length = c.HeaderSize - 1 := by
      simp only [List.length_cons] at hl; omega
    have h1 : ((a :: l).set 0 tag).take c.HeaderSize = tag :: l := by
      rw [List.set_cons_zero]
      apply List.take_of_length_le
      simp only [List.length_cons]; omega
    rw [h1, ht]
    simp only [List.drop_succ_cons, List.drop_replicate, List.take_replicate]
    congr 1
    omega

/-! ## The sample compressor and the sample state -/

theorem sampleZlib_ok (cap : Nat) (src : List Nat) (level : Int) (h1 : -1 ≤ level)
    (h2 : level ≤ 9) (hcap : src.length + 11 ≤ cap) :
    sampleZlib.compress2 cap src level =
      (Z_OK, [120, 1, 1, 0, 0, 0, 0] ++ src ++ [0, 0, 0, 0]) := by
  unfold sampleZlib
  simp only
  rw [if_neg (by omega), if_pos hcap]

theorem sampleZlib_bad_level (cap : Nat) (src : List Nat) (level : Int) (h : 9 < level) :
    sampleZlib.compress2 cap src level = (Z_STREAM_ERROR, []) := by
  unfold sampleZlib
  simp only
  rw [if_pos (Or.inr h)]

theorem sampleZlib_ok_iff (cap : Nat) (src : List Nat) (level : Int)
    (h : (sampleZlib.compress2 cap src level).1 = Z_OK) :
    (sampleZlib.compress2 cap src level).2 = [120, 1, 1, 0, 0, 0, 0] ++ src ++ [0, 0, 0, 0] := by
  unfold sampleZlib at h ⊢
  simp only at h ⊢
  split_ifs at h ⊢ with h1 h2
  · exact absurd h (by decide)
  · rfl
  · exact absurd h (by decide)

theorem sampleInflate_inverts (cap : Nat) (src : List Nat) (level : Int)
    (h : (sampleZlib.compress2 cap src level).1 = Z_OK) :
    sampleInflate.uncompress src.length (sampleZlib.compress2 cap src level).2 =
      (Z_OK, src) := by
  rw [sampleZlib_ok_iff cap src level h]
  unfold sampleInflate
  simp only [List.length_append, List.length_cons, List.length_nil]
  rw [if_pos (by omega)]
  have e : 0 + 1 + 1 + 1 + 1 + 1 + 1 + 1 + src.length + (0 + 1 + 1 + 1 + 1) - 11 =
      src.length := by omega
  rw [e]
  simp

theorem sample_compressedBuffer_length (level : Int) :
    (sampleCompressed level).shared._compressedBuffer.length = 2048 := by
  show (List.replicate (1024 * 2) 0).length = 2048
  rw [List.length_replicate]

theorem sample_dest_length (level : Int) (n : Nat) (hn : n / 2 ≤ 2048) :
    (if (sampleCompressed level).shared._compressedBuffer.length < n / 2 then
      SharedData.resize (sampleCompressed level).shared._compressedBuffer (n * 2)
      else (sampleCompressed level).shared._compressedBuffer).length = 2048 := by
  rw [if_neg (by rw [sample_compressedBuffer_length]; omega),
    sample_compressedBuffer_length]

/-- C6, counterexample. With compression enabled at the level 42, which the compressor
rejects, and a callback that writes one byte, `encode()` returns with the bytes 9 to 12
still holding the filler: they read as 0, while the callback wrote 1 byte. -/
theorem c6_field_unset_after_failed_compression :
    (encode sampleConsts sampleZlib (some (encodeFun 4 [Val.bool true]))
        (sampleCompressed 42)).shared._dataBlockToCompress
      = [1] ∧
    storedSize (encode sampleConsts sampleZlib (some (encodeFun 4 [Val.bool true]))
        (sampleCompressed 42)).shared._dataBlock = 0 := by
  obtain ⟨-, -, -, -, f5, f6, -⟩ :=
    encode_compressed_fields sampleConsts sampleZlib 4 [Val.bool true]
      (sampleCompressed 42) rfl rfl [1] _ _ _ rfl
      rfl rfl rfl
  refine ⟨f5, ?_⟩
  rw [f6, if_neg (by decide), sampleZlib_bad_level _ _ _ (by decide),
    if_neg (by decide)]
  decide

/-- C6 (amended). With compression enabled, when the callback wrote at least one and
fewer than 2^32 bytes to the scratch buffer and the compressor call succeeds, bytes 9
to 12 of the final buffer hold the count of bytes written. When the callback wrote
nothing or the compressor reports an error, bytes 9 to 12 are the four filler bytes
`DefaultId` of the header; for an empty payload they read as the count 0 exactly when
`DefaultId` is 0. -/
theorem c6_size_field {U : Type} (c : NetworkConsts) (z : Zlib) (wcharSize : Nat)
    (vals : List Val) (w : World U) (huc : w.shared._useCompression = true)
    (hcur : w.shared._currentStorage = .dataBlockToCompress)
    (hok : w.shared.headerOk c) (h13 : 13 ≤ c.HeaderSize)
    (bytes dest : List Nat) (r : Int × List Nat)
    (hbytes : bytes = (vals.map (Val.bytes wcharSize)).flatten)
    (hdest : dest = if w.shared._compressedBuffer.length < bytes.length / 2 then
      SharedData.resize w.shared._compressedBuffer (bytes.length * 2)
      else w.shared._compressedBuffer)
    (hr : r = z.compress2 dest.length bytes w.shared._compressionLevel) :
    (encode c z (some (encodeFun wcharSize vals)) w).shared._dataBlockToCompress = bytes ∧
    (bytes ≠ [] → r.1 = Z_OK → bytes.length < 2 ^ 32 →
      storedSize (encode c z (some (encodeFun wcharSize vals)) w).shared._dataBlock =
        bytes.length) ∧
    (bytes = [] ∨ r.1 ≠ Z_OK →
      ((encode c z (some (encodeFun wcharSize vals)) w).shared._dataBlock.drop 9).take 4 =
        List.replicate 4 c.DefaultId) ∧
    (bytes = [] →
      (storedSize (encode c z (some (encodeFun wcharSize vals)) w).shared._dataBlock =
        bytes.length ↔ c.DefaultId = 0)) := by
  obtain ⟨-, -, -, -, f5, f6, -⟩ :=
    encode_compressed_fields c z wcharSize vals w huc hcur bytes _ dest r hbytes rfl
      hdest hr
  have hfill := header_field c w.shared c.CompressedDataId hok h13
  have hhl := header_length c w.shared._headerSpace c.CompressedDataId hok.1
  refine ⟨f5, ?_, ?_, ?_⟩
  · intro hne hz hlt
    rw [f6, if_neg hne, if_pos hz, Nat.mod_eq_of_lt hlt]
    exact storedSize_storeSize bytes.length _ r.2 (by rw [hhl]; exact h13) hlt
  · intro h
    rw [f6]
    rcases h with h | h
    · rw [if_pos h]; exact hfill
    · by_cases hb : bytes = []
      · rw [if_pos hb]; exact hfill
      · rw [if_neg hb, if_neg h]; exact hfill
  · intro hb
    rw [f6, if_pos hb]
    unfold storedSize
    rw [hfill, hb]
    simp only [List.replicate, fromLE, List.length_nil]
    omega

/-- C6 (amended), at the sample values with compression at level 6: the compressor
succeeds and the field holds 32, the number of bytes written. -/
theorem c6_size_field_witness :
    ((sampleCompressed 6).shared._useCompression = true ∧
      (sampleCompressed 6).shared._currentStorage = .dataBlockToCompress ∧
      (sampleCompressed 6).shared.headerOk sampleConsts ∧
      13 ≤ sampleConsts.HeaderSize) ∧
    storedSize (encode sampleConsts sampleZlib (some (encodeFun 4 sampleVals))
        (sampleCompressed 6)).shared._dataBlock =
      ((sampleVals.map (Val.bytes 4)).flatten).length ∧
    ((sampleVals.map (Val.bytes 4)).flatten).length = 32 :=
  ⟨⟨rfl, rfl, by decide, by decide⟩,
    (c6_size_field sampleConsts sampleZlib 4 sampleVals
      (sampleCompressed 6) rfl rfl (by decide)
      (by decide) _ _ _ rfl rfl rfl).2.1 (by decide)
      (by rw [sampleZlib_ok _ _ _ (by decide) (by decide)
          (by rw [sample_dest_length 6 _ (by decide)]; decide)])
      (by decide),
    by decide⟩

/-- C7 (amended). With compression enabled, a payload of at least one and fewer than
2^32 bytes and a compressor call that succeeds, the final buffer after `encode()` is
the header, of `HeaderSize` bytes and with the tag `CompressedDataId`, followed by
exactly the bytes the compressor produced from the scratch buffer; the size stored in
the header is the payload size, and an `uncompress` that inverts the compressor,
given the bytes after the header and the stored size as capacity, returns the payload
the callback wrote. -/
theorem c7_compressed_buffer {U : Type} (c : NetworkConsts) (z : Zlib) (u : Inflate)
    (wcharSize : Nat) (vals : List Val) (w : World U)
    (huc : w.shared._useCompression = true)
    (hcur : w.shared._currentStorage = .dataBlockToCompress)
    (hhs : w.shared._headerSpace.length = c.HeaderSize) (h13 : 13 ≤ c.HeaderSize)
    (bytes dest : List Nat) (r : Int × List Nat)
    (hbytes : bytes = (vals.map (Val.bytes wcharSize)).flatten)
    (hdest : dest = if w.shared._compressedBuffer.length < bytes.length / 2 then
      SharedData.resize w.shared._compressedBuffer (bytes.length * 2)
      else w.shared._compressedBuffer)
    (hr : r = z.compress2 dest.length bytes w.shared._compressionLevel)
    (hne : bytes ≠ []) (hz : r.1 = Z_OK) (hlt : bytes.length < 2 ^ 32)
    (hinv : ∀ cap src level, (z.compress2 cap src level).1 = Z_OK →
      u.uncompress src.length (z.compress2 cap src level).2 = (Z_OK, src)) :
    (encode c z (some (encodeFun wcharSize vals)) w).shared._dataBlock.length =
      c.HeaderSize + r.2.length ∧
    (encode c z (some (encodeFun wcharSize vals)) w).shared._dataBlock.head? =
      some c.CompressedDataId ∧
    (encode c z (some (encodeFun wcharSize vals)) w).shared.payload c = r.2 ∧
    storedSize (encode c z (some (encodeFun wcharSize vals)) w).shared._dataBlock =
      bytes.length ∧
    u.uncompress
        (storedSize (encode c z (some (encodeFun wcharSize vals)) w).shared._dataBlock)
        ((encode c z (some (encodeFun wcharSize vals)) w).shared.payload c) =
      (Z_OK, bytes) := by
  obtain ⟨-, -, -, -, -, f6, -⟩ :=
    encode_compressed_fields c z wcharSize vals w huc hcur bytes _ dest r hbytes rfl
      hdest hr
  have hhl := header_length c w.shared._headerSpace c.CompressedDataId hhs
  rw [if_neg hne, if_pos hz] at f6
  have hsl : (SharedData.storeSize (toLE 4 (bytes.length % 2 ^ 32))
      ((w.shared._headerSpace.set 0 c.CompressedDataId).take c.HeaderSize)).length =
      c.HeaderSize := by rw [storeSize_length, hhl]
  have hpay : (encode c z (some (encodeFun wcharSize vals)) w).shared.payload c = r.2 := by
    unfold SharedData.payload
    rw [f6]
    exact List.drop_left' hsl
  have hst : storedSize (encode c z (some (encodeFun wcharSize vals)) w).shared._dataBlock =
      bytes.length := by
    rw [f6, Nat.mod_eq_of_lt hlt]
    exact storedSize_storeSize bytes.length _ r.2 (by rw [hhl]; exact h13) hlt
  refine ⟨?_, ?_, hpay, hst, ?_⟩
  · rw [f6, List.length_append, hsl]
  · rw [f6, List.head?_append_of_ne_nil _ (by
      intro h
      have := congrArg List.length h
      rw [hsl] at this
      simp at this
      omega), storeSize_head]
    cases hh : w.shared._headerSpace with
    | nil => rw [hh] at hhs; simp at hhs; omega
    | cons a l =>
      have : 0 < c.HeaderSize := by omega
      obtain ⟨n, hn⟩ := Nat.exists_eq_succ_of_ne_zero (Nat.pos_iff_ne_zero.mp this)
      rw [hn]
      simp
  · rw [hst, hpay, hr]
    rw [hr] at hz
    exact hinv _ _ _ hz

/-- C7 (amended), for the payload of one byte that `writeBool(true)` produces. -/
theorem c7_compressed_buffer_witness :
    ((sampleCompressed 6).shared._useCompression = true ∧
      (sampleCompressed 6).shared._currentStorage = .dataBlockToCompress ∧
      (sampleCompressed 6).shared._headerSpace.length = sampleConsts.HeaderSize ∧
      13 ≤ sampleConsts.HeaderSize ∧
      ((([Val.bool true].map (Val.bytes 4)).flatten ≠ [])) ∧
      ((([Val.bool true].map (Val.bytes 4)).flatten).length < 2 ^ 32)) ∧
    sampleInflate.uncompress
        (storedSize (encode sampleConsts sampleZlib (some (encodeFun 4 [Val.bool true]))
          (sampleCompressed 6)).shared._dataBlock)
        ((encode sampleConsts sampleZlib (some (encodeFun 4 [Val.bool true]))
          (sampleCompressed 6)).shared.payload
            sampleConsts) =
      (Z_OK, [1]) :=
  ⟨⟨rfl, rfl, by decide, by decide, by decide, by decide⟩,
    (c7_compressed_buffer sampleConsts sampleZlib sampleInflate 4 [Val.bool true]
      (sampleCompressed 6) rfl rfl (by decide)
      (by decide) _ _ _ rfl rfl rfl (by decide)
      (by rw [sampleZlib_ok _ _ _ (by decide) (by decide)
          (by rw [sample_dest_length 6 _ (by decide)]; decide)])
      (by decide) sampleInflate_inverts).2.2.2.2⟩

theorem two_strings_length (wcharSize : Nat) (S : List Nat) (hS : S.length = 2 ^ 31) :
    (([Val.string S, Val.string S].map (Val.bytes wcharSize)).flatten).length =
      2 ^ 32 + 8 := by
  have hm : S.length % 2 ^ 32 = 2 ^ 31 := by rw [hS]; norm_num
  simp only [List.map_cons, List.map_nil, List.flatten_cons, List.flatten_nil,
    List.append_nil, Val.bytes, List.length_append, toLE_length, List.length_take, hm, hS]
  norm_num

theorem large_payload_stored_size (S : List Nat) (hS : S.length = 2 ^ 31) :
    storedSize (encode sampleConsts sampleZlib
        (some (encodeFun 4 [Val.string S, Val.string S]))
        (sampleCompressed 6)).shared._dataBlock = 8 ∧
    (encode sampleConsts sampleZlib
        (some (encodeFun 4 [Val.string S, Val.string S]))
        (sampleCompressed 6)).shared._dataBlockToCompress.length =
      2 ^ 32 + 8 := by
  have hlen := two_strings_length 4 S hS
  generalize hb : ([Val.string S, Val.string S].map (Val.bytes 4)).flatten = bytes at hlen
  obtain ⟨-, -, -, -, f5, f6, -⟩ :=
    encode_compressed_fields sampleConsts sampleZlib 4 [Val.string S, Val.string S]
      (sampleCompressed 6) rfl rfl bytes _ _ _
      hb.symm rfl rfl rfl
  have hne : bytes ≠ [] := by
    intro h
    rw [h] at hlen
    simp at hlen
  have hdl : (if (sampleCompressed 6).shared._compressedBuffer.length <
        bytes.length / 2 then
      SharedData.resize (sampleCompressed 6).shared._compressedBuffer
        (bytes.length * 2)
      else (sampleCompressed 6).shared._compressedBuffer).length =
      bytes.length * 2 := by
    rw [if_pos (by rw [sample_compressedBuffer_length, hlen]; norm_num), resize_length]
  rw [if_neg hne, hdl, sampleZlib_ok _ _ _ (by decide) (by decide) (by omega),
    if_pos rfl] at f6
  constructor
  · rw [f6]
    have h8 : bytes.length % 2 ^ 32 = 8 := by rw [hlen]; norm_num
    rw [h8]
    exact storedSize_storeSize 8 _ _ (by decide) (by norm_num)
  · rw [f5, hlen]

/-- C7, counterexample. Two narrow strings of 2^31 bytes each make a payload of
2^32 + 8 bytes; the compressor succeeds, and the size stored in the header is 8, so no
`uncompress` given the stored size as capacity can return the payload. -/
theorem c7_stored_size_wraps_at_two_pow_32 :
    storedSize (encode sampleConsts sampleZlib
        (some (encodeFun 4 [Val.string (List.replicate (2 ^ 31) 97),
          Val.string (List.replicate (2 ^ 31) 97)]))
        (sampleCompressed 6)).shared._dataBlock = 8 ∧
    (encode sampleConsts sampleZlib
        (some (encodeFun 4 [Val.string (List.replicate (2 ^ 31) 97),
          Val.string (List.replicate (2 ^ 31) 97)]))
        (sampleCompressed 6)).shared._dataBlockToCompress.length =
      2 ^ 32 + 8 ∧
    ¬ ∃ u : Inflate,
      (u.uncompress
        (storedSize (encode sampleConsts sampleZlib
          (some (encodeFun 4 [Val.string (List.replicate (2 ^ 31) 97),
            Val.string (List.replicate (2 ^ 31) 97)]))
          (sampleCompressed 6)).shared._dataBlock)
        ((encode sampleConsts sampleZlib
          (some (encodeFun 4 [Val.string (List.replicate (2 ^ 31) 97),
            Val.string (List.replicate (2 ^ 31) 97)]))
          (sampleCompressed 6)).shared.payload
            sampleConsts)).2 =
      (encode sampleConsts sampleZlib
        (some (encodeFun 4 [Val.string (List.replicate (2 ^ 31) 97),
          Val.string (List.replicate (2 ^ 31) 97)]))
        (sampleCompressed 6)).shared._dataBlockToCompress := by
  obtain ⟨h1, h2⟩ := large_payload_stored_size (List.replicate (2 ^ 31) 97)
    (List.length_replicate _ _)
  refine ⟨h1, h2, ?_⟩
  rintro ⟨u, hu⟩
  have hfit := u.fits 8 ((encode sampleConsts sampleZlib
          (some (encodeFun 4 [Val.string (List.replicate (2 ^ 31) 97),
            Val.string (List.replicate (2 ^ 31) 97)]))
          (sampleCompressed 6)).shared.payload
            sampleConsts)
  rw [h1] at hu
  rw [hu, h2] at hfit
  norm_num at hfit

/-! ## Compression failure, the storage pointer, a single node -/

theorem frameLockPreStage_server (env : FrameLockEnv) (wakes : List Wake)
    (h : env.ignoreSync = true ∨ env.isComputerServer = true) :
    Engine.frameLockPreStage env wakes =
      { events := [.sync .SendDataToClients], outcome := .returned } := by
  unfold Engine.frameLockPreStage
  rcases h with h | h <;> simp [h]

theorem failed_compression {U : Type} (c : NetworkConsts) (z : Zlib) (wcharSize : Nat)
    (vals : List Val) (w : World U) (huc : w.shared._useCompression = true)
    (hcur : w.shared._currentStorage = .dataBlockToCompress)
    (hne : (vals.map (Val.bytes wcharSize)).flatten ≠ [])
    (hfail : (z.compress2
      (if w.shared._compressedBuffer.length <
          ((vals.map (Val.bytes wcharSize)).flatten).length / 2 then
        SharedData.resize w.shared._compressedBuffer
          (((vals.map (Val.bytes wcharSize)).flatten).length * 2)
        else w.shared._compressedBuffer).length
      (vals.map (Val.bytes wcharSize)).flatten w.shared._compressionLevel).1 ≠ Z_OK) :
    (encode c z (some (encodeFun wcharSize vals)) w).printed =
      w.printed ++ [(z.compress2
        (if w.shared._compressedBuffer.length <
            ((vals.map (Val.bytes wcharSize)).flatten).length / 2 then
          SharedData.resize w.shared._compressedBuffer
            (((vals.map (Val.bytes wcharSize)).flatten).length * 2)
          else w.shared._compressedBuffer).length
        (vals.map (Val.bytes wcharSize)).flatten w.shared._compressionLevel).1] ∧
    (encode c z (some (encodeFun wcharSize vals)) w).shared._dataBlock =
      (w.shared._headerSpace.set 0 c.CompressedDataId).take c.HeaderSize ∧
    (encode c z (some (encodeFun wcharSize vals)) w).user = w.user := by
  rw [encode_compressed_eq c z wcharSize vals w huc hcur _ _ _ _ rfl rfl rfl rfl,
    if_neg hne, if_neg hfail]
  exact ⟨rfl, rfl, rfl⟩

/-- C8, counterexample. On the server, with compression enabled at the level 42, which
the compressor rejects, and a callback that writes one byte: `encode()` returns with
the error code handed to `printError` and the final buffer holding the 13 bytes of the
header; the frame goes on through `frameLockPreStage`, which calls
`sync(SendDataToClients)` and returns. -/
theorem c8_failed_compression_is_sent :
    (encode sampleConsts sampleZlib (some (encodeFun 4 [Val.bool true]))
        (sampleCompressed 42)).printed =
      [Z_STREAM_ERROR] ∧
    (encode sampleConsts sampleZlib (some (encodeFun 4 [Val.bool true]))
        (sampleCompressed 42)).shared._dataBlock =
      [18, 0, 0, 0, 0, 0, 0, 0, 0, 0, 0, 0, 0] ∧
    (Engine.renderSyncPhase sampleConsts sampleZlib
        { ignoreSync := false, isComputerServer := true, _syncTimeout := 60,
          _printSyncMessage := true }
        true none (some (encodeFun 4 [Val.bool true])) []
        (sampleCompressed 42)).2 =
      { events := [.encode, .sync .SendDataToClients], outcome := .returned } := by
  obtain ⟨h1, h2, -⟩ := failed_compression sampleConsts sampleZlib 4 [Val.bool true]
    (sampleCompressed 42) rfl rfl (by decide)
    (by rw [sampleZlib_bad_level _ _ _ (by decide)]; decide)
  refine ⟨?_, ?_, ?_⟩
  · rw [h1, sampleZlib_bad_level _ _ _ (by decide)]
    rfl
  · rw [h2]
    decide
  · simp [Engine.renderSyncPhase, frameLockPreStage_server]

/-- C8 (amended). If the compressor reports an error during `encode()`, `encode()`
hands the error code to `printError` and returns normally, with the final buffer
holding only the header and the shared variables untouched; on the server the frame
then goes on through `frameLockPreStage`, whose `sync(SendDataToClients)` is the
next event, and that stage returns without waiting. -/
theorem c8_failed_compression_returns {U : Type} (c : NetworkConsts) (z : Zlib)
    (wcharSize : Nat) (vals : List Val) (w : World U) (env : FrameLockEnv)
    (nmRunning : Bool) (wakes : List Wake)
    (huc : w.shared._useCompression = true)
    (hcur : w.shared._currentStorage = .dataBlockToCompress)
    (hne : (vals.map (Val.bytes wcharSize)).flatten ≠ [])
    (hfail : (z.compress2
      (if w.shared._compressedBuffer.length <
          ((vals.map (Val.bytes wcharSize)).flatten).length / 2 then
        SharedData.resize w.shared._compressedBuffer
          (((vals.map (Val.bytes wcharSize)).flatten).length * 2)
        else w.shared._compressedBuffer).length
      (vals.map (Val.bytes wcharSize)).flatten w.shared._compressionLevel).1 ≠ Z_OK)
    (hserver : env.isComputerServer = true) :
    (encode c z (some (encodeFun wcharSize vals)) w).printed =
      w.printed ++ [(z.compress2
        (if w.shared._compressedBuffer.length <
            ((vals.map (Val.bytes wcharSize)).flatten).length / 2 then
          SharedData.resize w.shared._compressedBuffer
            (((vals.map (Val.bytes wcharSize)).flatten).length * 2)
          else w.shared._compressedBuffer).length
        (vals.map (Val.bytes wcharSize)).flatten w.shared._compressionLevel).1] ∧
    (encode c z (some (encodeFun wcharSize vals)) w).shared._dataBlock =
      (w.shared._headerSpace.set 0 c.CompressedDataId).take c.HeaderSize ∧
    (encode c z (some (encodeFun wcharSize vals)) w).user = w.user ∧
    Engine.renderSyncPhase c z env nmRunning none (some (encodeFun wcharSize vals)) wakes w =
      (encode c z (some (encodeFun wcharSize vals)) w,
        { events := [.encode, .sync .SendDataToClients], outcome := .returned }) := by
  obtain ⟨h1, h2, h3⟩ := failed_compression c z wcharSize vals w huc hcur hne hfail
  refine ⟨h1, h2, h3, ?_⟩
  simp [Engine.renderSyncPhase, hserver, frameLockPreStage_server]

/-- C8 (amended), on the server with the rejected level 42 and one byte written. -/
theorem c8_failed_compression_returns_witness :
    ((sampleCompressed 42).shared._useCompression = true ∧
      (sampleCompressed 42).shared._currentStorage = .dataBlockToCompress ∧
      ([Val.bool true].map (Val.bytes 4)).flatten ≠ []) ∧
    (encode sampleConsts sampleZlib (some (encodeFun 4 [Val.bool true]))
        (sampleCompressed 42)).shared._dataBlock =
      ((sampleCompressed 42).shared._headerSpace.set 0
        sampleConsts.CompressedDataId).take sampleConsts.HeaderSize :=
  ⟨⟨rfl, rfl, by decide⟩,
    (c8_failed_compression_returns sampleConsts sampleZlib 4 [Val.bool true]
      (sampleCompressed 42)
      { ignoreSync := false, isComputerServer := true, _syncTimeout := 60,
        _printSyncMessage := true }
      true [] rfl rfl (by decide)
      (by rw [sampleZlib_bad_level _ _ _ (by decide)]; decide) rfl).2.1⟩

theorem setCompression_true (level : Int) (s : SharedData) :
    s.setCompression true level =
      { s with _useCompression := true, _compressionLevel := level
               _currentStorage := .dataBlockToCompress } := by
  cases s
  simp [SharedData.setCompression, SharedData.lock, SharedData.unlock]

theorem setCompression_false (level : Int) (s : SharedData) :
    s.setCompression false level =
      { s with _useCompression := false, _compressionLevel := level
               _currentStorage := .dataBlock, _compressionRatio := .one } := by
  cases s
  simp [SharedData.setCompression, SharedData.lock, SharedData.unlock]

/-- C9. After `setCompression(true, level)` every sequence of `write*` operations
appends its bytes to the scratch buffer and leaves the final buffer unchanged; after
`setCompression(false, level)` it appends them to the final buffer and leaves the
scratch buffer unchanged, and `getCompressionRatio()` returns 1, before and after the
writes. -/
theorem c9_setCompression_selects_storage (s : SharedData) (level : Int)
    (wcharSize : Nat) (vals : List Val) :
    (vals.foldl (fun s v => s.write wcharSize v)
        (s.setCompression true level))._dataBlockToCompress =
      s._dataBlockToCompress ++ (vals.map (Val.bytes wcharSize)).flatten ∧
    (vals.foldl (fun s v => s.write wcharSize v)
        (s.setCompression true level))._dataBlock = s._dataBlock ∧
    (vals.foldl (fun s v => s.write wcharSize v)
        (s.setCompression false level))._dataBlock =
      s._dataBlock ++ (vals.map (Val.bytes wcharSize)).flatten ∧
    (vals.foldl (fun s v => s.write wcharSize v)
        (s.setCompression false level))._dataBlockToCompress = s._dataBlockToCompress ∧
    (s.setCompression false level).getCompressionRatio = .one ∧
    (vals.foldl (fun s v => s.write wcharSize v)
        (s.setCompression false level)).getCompressionRatio = .one := by
  rw [SharedData.foldl_write_eq, SharedData.foldl_write_eq, setCompression_true,
    setCompression_false]
  exact ⟨rfl, rfl, rfl, rfl, rfl, rfl⟩

/-- C10. When the cluster has exactly one node, the check in `Engine::init` sets the
ignore-sync flag; with that flag set, `frameLockPreStage` performs its
`sync(SendDataToClients)` and returns, and `frameLockPostStage` returns at once:
neither waits on the condition variable nor throws, whatever the server flag, the
running flags, `isSyncComplete()` and the clock report. -/
theorem c10_single_node_skips_frame_lock (cm : ClusterManager) (env : FrameLockEnv)
    (wakesPre wakesPost : List Wake) (hone : cm._nodes.length = 1)
    (hflag : env.ignoreSync = (Engine.initIgnoreSync cm).getIgnoreSync) :
    (Engine.initIgnoreSync cm).getIgnoreSync = true ∧
    Engine.frameLockPreStage env wakesPre =
      { events := [.sync .SendDataToClients], outcome := .returned } ∧
    Engine.frameLockPostStage env wakesPost = { events := [], outcome := .returned } := by
  have h1 : (Engine.initIgnoreSync cm).getIgnoreSync = true := by
    have hn : cm.getNumberOfNodes = 1 := by
      unfold ClusterManager.getNumberOfNodes
      rw [hone]
      decide
    unfold Engine.initIgnoreSync
    rw [if_pos hn]
    rfl
  rw [h1] at hflag
  refine ⟨h1, frameLockPreStage_server env wakesPre (Or.inl hflag), ?_⟩
  unfold Engine.frameLockPostStage
  simp [hflag]

/-- C10 for a cluster of one node, on a client that would otherwise wait: the one
recorded wake-up reports a running network, no sync and 100 seconds elapsed. -/
theorem c10_single_node_skips_frame_lock_witness :
    (((ClusterManager.init 0 false false 0).addNode { address := "localhost" })._nodes.length
        = 1 ∧
      true = (Engine.initIgnoreSync
        ((ClusterManager.init 0 false false 0).addNode
          { address := "localhost" })).getIgnoreSync) ∧
    Engine.frameLockPreStage
        { ignoreSync := true, isComputerServer := false, _syncTimeout := 60,
          _printSyncMessage := true }
        [{ nmRunning := true, engineRunning := true, activeConnections := 1,
           syncComplete := false, elapsedFirst := 100, updated := [false],
           elapsedSecond := 100 }] =
      { events := [.sync .SendDataToClients], outcome := .returned } :=
  ⟨⟨rfl, by decide⟩,
    (c10_single_node_skips_frame_lock
      ((ClusterManager.init 0 false false 0).addNode { address := "localhost" })
      { ignoreSync := true, isComputerServer := false, _syncTimeout := 60,
        _printSyncMessage := true }
      [{ nmRunning := true, engineRunning := true, activeConnections := 1,
         syncComplete := false, elapsedFirst := 100, updated := [false],
         elapsedSecond := 100 }]
      [] rfl (by decide)).2.1⟩

/-! ## The wait loops of the frame lock -/

theorem preStageLoop_wake (env : FrameLockEnv) (k : Wake) (rest : List Wake)
    (ev : List Event) (hnm : k.nmRunning = true) (heng : k.engineRunning = true)
    (hinc : k.syncComplete = false) :
    Engine.preStageLoop env (k :: rest) ev =
      if k.elapsedFirst ≤ 1 then
        Engine.preStageLoop env rest (ev ++ [Engine.waitEvent])
      else if k.elapsedSecond > env._syncTimeout then
        { events :=
            if env._printSyncMessage && !(k.updated.headD true) then
              ev ++ [Engine.waitEvent] ++ [.printInfo 0]
            else ev ++ [Engine.waitEvent]
          outcome := .thrown 3006 "No sync signal from master after " }
      else
        Engine.preStageLoop env rest
          (if env._printSyncMessage && !(k.updated.headD true) then
            ev ++ [Engine.waitEvent] ++ [.printInfo 0]
           else ev ++ [Engine.waitEvent]) := by
  rw [Engine.preStageLoop]
  simp only [hnm, heng, hinc, Bool.and_self, if_true, Bool.false_eq_true, if_false]

theorem postStageLoop_wake (env : FrameLockEnv) (k : Wake) (rest : List Wake)
    (ev : List Event) (hnm : k.nmRunning = true) (heng : k.engineRunning = true)
    (hact : k.activeConnections > 0) (hinc : k.syncComplete = false) :
    Engine.postStageLoop env (k :: rest) ev =
      if k.elapsedFirst ≤ 1 then
        Engine.postStageLoop env rest (ev ++ [Engine.waitEvent])
      else if k.elapsedSecond > env._syncTimeout then
        { events := ev ++ [Engine.waitEvent] ++ Engine.postStagePrints env k.updated
          outcome := .thrown 3007 "No sync signal from slaves after " }
      else
        Engine.postStageLoop env rest
          (ev ++ [Engine.waitEvent] ++ Engine.postStagePrints env k.updated) := by
  rw [Engine.postStageLoop]
  simp only [hnm, heng, hinc, hact, decide_True, Bool.and_self, if_true,
    Bool.false_eq_true, if_false]

theorem preStageLoop_nil (env : FrameLockEnv) (ev : List Event) :
    Engine.preStageLoop env [] ev = { events := ev, outcome := .waiting } := by
  rw [Engine.preStageLoop]

theorem postStageLoop_nil (env : FrameLockEnv) (ev : List Event) :
    Engine.postStageLoop env [] ev = { events := ev, outcome := .waiting } := by
  rw [Engine.postStageLoop]

/-- C11, counterexample. With a timeout of half a second and a wake-up at which 0.7
seconds have elapsed and the sync is incomplete, neither wait loop throws: both go on
waiting, although the elapsed time exceeds the timeout. -/
theorem c11_no_timeout_within_first_second :
    (sampleClient (1 / 2))._syncTimeout < (sampleWake (7 / 10)).elapsedSecond ∧
    (Engine.frameLockPreStage (sampleClient (1 / 2)) [sampleWake (7 / 10)]).outcome =
      .waiting ∧
    (Engine.frameLockPostStage (sampleServer (1 / 2)) [sampleWake (7 / 10)]).outcome =
      .waiting := by
  refine ⟨by norm_num [sampleClient, sampleWake], ?_, ?_⟩
  · show (Engine.preStageLoop (sampleClient (1 / 2)) [sampleWake (7 / 10)] _).outcome = _
    rw [preStageLoop_wake _ _ _ _ rfl rfl rfl,
      if_pos (by norm_num [sampleWake]), preStageLoop_nil]
  · show (Engine.postStageLoop (sampleServer (1 / 2)) [sampleWake (7 / 10)] _).outcome = _
    rw [postStageLoop_wake _ _ _ _ rfl rfl (by decide) rfl,
      if_pos (by norm_num [sampleWake]), postStageLoop_nil]

/-- C11 (amended). In both wait loops, at a wake-up at which the loop is still running
and found the sync incomplete, the timeout error is raised if and only if the elapsed
time read for the test against one second exceeds 1.0 and the elapsed time read for the
test against the timeout exceeds the timeout; otherwise the loop goes on with the next
wake-up. -/
theorem c11_timeout_after_first_second (env : FrameLockEnv) (k : Wake)
    (rest : List Wake) (ev : List Event) (hnm : k.nmRunning = true)
    (heng : k.engineRunning = true) (hact : k.activeConnections > 0)
    (hinc : k.syncComplete = false) :
    (1 < k.elapsedFirst ∧ env._syncTimeout < k.elapsedSecond →
      (Engine.preStageLoop env (k :: rest) ev).outcome =
        .thrown 3006 "No sync signal from master after " ∧
      (Engine.postStageLoop env (k :: rest) ev).outcome =
        .thrown 3007 "No sync signal from slaves after ") ∧
    (¬ (1 < k.elapsedFirst ∧ env._syncTimeout < k.elapsedSecond) →
      (∃ ev', Engine.preStageLoop env (k :: rest) ev = Engine.preStageLoop env rest ev') ∧
      (∃ ev', Engine.postStageLoop env (k :: rest) ev =
        Engine.postStageLoop env rest ev')) ∧
    ((Engine.preStageLoop env [k] ev).outcome =
        .thrown 3006 "No sync signal from master after " ↔
      1 < k.elapsedFirst ∧ env._syncTimeout < k.elapsedSecond) ∧
    ((Engine.postStageLoop env [k] ev).outcome =
        .thrown 3007 "No sync signal from slaves after " ↔
      1 < k.elapsedFirst ∧ env._syncTimeout < k.elapsedSecond) := by
  have hthrow : ∀ rest' : List Wake,
      1 < k.elapsedFirst ∧ env._syncTimeout < k.elapsedSecond →
      (Engine.preStageLoop env (k :: rest') ev).outcome =
        .thrown 3006 "No sync signal from master after " ∧
      (Engine.postStageLoop env (k :: rest') ev).outcome =
        .thrown 3007 "No sync signal from slaves after " := by
    intro rest' h
    rw [preStageLoop_wake env k rest' ev hnm heng hinc,
      postStageLoop_wake env k rest' ev hnm heng hact hinc,
      if_neg (not_le.mpr h.1), if_neg (not_le.mpr h.1), if_pos h.2, if_pos h.2]
    exact ⟨rfl, rfl⟩
  have hgo : ∀ rest' : List Wake,
      ¬ (1 < k.elapsedFirst ∧ env._syncTimeout < k.elapsedSecond) →
      (∃ ev', Engine.preStageLoop env (k :: rest') ev =
        Engine.preStageLoop env rest' ev') ∧
      (∃ ev', Engine.postStageLoop env (k :: rest') ev =
        Engine.postStageLoop env rest' ev') := by
    intro rest' h
    rw [preStageLoop_wake env k rest' ev hnm heng hinc,
      postStageLoop_wake env k rest' ev hnm heng hact hinc]
    by_cases h1 : k.elapsedFirst ≤ 1
    · rw [if_pos h1, if_pos h1]
      exact ⟨⟨_, rfl⟩, ⟨_, rfl⟩⟩
    · have h2 : ¬ k.elapsedSecond > env._syncTimeout := fun h2 => h ⟨not_le.mp h1, h2⟩
      rw [if_neg h1, if_neg h1, if_neg h2, if_neg h2]
      exact ⟨⟨_, rfl⟩, ⟨_, rfl⟩⟩
  refine ⟨hthrow rest, hgo rest, ⟨?_, fun h => (hthrow [] h).1⟩,
    ⟨?_, fun h => (hthrow [] h).2⟩⟩
  · intro h
    by_contra hc
    obtain ⟨⟨ev', e⟩, -⟩ := hgo [] hc
    rw [e, preStageLoop_nil] at h
    exact absurd h (by simp)
  · intro h
    by_contra hc
    obtain ⟨-, ⟨ev', e⟩⟩ := hgo [] hc
    rw [e, postStageLoop_nil] at h
    exact absurd h (by simp)

/-- C11 (amended), for a timeout of 60 seconds and a wake-up after 61 seconds. -/
theorem c11_timeout_after_first_second_witness :
    ((sampleWake 61).nmRunning = true ∧ (sampleWake 61).engineRunning = true ∧
      (sampleWake 61).activeConnections > 0 ∧ (sampleWake 61).syncComplete = false ∧
      1 < (sampleWake 61).elapsedFirst ∧
      (sampleClient 60)._syncTimeout < (sampleWake 61).elapsedSecond) ∧
    (Engine.preStageLoop (sampleClient 60) [sampleWake 61] []).outcome =
      .thrown 3006 "No sync signal from master after " :=
  ⟨⟨rfl, rfl, by decide, rfl, by norm_num [sampleWake],
      by norm_num [sampleWake, sampleClient]⟩,
    ((c11_timeout_after_first_second (sampleClient 60) (sampleWake 61) [] [] rfl rfl
      (by decide) rfl).1
      ⟨by norm_num [sampleWake], by norm_num [sampleWake, sampleClient]⟩).1⟩

/-! ## The acknowledgment, the error codes and the mutex of the string reads -/

/-- C12. On a client whose sync is not ignored, when the wait loop of
`frameLockPreStage` ends at its first test because the network manager is not running,
with the sync incomplete, the call still invokes `sync(AcknowledgeData)` and returns. -/
theorem c12_acknowledges_after_stop :
    (sampleClient 60).ignoreSync = false ∧ (sampleClient 60).isComputerServer = false ∧
    stoppedWake.nmRunning = false ∧ stoppedWake.syncComplete = false ∧
    Engine.frameLockPreStage (sampleClient 60) [stoppedWake] =
      { events := [.sync .SendDataToClients, .sync .AcknowledgeData]
        outcome := .returned } := by
  refine ⟨rfl, rfl, rfl, rfl, ?_⟩
  simp [Engine.frameLockPreStage, Engine.preStageLoop, sampleClient, stoppedWake]

/-- C15. With a timeout of 60 seconds and a wake-up after 61 seconds, the pre-stage wait
of a client throws the error of component Engine with code 3006 and the post-stage wait
of the server throws it with code 3007, while the table of error.h documents the two
errors under the codes 3004 and 3005, gives 3006 to another error and has no entry
3007. -/
theorem c15_timeout_codes_differ_from_table :
    (Engine.frameLockPreStage (sampleClient 60) [sampleWake 61]).outcome =
      .thrown 3006 "No sync signal from master after " ∧
    (Engine.frameLockPostStage (sampleServer 60) [sampleWake 61]).outcome =
      .thrown 3007 "No sync signal from slaves after " ∧
    Engine.errorComponent = "Engine" ∧
    errorTable 3004 = some ("Engine", "No sync signal from master after X seconds") ∧
    errorTable 3005 = some ("Engine", "No sync signal from clients after X seconds") ∧
    errorTable 3006 = some ("Engine", "Error requesting maximum number of swap groups") ∧
    errorTable 3007 = none := by
  refine ⟨?_, ?_, rfl, rfl, rfl, rfl, rfl⟩
  · show (Engine.preStageLoop (sampleClient 60) [sampleWake 61] _).outcome = _
    rw [preStageLoop_wake _ _ _ _ rfl rfl rfl,
      if_neg (by norm_num [sampleWake]),
      if_pos (by norm_num [sampleWake, sampleClient])]
  · show (Engine.postStageLoop (sampleServer 60) [sampleWake 61] _).outcome = _
    rw [postStageLoop_wake _ _ _ _ rfl rfl (by decide) rfl,
      if_neg (by norm_num [sampleWake]),
      if_pos (by norm_num [sampleWake, sampleServer])]

theorem readString_empty_mutex (s : SharedData)
    (h : fromLE (s.bytesAt s._pos 4) = 0) :
    s.readString.1.dataSyncMutex = s.dataSyncMutex + 1 ∧ s.readString.2 = [] := by
  have h' : fromLE (s.lock.bytesAt s.lock._pos 4) = 0 := by
    rw [SharedData.bytesAt_lock, SharedData.pos_lock]; exact h
  simp only [SharedData.readString, h', if_true]
  exact ⟨rfl, trivial⟩

theorem readWString_empty_mutex (wcharSize : Nat) (s : SharedData)
    (h : fromLE (s.bytesAt s._pos 4) = 0) :
    (s.readWString wcharSize).1.dataSyncMutex = s.dataSyncMutex + 1 ∧
    (s.readWString wcharSize).2 = [] := by
  have h' : fromLE (s.lock.bytesAt s.lock._pos 4) = 0 := by
    rw [SharedData.bytesAt_lock, SharedData.pos_lock]; exact h
  simp only [SharedData.readWString, h', if_true]
  exact ⟨rfl, trivial⟩

/-- C17. Reading a zero-length narrow string, or a zero-length wide string, from a
buffer that holds the length prefix 0 returns with the data-sync mutex still held (one
more lock than unlock), whereas reading the one-byte string "a" releases it. -/
theorem c17_empty_string_read_keeps_mutex :
    (sampleBuffer [0, 0, 0, 0]).dataSyncMutex = 0 ∧
    (sampleBuffer [0, 0, 0, 0]).readString.1.dataSyncMutex = 1 ∧
    ((sampleBuffer [0, 0, 0, 0]).readWString 4).1.dataSyncMutex = 1 ∧
    (sampleBuffer [1, 0, 0, 0, 97]).readString.1.dataSyncMutex = 0 := by
  have h0 : fromLE ((sampleBuffer [0, 0, 0, 0]).bytesAt (sampleBuffer [0, 0, 0, 0])._pos 4)
      = 0 := by decide
  refine ⟨rfl, (readString_empty_mutex _ h0).1, (readWString_empty_mutex 4 _ h0).1, ?_⟩
  have h1 : fromLE ((sampleBuffer [1, 0, 0, 0, 97]).lock.bytesAt
      (sampleBuffer [1, 0, 0, 0, 97]).lock._pos 4) = 1 := by decide
  simp only [SharedData.readString, h1]
  rfl

/-! ## Network initialisation and the default user -/

theorem getNumberOfNodes_eq_length (cm : ClusterManager)
    (h : cm._nodes.length < 2 ^ 31) : cm.getNumberOfNodes = cm._nodes.length := by
  unfold ClusterManager.getNumberOfNodes toSigned
  have h1 : cm._nodes.length % 2 ^ 32 = cm._nodes.length := Nat.mod_eq_of_lt (by omega)
  rw [h1]
  norm_num
  omega

/-- C16. The function `Engine::initNetwork` throws the error "Computer is not a part of
the cluster configuration" if and only if the node id in effect after the identity
resolution is negative or at least `getNumberOfNodes()`; when it does, its last call on
the network manager is `close` and it never calls `init`; for an id from 0 to the
number of nodes (excluded) it calls `init` and not `close`, and the error is not
raised. The value of `getNumberOfNodes()` is the number of configured nodes whenever
that is below 2^31. -/
theorem c16_initNetwork_rejects_foreign_node (remote : Bool)
    (retrieveNodeId : ClusterManager → ClusterManager) (networkInitSuccess : Bool)
    (cm : ClusterManager) :
    (Engine.initNetwork remote retrieveNodeId networkInitSuccess cm).cluster =
      (if remote then retrieveNodeId cm else cm) ∧
    ((Engine.initNetwork remote retrieveNodeId networkInitSuccess cm).outcome =
        .thrown 3001 "Computer is not a part of the cluster configuration" ↔
      (Engine.initNetwork remote retrieveNodeId networkInitSuccess cm).cluster.getThisNodeId
          < 0 ∨
        (Engine.initNetwork remote retrieveNodeId networkInitSuccess cm).cluster.getThisNodeId
          ≥ (Engine.initNetwork remote retrieveNodeId networkInitSuccess
              cm).cluster.getNumberOfNodes) ∧
    ((Engine.initNetwork remote retrieveNodeId networkInitSuccess cm).outcome =
        .thrown 3001 "Computer is not a part of the cluster configuration" →
      (Engine.initNetwork remote retrieveNodeId networkInitSuccess cm).calls.getLast? =
          some .close ∧
        NetworkCall.init ∉
          (Engine.initNetwork remote retrieveNodeId networkInitSuccess cm).calls) ∧
    ((Engine.initNetwork remote retrieveNodeId networkInitSuccess cm).outcome ≠
        .thrown 3001 "Computer is not a part of the cluster configuration" →
      (Engine.initNetwork remote retrieveNodeId networkInitSuccess cm).calls.getLast? =
          some .init ∧
        NetworkCall.close ∉
          (Engine.initNetwork remote retrieveNodeId networkInitSuccess cm).calls) ∧
    ((Engine.initNetwork remote retrieveNodeId networkInitSuccess
          cm).cluster._nodes.length < 2 ^ 31 →
      (Engine.initNetwork remote retrieveNodeId networkInitSuccess
          cm).cluster.getNumberOfNodes =
        (Engine.initNetwork remote retrieveNodeId networkInitSuccess
          cm).cluster._nodes.length) := by
  refine ⟨?_, ?_, ?_, ?_, fun h => getNumberOfNodes_eq_length _ h⟩
  · cases remote <;> unfold Engine.initNetwork <;> simp only [Bool.false_eq_true, if_false,
      if_true] <;> split_ifs <;> rfl
  · cases remote <;> cases networkInitSuccess <;> unfold Engine.initNetwork <;>
      simp only [Bool.false_eq_true, if_false, if_true, Bool.not_true, Bool.not_false] <;>
      split_ifs with h <;> simp <;> first | (rcases h with h | h <;> omega) | (push_neg at h; omega)
  · cases remote <;> cases networkInitSuccess <;> unfold Engine.initNetwork <;>
      simp only [Bool.false_eq_true, if_false, if_true, Bool.not_true, Bool.not_false] <;>
      split_ifs with h <;> simp
  · cases remote <;> cases networkInitSuccess <;> unfold Engine.initNetwork <;>
      simp only [Bool.false_eq_true, if_false, if_true, Bool.not_true, Bool.not_false] <;>
      split_ifs with h <;> simp

/-- C16, for the sample cluster of two nodes and the node id 5. -/
theorem c16_initNetwork_rejects_foreign_node_witness :
    (Engine.initNetwork false id true (sampleCluster.setThisNodeId 5)).outcome =
        .thrown 3001 "Computer is not a part of the cluster configuration" ∧
      (Engine.initNetwork false id true (sampleCluster.setThisNodeId 5)).calls.getLast? =
        some .close ∧
      NetworkCall.init ∉
        (Engine.initNetwork false id true (sampleCluster.setThisNodeId 5)).calls :=
  have h := c16_initNetwork_rejects_foreign_node false id true
    (sampleCluster.setThisNodeId 5)
  have ho := h.2.1.mpr (Or.inr (by decide))
  ⟨ho, h.2.2.1 ho⟩

theorem configureUser_name (user : ConfigUser) (u : User) :
    (ClusterManager.configureUser user u).name = u.name := by
  unfold ClusterManager.configureUser
  cases user.eyeSeparation <;> cases user.position <;> cases user.transformation <;>
    cases user.tracking <;> rfl

theorem defaultFirst_append (users more : List User)
    (h : ClusterManager.DefaultFirst users) : ClusterManager.DefaultFirst (users ++ more) := by
  obtain ⟨u, rest, rfl, hn⟩ := h
  exact ⟨u, rest ++ more, rfl, hn⟩

theorem defaultFirst_modifyFront (f : User → User) (hf : ∀ u, (f u).name = u.name)
    (users : List User) (h : ClusterManager.DefaultFirst users) :
    ClusterManager.DefaultFirst (ClusterManager.modifyFront f users) := by
  obtain ⟨u, rest, rfl, hn⟩ := h
  exact ⟨f u, rest, rfl, (hf u).trans hn⟩

theorem defaultFirst_modifyBack (f : User → User) (hf : ∀ u, (f u).name = u.name)
    (users : List User) (h : ClusterManager.DefaultFirst users) :
    ClusterManager.DefaultFirst (ClusterManager.modifyBack f users) := by
  obtain ⟨u, rest, rfl, hn⟩ := h
  cases rest with
  | nil => exact ⟨f u, [], rfl, (hf u).trans hn⟩
  | cons v us => exact ⟨u, ClusterManager.modifyBack f (v :: us), rfl, hn⟩

theorem defaultFirst_applyUser (cm : ClusterManager) (user : ConfigUser)
    (h : ClusterManager.DefaultFirst cm._users) :
    ClusterManager.DefaultFirst (cm.applyUser user)._users := by
  unfold ClusterManager.applyUser
  cases hname : user.name with
  | none => exact defaultFirst_modifyFront _ (configureUser_name user) _ h
  | some name =>
    exact defaultFirst_modifyBack _ (configureUser_name user) _
      (defaultFirst_append _ _ h)

theorem defaultFirst_foldl_applyUser (users : List ConfigUser) (cm : ClusterManager)
    (h : ClusterManager.DefaultFirst cm._users) :
    ClusterManager.DefaultFirst (users.foldl ClusterManager.applyUser cm)._users := by
  induction users generalizing cm with
  | nil => exact h
  | cons user rest ih => exact ih _ (defaultFirst_applyUser cm user h)

theorem foldl_addNode_users (nodes : List Node) (cm : ClusterManager) :
    (nodes.foldl (fun cm node => cm.addNode node) cm)._users = cm._users := by
  induction nodes generalizing cm with
  | nil => rfl
  | cons node rest ih => exact ih _

theorem defaultFirst_applyCluster (cluster : ConfigCluster) (cm : ClusterManager)
    (h : ClusterManager.DefaultFirst cm._users) :
    ClusterManager.DefaultFirst (cm.applyCluster cluster)._users := by
  unfold ClusterManager.applyCluster
  simp only [foldl_addNode_users]
  apply defaultFirst_foldl_applyUser
  cases cluster.externalControlPort <;> cases cluster.firmSync <;> exact h

/-- C19. In every state of `ClusterManager` reached from the constructor by `addUser`,
`addNode`, `applyCluster` and the setters, the user list is not empty, its first
element is named "default", and `getDefaultUser()` is that element. -/
theorem c19_default_user_stays_first (cm : ClusterManager)
    (h : ClusterManager.Reachable cm) :
    ∃ u rest, cm._users = u :: rest ∧ u.name = "default" ∧ cm.getDefaultUser = some u := by
  have key : ClusterManager.DefaultFirst cm._users := by
    induction h with
    | init => exact ⟨_, [], rfl, rfl⟩
    | addUser user cm _ ih => exact defaultFirst_append _ _ ih
    | addNode node cm _ ih => exact ih
    | applyCluster cluster cm _ ih => exact defaultFirst_applyCluster cluster cm ih
    | setUseIgnoreSync state cm _ ih => exact ih
    | setExternalControlPort port cm _ ih => exact ih
    | setThisNodeId id cm _ ih => exact ih
    | setFirmFrameLockSyncStatus state cm _ ih => exact ih
  obtain ⟨u, rest, hu, hn⟩ := key
  exact ⟨u, rest, hu, hn, by rw [ClusterManager.getDefaultUser, hu]; rfl⟩

/-- C19, for the sample cluster: a state reached by the constructor and `applyCluster`
with one unnamed and one named user. -/
theorem c19_default_user_stays_first_witness :
    ClusterManager.Reachable sampleCluster ∧
    ∃ u rest, sampleCluster._users = u :: rest ∧ u.name = "default" ∧
      sampleCluster.getDefaultUser = some u :=
  ⟨.applyCluster _ _ (.init 0 false false 0),
    c19_default_user_stays_first sampleCluster (.applyCluster _ _ (.init 0 false false 0))⟩

/-! ## The order of the steps of a frame -/

theorem frameLockPreStage_head (env : FrameLockEnv) (wakes : List Wake) :
    ∃ rest, (Engine.frameLockPreStage env wakes).events =
      Event.sync .SendDataToClients :: rest := by
  have loop : ∀ (wakes : List Wake) (ev : List Event),
      ∃ rest, (Engine.preStageLoop env wakes ev).events = ev ++ rest := by
    intro wakes
    induction wakes with
    | nil => intro ev; exact ⟨[], by rw [Engine.preStageLoop]; simp⟩
    | cons k rest ih =>
      intro ev
      rw [Engine.preStageLoop]
      split_ifs <;> dsimp only
      all_goals first
        | exact ⟨_, rfl⟩
        | exact ⟨_, List.append_assoc _ _ _⟩
        | (obtain ⟨r, hr⟩ := ih (ev ++ [Engine.waitEvent])
           exact ⟨[Engine.waitEvent] ++ r, by rw [hr, List.append_assoc]⟩)
        | (obtain ⟨r, hr⟩ := ih (ev ++ [Engine.waitEvent] ++ [.printInfo 0])
           exact ⟨[Engine.waitEvent] ++ [.printInfo 0] ++ r, by
            rw [hr]; simp only [List.append_assoc]⟩)
  unfold Engine.frameLockPreStage
  split_ifs
  · exact ⟨[], rfl⟩
  · obtain ⟨r, hr⟩ := loop wakes [Event.sync .SendDataToClients]
    exact ⟨r, by rw [hr]; rfl⟩

theorem renderIteration_steps (env : FrameLockEnv) (cb : RenderCallbacks)
    (nmRunning : Bool) (wakesPre wakesPost : List Wake)
    (h : Step.swap ∈ (Engine.renderIteration env cb nmRunning wakesPre wakesPost).steps) :
    (Engine.frameLockPreStage env wakesPre).outcome = .returned ∧
    (Engine.frameLockPostStage env wakesPost).outcome = .returned ∧
    (Engine.renderIteration env cb nmRunning wakesPre wakesPost).steps =
      (if env.isComputerServer then [Step.updateTracking] else []) ++
      (if cb.preSync then [Step.preSync] else []) ++
      (if env.isComputerServer then [Step.encode] else []) ++
      [Step.preStage (Engine.frameLockPreStage env wakesPre).events, Step.updateWindows] ++
      (if cb.postSyncPreDraw then [Step.postSyncPreDraw] else []) ++
      [Step.draw, Step.renderToScreen] ++
      (if cb.postDraw then [Step.postDraw] else []) ++
      [Step.postStage (Engine.frameLockPostStage env wakesPost).events, Step.swap,
        Step.pollEvents] := by
  obtain ⟨pre, post, dr⟩ := cb
  unfold Engine.renderIteration Engine.renderAfterPreStage at h ⊢
  generalize Engine.frameLockPreStage env wakesPre = rp at h ⊢
  generalize Engine.frameLockPostStage env wakesPost = rq at h ⊢
  obtain ⟨evp, op⟩ := rp
  obtain ⟨evq, oq⟩ := rq
  cases hs : env.isComputerServer <;> cases pre <;> cases post <;> cases dr <;>
    cases nmRunning <;> cases op <;> cases oq <;> simp [hs] at h ⊢

/-- C13. In every pass of the loop of `Engine::render` that reaches the buffer swap, the
steps are, in this order: the tracking update (server only), the pre-sync callback (if
set), `SharedData::encode` (if and only if the node is the server), `frameLockPreStage`
(which has returned and whose first event is the send to the clients), the update of
the windows, the post-sync-pre-draw callback (if set), the drawing, the copy to the
screen, the post-draw callback (if set), `frameLockPostStage`, the buffer swap and the
event poll. -/
theorem c13_render_order (env : FrameLockEnv) (cb : RenderCallbacks)
    (nmRunning : Bool) (wakesPre wakesPost : List Wake)
    (h : Step.swap ∈ (Engine.renderIteration env cb nmRunning wakesPre wakesPost).steps) :
    (Engine.frameLockPreStage env wakesPre).outcome = .returned ∧
    (∃ rest, (Engine.frameLockPreStage env wakesPre).events =
      Event.sync .SendDataToClients :: rest) ∧
    (Engine.renderIteration env cb nmRunning wakesPre wakesPost).steps =
      (if env.isComputerServer then [Step.updateTracking] else []) ++
      (if cb.preSync then [Step.preSync] else []) ++
      (if env.isComputerServer then [Step.encode] else []) ++
      [Step.preStage (Engine.frameLockPreStage env wakesPre).events, Step.updateWindows] ++
      (if cb.postSyncPreDraw then [Step.postSyncPreDraw] else []) ++
      [Step.draw, Step.renderToScreen] ++
      (if cb.postDraw then [Step.postDraw] else []) ++
      [Step.postStage (Engine.frameLockPostStage env wakesPost).events, Step.swap,
        Step.pollEvents] ∧
    (Step.encode ∈ (Engine.renderIteration env cb nmRunning wakesPre wakesPost).steps ↔
      env.isComputerServer = true) := by
  obtain ⟨hp, -, hs⟩ := renderIteration_steps env cb nmRunning wakesPre wakesPost h
  refine ⟨hp, frameLockPreStage_head env wakesPre, hs, ?_⟩
  rw [hs]
  obtain ⟨pre, post, dr⟩ := cb
  cases env.isComputerServer <;> cases pre <;> cases post <;> cases dr <;> simp

/-- C13, for a server with all three callbacks set whose clients have answered. -/
theorem c13_render_order_witness :
    Step.swap ∈ (Engine.renderIteration (sampleServer 60)
      { preSync := true, postSyncPreDraw := true, postDraw := true } true []
      [doneWake]).steps ∧
    (Engine.renderIteration (sampleServer 60)
      { preSync := true, postSyncPreDraw := true, postDraw := true } true []
      [doneWake]).steps =
      [.updateTracking, .preSync, .encode, .preStage [.sync .SendDataToClients],
        .updateWindows, .postSyncPreDraw, .draw, .renderToScreen, .postDraw,
        .postStage [], .swap, .pollEvents] :=
  ⟨by decide,
    (c13_render_order (sampleServer 60)
      { preSync := true, postSyncPreDraw := true, postDraw := true } true []
      [doneWake] (by decide)).2.2.1.trans (by decide)⟩

theorem renderIteration_no_post_stage_after_swap (env : FrameLockEnv)
    (cb : RenderCallbacks) (nmRunning : Bool) (wakesPre wakesPost : List Wake) :
    ((Engine.renderIteration env cb nmRunning wakesPre wakesPost).steps.dropWhile
      (fun s => !s.isSwap)).any Step.isPostStage = false := by
  obtain ⟨pre, post, dr⟩ := cb
  unfold Engine.renderIteration Engine.renderAfterPreStage
  generalize Engine.frameLockPreStage env wakesPre = rp
  generalize Engine.frameLockPostStage env wakesPost = rq
  obtain ⟨evp, op⟩ := rp
  obtain ⟨evq, oq⟩ := rq
  cases hs : env.isComputerServer <;> cases pre <;> cases post <;> cases dr <;>
    cases nmRunning <;> cases op <;> cases oq <;>
    simp [Step.isPostStage, Step.isSwap, List.dropWhile]

/-- C14, counterexample. On the server with the hardware swap barrier active, a frame of
`Engine::render` of engine.cpp runs `frameLockPostStage` before the buffer swap and
nothing of it after the swap; the legacy `render` of Engine.cpp with the barrier active
runs the post stage after the swap. And a pass of the loop in which a client finds the
network manager stopped leaves the loop at the `break`, with no post stage and no
swap. -/
theorem c14_barrier_active_post_stage_precedes_swap :
    ({ frameLock := sampleServer 60, barrierActive := true } : FrameEnv).barrierActive =
      true ∧
    (Engine.renderFrame { frameLock := sampleServer 60, barrierActive := true }
      { preSync := true, postSyncPreDraw := true, postDraw := true } true []
      [doneWake]).steps =
      [.updateTracking, .preSync, .encode, .preStage [.sync .SendDataToClients],
        .updateWindows, .postSyncPreDraw, .draw, .renderToScreen, .postDraw,
        .postStage [], .swap, .pollEvents] ∧
    Engine.legacyFrameEnd true [] = [.swap, .postStage []] ∧
    (Engine.renderFrame { frameLock := sampleClient 60, barrierActive := false }
      { preSync := true, postSyncPreDraw := true, postDraw := true } false []
      []).steps = [.preSync, .printError] := by
  refine ⟨rfl, by decide, rfl, by decide⟩

/-- C14 (amended). In every frame of `Engine::render` of engine.cpp that reaches the
buffer swap, whether the hardware swap barrier is active or not, `frameLockPostStage`
runs exactly once, and it runs before the buffer swap, never after it. -/
theorem c14_post_stage_once_before_swap (fe : FrameEnv) (cb : RenderCallbacks)
    (nmRunning : Bool) (wakesPre wakesPost : List Wake)
    (h : Step.swap ∈ (Engine.renderFrame fe cb nmRunning wakesPre wakesPost).steps) :
    (Engine.renderFrame fe cb nmRunning wakesPre wakesPost).steps.countP
      Step.isPostStage = 1 ∧
    ((Engine.renderFrame fe cb nmRunning wakesPre wakesPost).steps.takeWhile
      (fun s => !s.isSwap)).any Step.isPostStage = true ∧
    ((Engine.renderFrame fe cb nmRunning wakesPre wakesPost).steps.dropWhile
      (fun s => !s.isSwap)).any Step.isPostStage = false ∧
    (Engine.frameLockPostStage fe.frameLock wakesPost).outcome = .returned := by
  unfold Engine.renderFrame at h ⊢
  obtain ⟨-, hq, hs⟩ :=
    renderIteration_steps fe.frameLock cb nmRunning wakesPre wakesPost h
  refine ⟨?_, ?_, renderIteration_no_post_stage_after_swap _ _ _ _ _, hq⟩
  · rw [hs]
    obtain ⟨pre, post, dr⟩ := cb
    cases fe.frameLock.isComputerServer <;> cases pre <;> cases post <;> cases dr <;>
      simp [Step.isPostStage, List.countP_cons]
  · rw [hs]
    obtain ⟨pre, post, dr⟩ := cb
    cases fe.frameLock.isComputerServer <;> cases pre <;> cases post <;> cases dr <;>
      simp [Step.isPostStage, Step.isSwap, List.takeWhile]

/-- C14 (amended), for the sample server with the swap barrier active. -/
theorem c14_post_stage_once_before_swap_witness :
    Step.swap ∈ (Engine.renderFrame { frameLock := sampleServer 60, barrierActive := true }
      { preSync := true, postSyncPreDraw := true, postDraw := true } true []
      [doneWake]).steps ∧
    (Engine.renderFrame { frameLock := sampleServer 60, barrierActive := true }
      { preSync := true, postSyncPreDraw := true, postDraw := true } true []
      [doneWake]).steps.countP Step.isPostStage = 1 :=
  ⟨by decide,
    (c14_post_stage_once_before_swap { frameLock := sampleServer 60, barrierActive := true }
      { preSync := true, postSyncPreDraw := true, postDraw := true } true []
      [doneWake] (by decide)).1⟩

/-! ## The arguments that the legacy engine leaves -/

namespace LegacyEngine

theorem parseLoop_end (readInt : String → Int) (argv : List String) (i : Nat)
    (st : LegacySettings) (rm : List Nat) (h : ¬ i < argv.length) :
    parseLoop readInt argv i st rm = (st, rm) := by
  rw [parseLoop, if_neg h]

theorem parseLoop_value (readInt : String → Int) (argv : List String) (i : Nat)
    (st : LegacySettings) (rm : List Nat) (h : i + 1 < argv.length)
    (ha : argv.getD i "" ∈ valueFlags) :
    ∃ st', parseLoop readInt argv i st rm =
      parseLoop readInt argv (i + 2) st' (rm ++ [i, i + 1]) := by
  have hi : i < argv.length := by omega
  have hg : argv.length > i + 1 := h
  rw [parseLoop, if_pos hi]
  simp only [valueFlags, List.mem_cons, List.mem_singleton, List.not_mem_nil, or_false]
    at ha
  rcases ha with ha | ha | ha <;> simp only [ha, hg, and_true, if_true] <;>
    exact ⟨_, rfl⟩

theorem parseLoop_plain (readInt : String → Int) (argv : List String) (i : Nat)
    (st : LegacySettings) (rm : List Nat) (h : i < argv.length)
    (ha : argv.getD i "" ∈ plainFlags) :
    ∃ st', parseLoop readInt argv i st rm =
      parseLoop readInt argv (i + 1) st' (rm ++ [i]) := by
  rw [parseLoop, if_pos h]
  simp only [plainFlags, List.mem_cons, List.mem_singleton, List.not_mem_nil, or_false]
    at ha
  rcases ha with ha | ha | ha | ha | ha | ha | ha | ha | ha <;>
    simp only [ha, if_true] <;> exact ⟨_, rfl⟩

theorem parseLoop_other (readInt : String → Int) (argv : List String) (i : Nat)
    (st : LegacySettings) (rm : List Nat) (h : i < argv.length)
    (hv : argv.getD i "" ∈ valueFlags → ¬ i + 1 < argv.length)
    (hp : argv.getD i "" ∉ plainFlags) :
    parseLoop readInt argv i st rm = parseLoop readInt argv (i + 1) st rm := by
  rw [parseLoop, if_pos h]
  simp only [plainFlags, valueFlags, List.mem_cons, List.mem_singleton, List.not_mem_nil,
    or_false, not_or] at hp hv
  obtain ⟨h1, h2, h3, h4, h5, h6, h7, h8, h9⟩ := hp
  have c1 : ¬ (argv.getD i "" = "-config" ∧ argv.length > i + 1) :=
    fun c => hv (Or.inl c.1) c.2
  have c2 : ¬ (argv.getD i "" = "-local" ∧ argv.length > i + 1) :=
    fun c => hv (Or.inr (Or.inl c.1)) c.2
  have c3 : ¬ (argv.getD i "" = "-numberOfCaptureThreads" ∧ argv.length > i + 1) :=
    fun c => hv (Or.inr (Or.inr c.1)) c.2
  rw [if_neg c1, if_neg h1, if_neg h2, if_neg c2, if_neg h3, if_neg h4, if_neg h5,
    if_neg h6, if_neg h7, if_neg h8, if_neg h9, if_neg c3]

theorem drop_getD (l : List String) (i : Nat) (h : i < l.length) :
    l.drop i = l.getD i "" :: l.drop (i + 1) := by
  induction l generalizing i with
  | nil => simp at h
  | cons a l ih =>
    cases i with
    | zero => simp
    | succ j =>
      have hj : j < l.length := by simpa using h
      simpa using ih j hj

theorem copyLoop_removed (a : String) (l : List String) (i : Nat) (rm : List Nat) :
    copyLoop (a :: l) i (i :: rm) = copyLoop l (i + 1) rm := by
  simp [copyLoop]

theorem copyLoop_kept (a : String) (l : List String) (i : Nat) (rm : List Nat)
    (h : ∀ x ∈ rm, i + 1 ≤ x) :
    copyLoop (a :: l) i rm = a :: copyLoop l (i + 1) rm := by
  have hne : rm.head? ≠ some i := by
    cases rm with
    | nil => simp
    | cons x r =>
      have := h x (List.mem_cons_self x r)
      simp only [List.head?_cons, ne_eq, Option.some.injEq]
      omega
  rw [copyLoop, if_neg hne]

theorem copyLoop_nil (l : List String) (i : Nat) : copyLoop l i [] = l := by
  induction l generalizing i with
  | nil => rfl
  | cons a l ih => rw [copyLoop_kept a l i [] (by simp), ih]

theorem plain_not_value (a : String) (h : a ∈ plainFlags) : a ∉ valueFlags := by
  simp only [plainFlags, List.mem_cons, List.mem_singleton, List.not_mem_nil, or_false]
    at h
  rcases h with h | h | h | h | h | h | h | h | h <;> subst h <;> decide

theorem keptArguments_value (a v : String) (rest : List String) (h : a ∈ valueFlags) :
    keptArguments (a :: v :: rest) = keptArguments rest := by
  rw [keptArguments, if_pos h]

theorem keptArguments_plain (a : String) (tail : List String) (h : a ∈ plainFlags) :
    keptArguments (a :: tail) = keptArguments tail := by
  cases tail with
  | nil => simp [keptArguments, h]
  | cons v rest => rw [keptArguments, if_neg (plain_not_value a h), if_pos h]

theorem keptArguments_other (a : String) (tail : List String) (hp : a ∉ plainFlags)
    (hv : a ∈ valueFlags → tail = []) :
    keptArguments (a :: tail) = a :: keptArguments tail := by
  cases tail with
  | nil => simp [keptArguments, hp]
  | cons v rest =>
    have hnv : a ∉ valueFlags := fun c => by simpa using hv c
    rw [keptArguments, if_neg hnv, if_neg hp]

theorem parseLoop_removed (readInt : String → Int) (argv : List String) :
    ∀ (n i : Nat) (st : LegacySettings) (rm : List Nat), argv.length - i = n →
      ∃ st' rm', parseLoop readInt argv i st rm = (st', rm ++ rm') ∧
        copyLoop (argv.drop i) i rm' = keptArguments (argv.drop i) ∧
        rm'.length + (keptArguments (argv.drop i)).length = (argv.drop i).length ∧
        ∀ x ∈ rm', i ≤ x := by
  intro n
  induction n using Nat.strong_induction_on with
  | _ n ih =>
    intro i st rm hn
    by_cases hi : i < argv.length
    · have hd := drop_getD argv i hi
      by_cases hA : argv.getD i "" ∈ valueFlags ∧ i + 1 < argv.length
      · obtain ⟨st1, e1⟩ := parseLoop_value readInt argv i st rm hA.2 hA.1
        obtain ⟨st2, rm2, e2, hc, hl, hge⟩ :=
          ih (argv.length - (i + 2)) (by omega) (i + 2) st1 (rm ++ [i, i + 1]) rfl
        have hd1 : argv.drop (i + 1) = argv.getD (i + 1) "" :: argv.drop (i + 2) :=
          drop_getD argv (i + 1) hA.2
        refine ⟨st2, i :: (i + 1) :: rm2, ?_, ?_, ?_, ?_⟩
        · rw [e1, e2]; simp
        · rw [hd, hd1, copyLoop_removed, copyLoop_removed, keptArguments_value _ _ _ hA.1]
          exact hc
        · rw [hd, hd1, keptArguments_value _ _ _ hA.1]
          simp only [List.length_cons]
          omega
        · intro x hx
          simp only [List.mem_cons] at hx
          rcases hx with hx | hx | hx
          · omega
          · omega
          · have := hge x hx; omega
      · by_cases hB : argv.getD i "" ∈ plainFlags
        · obtain ⟨st1, e1⟩ := parseLoop_plain readInt argv i st rm hi hB
          obtain ⟨st2, rm2, e2, hc, hl, hge⟩ :=
            ih (argv.length - (i + 1)) (by omega) (i + 1) st1 (rm ++ [i]) rfl
          refine ⟨st2, i :: rm2, ?_, ?_, ?_, ?_⟩
          · rw [e1, e2]; simp
          · rw [hd, copyLoop_removed, keptArguments_plain _ _ hB]
            exact hc
          · rw [hd, keptArguments_plain _ _ hB]
            simp only [List.length_cons]
            omega
          · intro x hx
            simp only [List.mem_cons] at hx
            rcases hx with hx | hx
            · omega
            · have := hge x hx; omega
        · have hv : argv.getD i "" ∈ valueFlags → ¬ i + 1 < argv.length :=
            fun c1 c2 => hA ⟨c1, c2⟩
          have e1 := parseLoop_other readInt argv i st rm hi hv hB
          obtain ⟨st2, rm2, e2, hc, hl, hge⟩ :=
            ih (argv.length - (i + 1)) (by omega) (i + 1) st rm rfl
          have hk : keptArguments (argv.getD i "" :: argv.drop (i + 1)) =
              argv.getD i "" :: keptArguments (argv.drop (i + 1)) :=
            keptArguments_other _ _ hB (fun c => by
              have := hv c
              exact List.drop_eq_nil_of_le (by omega))
          refine ⟨st2, rm2, ?_, ?_, ?_, ?_⟩
          · rw [e1, e2]
          · rw [hd, copyLoop_kept _ _ _ _ hge, hk, hc]
          · rw [hd, hk]
            simp only [List.length_cons]
            omega
          · intro x hx
            have := hge x hx; omega
    · refine ⟨st, [], ?_, ?_, ?_, ?_⟩
      · rw [parseLoop_end readInt argv i st rm hi]; simp
      · rw [List.drop_eq_nil_of_le (by omega)]; rfl
      · rw [List.drop_eq_nil_of_le (by omega)]; rfl
      · intro x hx; simp at hx

theorem parseArguments_kept (readInt : String → Int) (argv : List String)
    (st : LegacySettings) :
    (parseArguments readInt argv st).argv = keptArguments argv ∧
    (parseArguments readInt argv st).argc = ((keptArguments argv).length : Int) := by
  obtain ⟨st', rm', e, hc, hl, -⟩ := parseLoop_removed readInt argv argv.length 0 st [] rfl
  simp only [List.drop_zero, List.nil_append] at e hc hl
  unfold parseArguments
  simp only [e]
  split_ifs with h
  · refine ⟨hc, ?_⟩
    simp only
    omega
  · have h0 : rm' = [] := by
      cases rm' with
      | nil => rfl
      | cons x r => simp at h
    subst h0
    rw [copyLoop_nil] at hc
    refine ⟨hc, ?_⟩
    simp only
    rw [← hc]

end LegacyEngine

theorem keptArguments_sublist (argv : List String) :
    (LegacyEngine.keptArguments argv).Sublist argv := by
  have key : ∀ (n : Nat) (l : List String), l.length = n →
      (LegacyEngine.keptArguments l).Sublist l := by
    intro n
    induction n using Nat.strong_induction_on with
    | _ n ih =>
      intro l hl
      cases l with
      | nil => simp [LegacyEngine.keptArguments]
      | cons a tail =>
        have htail := ih tail.length (by simp at hl; omega) tail rfl
        by_cases hp : a ∈ LegacyEngine.plainFlags
        · rw [LegacyEngine.keptArguments_plain a tail hp]
          exact htail.cons a
        · cases tail with
          | nil => rw [LegacyEngine.keptArguments_other a [] hp (fun _ => rfl)]
                   exact List.Sublist.refl _
          | cons v rest =>
            by_cases hv : a ∈ LegacyEngine.valueFlags
            · rw [LegacyEngine.keptArguments_value a v rest hv]
              have hrest := ih rest.length (by simp at hl; omega) rest rfl
              exact (hrest.cons v).cons a
            · rw [LegacyEngine.keptArguments_other a (v :: rest) hp
                (fun c => absurd c hv)]
              exact htail.cons₂ a
  exact key argv.length argv rfl

/-- C18, counterexample. For the argument list "prog", "-config" the legacy
`parseArguments` removes nothing: the flag `-config`, which has no argument after it,
stays in `argv` and `argc` stays 2. -/
theorem c18_trailing_value_flag_stays :
    "-config" ∈ LegacyEngine.valueFlags ∧
    (LegacyEngine.parseArguments (fun _ => 0) ["prog", "-config"] sampleSettings).argv =
      ["prog", "-config"] ∧
    (LegacyEngine.parseArguments (fun _ => 0) ["prog", "-config"] sampleSettings).argc =
      2 := by
  obtain ⟨h1, h2⟩ :=
    LegacyEngine.parseArguments_kept (fun _ => 0) ["prog", "-config"] sampleSettings
  refine ⟨by decide, ?_, ?_⟩
  · rw [h1]; decide
  · rw [h2]; decide

/-- C18 (amended). For every argument list the legacy `parseArguments` leaves in `argv`
exactly the arguments that `keptArguments` keeps, in their original order, and sets
`argc` to their number: a flag that takes a value and has an argument after it is
removed with that argument, a flag that stands alone is removed, and every other
argument stays, a value flag in the last place included. -/
theorem c18_parseArguments_leaves_unconsumed (readInt : String → Int)
    (argv : List String) (st : LegacySettings) :
    (LegacyEngine.parseArguments readInt argv st).argv =
      LegacyEngine.keptArguments argv ∧
    (LegacyEngine.parseArguments readInt argv st).argc =
      ((LegacyEngine.keptArguments argv).length : Int) ∧
    (LegacyEngine.parseArguments readInt argv st).argv.Sublist argv := by
  obtain ⟨h1, h2⟩ := LegacyEngine.parseArguments_kept readInt argv st
  exact ⟨h1, h2, h1 ▸ keptArguments_sublist argv⟩

/-! ## The widths of writes and reads -/

theorem current_insertAtEnd (bs : List Nat) (s : SharedData) :
    (s.insertAtEnd bs).current = s.current ++ bs := by
  cases s with
  | mk d dc cb hs cur uc lvl cr pos m pe =>
    cases cur <;> rfl

theorem flatten_toLE_length (wcharSize : Nat) (w : List Nat) :
    ((w.map (toLE wcharSize)).flatten).length = w.length * wcharSize := by
  induction w with
  | nil => simp
  | cons a w ih =>
    simp only [List.map_cons, List.flatten_cons, List.length_append, toLE_length, ih,
      List.length_cons]
    ring

theorem bytes_length (wcharSize : Nat) (v : Val) (hfit : v.prefixFits) :
    (v.bytes wcharSize).length = v.width wcharSize := by
  cases v with
  | string str =>
    have h : str.length % 2 ^ 32 = str.length := Nat.mod_eq_of_lt hfit
    simp only [Val.bytes, Val.width, h, List.length_append, toLE_length, List.take_length]
  | wstring w =>
    have h : w.length % 2 ^ 32 = w.length := Nat.mod_eq_of_lt hfit
    simp only [Val.bytes, Val.width, h, List.length_append, toLE_length,
      List.length_take, flatten_toLE_length, Nat.min_self]
  | uchar v => rfl
  | bool b => rfl
  | _ => simp only [Val.bytes, Val.width, toLE_length]

theorem readWidth_written (wcharSize : Nat) (v : Val) (hfit : v.prefixFits)
    (r : SharedData) (pre rest : List Nat)
    (hd : r._dataBlock = pre ++ v.bytes wcharSize ++ rest) (hp : r._pos = pre.length) :
    r.readWidth wcharSize v.ty = v.width wcharSize := by
  cases v with
  | string str =>
    have h : str.length % 2 ^ 32 = str.length := Nat.mod_eq_of_lt hfit
    have hd1 : r._dataBlock = pre ++ toLE 4 str.length ++ (str ++ rest) := by
      rw [hd]
      simp only [Val.bytes, h, List.take_length, List.append_assoc]
    have hx : str.length < 256 ^ 4 := by
      have : str.length < 2 ^ 32 := hfit
      norm_num at this ⊢
      exact this
    show 4 + fromLE (r.bytesAt r._pos 4) = 4 + str.length
    rw [SharedData.fixedU 4 str.length hx r pre _ hd1 hp]
  | wstring w =>
    have h : w.length % 2 ^ 32 = w.length := Nat.mod_eq_of_lt hfit
    have hd1 : r._dataBlock = pre ++ toLE 4 w.length ++
        (((w.map (toLE wcharSize)).flatten).take (w.length * wcharSize) ++ rest) := by
      rw [hd]
      simp only [Val.bytes, h, List.append_assoc]
    have hx : w.length < 256 ^ 4 := by
      have : w.length < 2 ^ 32 := hfit
      norm_num at this ⊢
      exact this
    show 4 + fromLE (r.bytesAt r._pos 4) * wcharSize = 4 + w.length * wcharSize
    rw [SharedData.fixedU 4 w.length hx r pre _ hd1 hp]
  | _ => rfl

theorem width_string_of_length (wcharSize n : Nat) (str : List Nat)
    (h : str.length = n) : Val.width wcharSize (.string str) = 4 + n := by
  simp only [Val.width, h]

/-- C20, counterexample. The operation `writeString` appends 4 bytes for a narrow string
of 2^32 bytes (the prefix 0 and no character), not the 4 + 2^32 bytes of the table. -/
theorem c20_long_string_appends_four_bytes :
    (sampleShared.write 4 (.string (List.replicate (2 ^ 32) 97))).current =
      sampleShared.current ++ [0, 0, 0, 0] ∧
    Val.width 4 (.string (List.replicate (2 ^ 32) 97)) = 4 + 2 ^ 32 := by
  constructor
  · rw [SharedData.write_eq, current_insertAtEnd, bytes_string_of_length_two_pow_32]
  · exact width_string_of_length 4 (2 ^ 32) _ (List.length_replicate _ _)

/-- C20 (amended). For every value whose length, if it is a narrow or wide string, is
below 2^32: the `write*` operation of its type leaves the bytes already in the current
buffer unchanged and appends after them a number of bytes equal to the width of the
table, and the `read*` operation of the type, with those bytes at the cursor, advances
the cursor by that same number. -/
theorem c20_write_width_is_read_advance (wcharSize : Nat) (v : Val)
    (hfit : v.prefixFits) (s r : SharedData) (pre rest : List Nat)
    (hd : r._dataBlock = pre ++ v.bytes wcharSize ++ rest) (hp : r._pos = pre.length) :
    (s.write wcharSize v).current = s.current ++ v.bytes wcharSize ∧
    (v.bytes wcharSize).length = v.width wcharSize ∧
    (s.write wcharSize v).current.length = s.current.length + v.width wcharSize ∧
    (r.read wcharSize v.ty).1._pos = r._pos + v.width wcharSize := by
  have hw : (s.write wcharSize v).current = s.current ++ v.bytes wcharSize := by
    rw [SharedData.write_eq, current_insertAtEnd]
  refine ⟨hw, bytes_length wcharSize v hfit, ?_, ?_⟩
  · rw [hw, List.length_append, bytes_length wcharSize v hfit]
  · rw [read_pos, readWidth_written wcharSize v hfit r pre rest hd hp]

/-- C20 (amended), for the wide string of the code units 65, 66 written after one byte
and read after one byte. -/
theorem c20_write_width_is_read_advance_witness :
    (Val.wstring [65, 66]).prefixFits ∧
    (sampleBuffer [9, 2, 0, 0, 0, 65, 0, 0, 0, 66, 0, 0, 0, 7])._dataBlock =
      [9] ++ (Val.wstring [65, 66]).bytes 4 ++ [7] ∧
    ((sampleBuffer [9]).write 4 (.wstring [65, 66])).current =
      [9, 2, 0, 0, 0, 65, 0, 0, 0, 66, 0, 0, 0] ∧
    (({ sampleBuffer [9, 2, 0, 0, 0, 65, 0, 0, 0, 66, 0, 0, 0, 7] with
        _pos := 1 } : SharedData).read 4 .wstring).1._pos = 13 :=
  have h := c20_write_width_is_read_advance 4 (.wstring [65, 66]) (by decide)
    (sampleBuffer [9])
    { sampleBuffer [9, 2, 0, 0, 0, 65, 0, 0, 0, 66, 0, 0, 0, 7] with _pos := 1 }
    [9] [7] rfl rfl
  ⟨by decide, rfl, h.1.trans rfl, h.2.2.2.trans rfl⟩

/-! ## Who waits in which stage, and how the wait loops end -/

theorem preStageLoop_stopped (env : FrameLockEnv) (k : Wake) (rest : List Wake)
    (ev : List Event) (h : k.nmRunning = false ∨ k.engineRunning = false) :
    Engine.preStageLoop env (k :: rest) ev =
      { events := ev ++ [.sync .AcknowledgeData], outcome := .returned } := by
  rw [Engine.preStageLoop]
  rcases h with h | h <;> simp [h]

theorem postStageLoop_stopped (env : FrameLockEnv) (k : Wake) (rest : List Wake)
    (ev : List Event)
    (h : k.nmRunning = false ∨ k.engineRunning = false ∨ k.activeConnections ≤ 0) :
    Engine.postStageLoop env (k :: rest) ev = { events := ev, outcome := .returned } := by
  rw [Engine.postStageLoop]
  rcases h with h | h | h
  · simp [h]
  · simp [h]
  · have h' : ¬ k.activeConnections > 0 := not_lt.mpr h
    simp [h']

theorem frameLockPostStage_client (env : FrameLockEnv) (wakes : List Wake)
    (h : env.ignoreSync = true ∨ env.isComputerServer = false) :
    Engine.frameLockPostStage env wakes = { events := [], outcome := .returned } := by
  unfold Engine.frameLockPostStage
  rcases h with h | h <;> simp [h]

/-- C21. With the sync not ignored: on the server `frameLockPreStage` makes the one
call `sync(SendDataToClients)` and returns, with no wait and no acknowledgment; on a
client `frameLockPostStage` returns at once with no event at all. A pre-stage that
waits, or that does not return, runs on a client; a post-stage that waits, or that does
not return, runs on the server; the pre-stage of a client and the post-stage of the
server enter their wait loops. -/
theorem c21_server_sends_client_skips_post (env : FrameLockEnv) (wakes : List Wake)
    (hsync : env.ignoreSync = false) :
    (env.isComputerServer = true →
      Engine.frameLockPreStage env wakes =
        { events := [.sync .SendDataToClients], outcome := .returned }) ∧
    (env.isComputerServer = false →
      Engine.frameLockPostStage env wakes = { events := [], outcome := .returned }) ∧
    (Engine.waitEvent ∈ (Engine.frameLockPreStage env wakes).events ∨
        (Engine.frameLockPreStage env wakes).outcome ≠ .returned →
      env.isComputerServer = false) ∧
    (Engine.waitEvent ∈ (Engine.frameLockPostStage env wakes).events ∨
        (Engine.frameLockPostStage env wakes).outcome ≠ .returned →
      env.isComputerServer = true) ∧
    (env.isComputerServer = false →
      Engine.frameLockPreStage env wakes =
        Engine.preStageLoop env wakes [.sync .SendDataToClients]) ∧
    (env.isComputerServer = true →
      Engine.frameLockPostStage env wakes = Engine.postStageLoop env wakes []) := by
  refine ⟨fun h => frameLockPreStage_server env wakes (Or.inr h),
    fun h => frameLockPostStage_client env wakes (Or.inr h), ?_, ?_,
    fun h => by simp [Engine.frameLockPreStage, hsync, h],
    fun h => by simp [Engine.frameLockPostStage, hsync, h]⟩
  · intro h
    cases hs : env.isComputerServer with
    | false => rfl
    | true =>
      rw [frameLockPreStage_server env wakes (Or.inr hs)] at h
      rcases h with h | h
      · exact absurd h (by decide)
      · exact absurd rfl h
  · intro h
    cases hs : env.isComputerServer with
    | true => rfl
    | false =>
      rw [frameLockPostStage_client env wakes (Or.inr hs)] at h
      rcases h with h | h
      · exact absurd h (by simp)
      · exact absurd rfl h

/-- C21, for the sample server and the sample client with a timeout of 60 seconds. -/
theorem c21_server_sends_client_skips_post_witness :
    (sampleServer 60).ignoreSync = false ∧
    Engine.frameLockPreStage (sampleServer 60) [sampleWake 61] =
      { events := [.sync .SendDataToClients], outcome := .returned } ∧
    (sampleClient 60).ignoreSync = false ∧
    Engine.frameLockPostStage (sampleClient 60) [sampleWake 61] =
      { events := [], outcome := .returned } :=
  ⟨rfl,
    (c21_server_sends_client_skips_post (sampleServer 60) [sampleWake 61] rfl).1 rfl,
    rfl,
    (c21_server_sends_client_skips_post (sampleClient 60) [sampleWake 61] rfl).2.1 rfl⟩

/-- C22, counterexample. With a timeout of 60 seconds, when the network manager stops
during a wait from which the loop wakes after 61 seconds (the next loop test would find
it not running), both loops raise the timeout error at that wake-up: the timeout test
follows the wait, the running flags are read only at the top of the next pass. -/
theorem c22_timeout_precedes_running_test :
    stoppedWake.nmRunning = false ∧
    (Engine.frameLockPreStage (sampleClient 60) [sampleWake 61, stoppedWake]).outcome =
      .thrown 3006 "No sync signal from master after " ∧
    (Engine.frameLockPostStage (sampleServer 60) [sampleWake 61, stoppedWake]).outcome =
      .thrown 3007 "No sync signal from slaves after " := by
  refine ⟨rfl, ?_, ?_⟩
  · show (Engine.preStageLoop (sampleClient 60) [sampleWake 61, stoppedWake] _).outcome = _
    rw [preStageLoop_wake _ _ _ _ rfl rfl rfl,
      if_neg (by norm_num [sampleWake]),
      if_pos (by norm_num [sampleWake, sampleClient])]
  · show (Engine.postStageLoop (sampleServer 60) [sampleWake 61, stoppedWake] _).outcome = _
    rw [postStageLoop_wake _ _ _ _ rfl rfl (by decide) rfl,
      if_neg (by norm_num [sampleWake]),
      if_pos (by norm_num [sampleWake, sampleServer])]

/-- C22 (amended). In both wait loops, at every loop test at which the network manager
is not running or the running flag of the engine is false, the loop exits without the
timeout error, whatever the elapsed times of that pass: the pre-stage goes on to its
acknowledgment and returns, the post-stage returns. -/
theorem c22_stopped_loop_exits (env : FrameLockEnv) (k : Wake) (rest : List Wake)
    (ev : List Event) (h : k.nmRunning = false ∨ k.engineRunning = false) :
    Engine.preStageLoop env (k :: rest) ev =
      { events := ev ++ [.sync .AcknowledgeData], outcome := .returned } ∧
    Engine.postStageLoop env (k :: rest) ev = { events := ev, outcome := .returned } :=
  ⟨preStageLoop_stopped env k rest ev h,
    postStageLoop_stopped env k rest ev
      (h.elim Or.inl (fun h' => Or.inr (Or.inl h')))⟩

/-- C22 (amended), for a loop test that finds the engine flag false after 61 seconds
with a timeout of 60 seconds. -/
theorem c22_stopped_loop_exits_witness :
    ({ sampleWake 61 with engineRunning := false } : Wake).engineRunning = false ∧
    (sampleClient 60)._syncTimeout <
      ({ sampleWake 61 with engineRunning := false } : Wake).elapsedSecond ∧
    (Engine.postStageLoop (sampleServer 60)
      [{ sampleWake 61 with engineRunning := false }] []).outcome = .returned :=
  ⟨rfl, by norm_num [sampleWake, sampleClient],
    congrArg Run.outcome
      (c22_stopped_loop_exits (sampleServer 60)
        { sampleWake 61 with engineRunning := false } [] [] (Or.inr rfl)).2⟩

/-- C23. On the server with the sync not ignored, when `getActiveConnectionsCount()` is
0 at the first test of the loop, `frameLockPostStage` returns with no wait and no
error, whatever `isSyncComplete()` would report and whatever the times. -/
theorem c23_no_active_connection_no_wait (env : FrameLockEnv) (k : Wake)
    (rest : List Wake) (hsync : env.ignoreSync = false)
    (hserver : env.isComputerServer = true) (hzero : k.activeConnections = 0) :
    Engine.frameLockPostStage env (k :: rest) = { events := [], outcome := .returned } := by
  unfold Engine.frameLockPostStage
  simp only [hsync, hserver, Bool.not_true, Bool.or_self, Bool.false_eq_true, if_false]
  exact postStageLoop_stopped env k rest [] (Or.inr (Or.inr (le_of_eq hzero)))

/-- C23, for the sample server and a first loop test with no active connection, the
sync incomplete and 61 seconds elapsed. -/
theorem c23_no_active_connection_no_wait_witness :
    (sampleServer 60).ignoreSync = false ∧ (sampleServer 60).isComputerServer = true ∧
    ({ sampleWake 61 with activeConnections := 0 } : Wake).activeConnections = 0 ∧
    ({ sampleWake 61 with activeConnections := 0 } : Wake).syncComplete = false ∧
    Engine.frameLockPostStage (sampleServer 60)
      [{ sampleWake 61 with activeConnections := 0 }] =
      { events := [], outcome := .returned } :=
  ⟨rfl, rfl, rfl, rfl,
    c23_no_active_connection_no_wait (sampleServer 60)
      { sampleWake 61 with activeConnections := 0 } [] rfl rfl rfl⟩

/-! ## The capacity of the compression buffer, the size of the user data -/

theorem long_string_bytes_length (wcharSize n ch : Nat) (hn : n < 2 ^ 32) :
    (([Val.string (List.replicate n ch)].map (Val.bytes wcharSize)).flatten).length =
      4 + n := by
  have h : n % 2 ^ 32 = n := Nat.mod_eq_of_lt hn
  simp only [List.map_cons, List.map_nil, List.flatten_cons, List.flatten_nil,
    List.append_nil, Val.bytes, List.length_replicate, h, List.length_append, toLE_length,
    List.length_take, Nat.min_self]

theorem sampleZlib_too_small (cap : Nat) (src : List Nat) (level : Int) (h1 : -1 ≤ level)
    (h2 : level ≤ 9) (hcap : cap < src.length + 11) :
    sampleZlib.compress2 cap src level = (Z_BUF_ERROR, []) := by
  unfold sampleZlib
  simp only
  rw [if_neg (by omega), if_neg (by omega)]

/-- C24. With compression enabled on a freshly constructed `SharedData` (a compression
buffer of 2048 bytes) and a callback that writes a string of 3000 bytes (3004 bytes
with its prefix), `encode()` does not re-allocate, since 2048 is not below 3004 / 2: it
hands the compressor a destination of 2048 bytes for an input of 3004 bytes, and a
compressor whose output is no smaller than its input reports `Z_BUF_ERROR`. -/
theorem c24_destination_smaller_than_input :
    (([Val.string (List.replicate 3000 97)].map (Val.bytes 4)).flatten).length = 3004 ∧
    (if (sampleCompressed 1).shared._compressedBuffer.length <
          (([Val.string (List.replicate 3000 97)].map (Val.bytes 4)).flatten).length / 2
        then
          SharedData.resize (sampleCompressed 1).shared._compressedBuffer
            ((([Val.string (List.replicate 3000 97)].map (Val.bytes 4)).flatten).length
              * 2)
        else (sampleCompressed 1).shared._compressedBuffer).length = 2048 ∧
    (encode sampleConsts sampleZlib
        (some (encodeFun 4 [Val.string (List.replicate 3000 97)]))
        (sampleCompressed 1)).printed = [Z_BUF_ERROR] := by
  have hlen := long_string_bytes_length 4 3000 97 (by norm_num)
  have hdest := sample_dest_length 1
    (([Val.string (List.replicate 3000 97)].map (Val.bytes 4)).flatten).length
    (by rw [hlen]; norm_num)
  have hne : ([Val.string (List.replicate 3000 97)].map (Val.bytes 4)).flatten ≠ [] := by
    intro h
    rw [h] at hlen
    simp at hlen
  have hz : sampleZlib.compress2
      (if (sampleCompressed 1).shared._compressedBuffer.length <
          (([Val.string (List.replicate 3000 97)].map (Val.bytes 4)).flatten).length / 2
        then
          SharedData.resize (sampleCompressed 1).shared._compressedBuffer
            ((([Val.string (List.replicate 3000 97)].map (Val.bytes 4)).flatten).length
              * 2)
        else (sampleCompressed 1).shared._compressedBuffer).length
      ([Val.string (List.replicate 3000 97)].map (Val.bytes 4)).flatten
      (sampleCompressed 1).shared._compressionLevel = (Z_BUF_ERROR, []) := by
    rw [hdest]
    exact sampleZlib_too_small 2048 _ _ (by decide) (by decide) (by rw [hlen]; norm_num)
  obtain ⟨h1, -, -⟩ := failed_compression sampleConsts sampleZlib 4
    [Val.string (List.replicate 3000 97)] (sampleCompressed 1) rfl rfl hne
    (by rw [hz]; decide)
  refine ⟨by rw [hlen], hdest, ?_⟩
  rw [h1, hz]
  rfl

theorem getUserDataSize_of_le (c : NetworkConsts) (s : SharedData)
    (hs : s._dataBlock.length < 2 ^ 64) (h : c.HeaderSize ≤ s._dataBlock.length) :
    s.getUserDataSize c = s._dataBlock.length - c.HeaderSize := by
  unfold SharedData.getUserDataSize
  have e : ((s._dataBlock.length : Int) - (c.HeaderSize : Int)) =
      ((s._dataBlock.length - c.HeaderSize : Nat) : Int) := by omega
  rw [e]
  have hlt : ((s._dataBlock.length - c.HeaderSize : Nat) : Int) < 2 ^ 64 := by
    have : s._dataBlock.length - c.HeaderSize < 2 ^ 64 := by omega
    exact_mod_cast this
  rw [Int.emod_eq_of_lt (by omega) hlt]
  simp

theorem getUserDataSize_of_lt (c : NetworkConsts) (s : SharedData)
    (hc : c.HeaderSize ≤ 2 ^ 64) (h : s._dataBlock.length < c.HeaderSize) :
    s.getUserDataSize c = 2 ^ 64 - (c.HeaderSize - s._dataBlock.length) := by
  unfold SharedData.getUserDataSize
  have e : ((s._dataBlock.length : Int) - (c.HeaderSize : Int)) =
      ((2 ^ 64 - (c.HeaderSize - s._dataBlock.length) : Nat) : Int) + (-1) * 2 ^ 64 := by
    omega
  rw [e, Int.add_mul_emod_self]
  have hlt : ((2 ^ 64 - (c.HeaderSize - s._dataBlock.length) : Nat) : Int) < 2 ^ 64 := by
    have : 2 ^ 64 - (c.HeaderSize - s._dataBlock.length) < 2 ^ 64 := by omega
    exact_mod_cast this
  rw [Int.emod_eq_of_lt (by omega) hlt]
  simp

theorem encode_dataSize_ge {U : Type} (c : NetworkConsts) (z : Zlib) (wcharSize : Nat)
    (vals : List Val) (w : World U)
    (hhdr : w.shared._headerSpace.length = c.HeaderSize)
    (hcur : w.shared._currentStorage =
      if w.shared._useCompression then .dataBlockToCompress else .dataBlock) :
    c.HeaderSize ≤
      (encode c z (some (encodeFun wcharSize vals)) w).shared.getDataSize := by
  unfold SharedData.getDataSize
  cases huc : w.shared._useCompression with
  | false =>
    rw [huc] at hcur
    rw [encode_plain_eq c z wcharSize vals w huc hcur]
    simp only [List.length_append, header_length c _ _ hhdr]
    omega
  | true =>
    rw [huc] at hcur
    rw [encode_compressed_eq c z wcharSize vals w huc hcur _ _ _ _ rfl rfl rfl rfl]
    split_ifs <;>
      simp only [List.length_append, storeSize_length, header_length c _ _ hhdr] <;>
      omega

/-- C25, counterexample. On a freshly constructed `SharedData` (a header of 13 bytes,
an empty final buffer) `getUserDataSize()` is 2^64 - 13 while `getDataSize()` is 0,
and after `decode()` of a payload of 5 bytes it is 2^64 - 8 while `getDataSize()` is
5. -/
theorem c25_fresh_state_wraps_around :
    sampleShared.getDataSize = 0 ∧
    sampleShared.getUserDataSize sampleConsts = 2 ^ 64 - 13 ∧
    (decode none [1, 2, 3, 4, 5] 5 sampleReceiver).shared.getDataSize = 5 ∧
    (decode none [1, 2, 3, 4, 5] 5 sampleReceiver).shared.getUserDataSize sampleConsts =
      2 ^ 64 - 8 := by
  have hd : (decode none [1, 2, 3, 4, 5] 5 sampleReceiver).shared._dataBlock =
      [1, 2, 3, 4, 5] := by
    rw [show (5 : Int) = (([1, 2, 3, 4, 5] : List Nat).length : Int) from rfl, decode_none]
  refine ⟨rfl, ?_, ?_, ?_⟩
  · rw [getUserDataSize_of_lt sampleConsts sampleShared (by decide) (by decide)]
    rfl
  · rw [SharedData.getDataSize, hd]
    rfl
  · rw [getUserDataSize_of_lt sampleConsts _ (by decide) (by rw [hd]; decide), hd]
    rfl

/-- C25 (amended). In a state whose final buffer holds at least the header, which is
every state that `encode()` leaves, `getUserDataSize()` is `getDataSize()` minus the
size of the header and so at most `getDataSize()`; in a state whose final buffer is
shorter than the header the subtraction wraps around and `getUserDataSize()` is 2^64
minus the missing bytes, more than `getDataSize()`. After `decode()` the final buffer
holds the received bytes, so `getDataSize()` is the received length. -/
theorem c25_user_data_size {U : Type} (c : NetworkConsts) (s : SharedData)
    (hc : c.HeaderSize < 2 ^ 64) (hs : s._dataBlock.length < 2 ^ 64) :
    (c.HeaderSize ≤ s.getDataSize →
      s.getUserDataSize c = s.getDataSize - c.HeaderSize ∧
      s.getUserDataSize c ≤ s.getDataSize) ∧
    (s.getDataSize < c.HeaderSize →
      s.getUserDataSize c = 2 ^ 64 - (c.HeaderSize - s.getDataSize) ∧
      s.getDataSize < s.getUserDataSize c) ∧
    (∀ (z : Zlib) (wcharSize : Nat) (vals : List Val) (w : World U),
      w.shared._headerSpace.length = c.HeaderSize →
      (w.shared._currentStorage =
        if w.shared._useCompression then .dataBlockToCompress else .dataBlock) →
      c.HeaderSize ≤
        (encode c z (some (encodeFun wcharSize vals)) w).shared.getDataSize) ∧
    (∀ (receivedData : List Nat) (w : World U),
      (decode none receivedData receivedData.length w).shared.getDataSize =
        receivedData.length) := by
  refine ⟨?_, ?_, ?_, ?_⟩
  · intro h
    have e := getUserDataSize_of_le c s hs h
    refine ⟨e, ?_⟩
    rw [e]
    exact Nat.sub_le _ _
  · intro h
    have e := getUserDataSize_of_lt c s (le_of_lt hc) h
    refine ⟨e, ?_⟩
    rw [e]
    unfold SharedData.getDataSize at h ⊢
    omega
  · intro z wcharSize vals w hhdr hcur
    exact encode_dataSize_ge c z wcharSize vals w hhdr hcur
  · intro receivedData w
    rw [decode_none]
    rfl

/-- C25 (amended), for the sample state after `encode()` of the sample values. -/
theorem c25_user_data_size_witness :
    sampleConsts.HeaderSize < 2 ^ 64 ∧
    (encode sampleConsts sampleZlib (some (encodeFun 4 [Val.int32 42, Val.bool true]))
      sampleWorld).shared._dataBlock.length < 2 ^ 64 ∧
    sampleConsts.HeaderSize ≤
      (encode sampleConsts sampleZlib (some (encodeFun 4 [Val.int32 42, Val.bool true]))
        sampleWorld).shared.getDataSize ∧
    (encode sampleConsts sampleZlib (some (encodeFun 4 [Val.int32 42, Val.bool true]))
      sampleWorld).shared.getUserDataSize sampleConsts = 5 := by
  have hd : (encode sampleConsts sampleZlib
      (some (encodeFun 4 [Val.int32 42, Val.bool true])) sampleWorld).shared._dataBlock =
      [17, 0, 0, 0, 0, 0, 0, 0, 0, 0, 0, 0, 0, 42, 0, 0, 0, 1] := by
    rw [encode_plain_eq sampleConsts sampleZlib 4 _ sampleWorld rfl rfl]
    decide
  have hlen : (encode sampleConsts sampleZlib
      (some (encodeFun 4 [Val.int32 42, Val.bool true]))
      sampleWorld).shared._dataBlock.length < 2 ^ 64 := by rw [hd]; decide
  have hge : sampleConsts.HeaderSize ≤ (encode sampleConsts sampleZlib
      (some (encodeFun 4 [Val.int32 42, Val.bool true]))
      sampleWorld).shared.getDataSize := by
    rw [SharedData.getDataSize, hd]; decide
  exact ⟨by decide, hlen, hge,
    ((c25_user_data_size (U := Unit) sampleConsts _ (by decide) hlen).1 hge).1.trans
      (by rw [SharedData.getDataSize, hd]; rfl)⟩

/-! ## The node check of both engines, the frame-time statistics -/

theorem initNetwork_rejects_iff (remote : Bool)
    (retrieveNodeId : ClusterManager → ClusterManager) (networkInitSuccess : Bool)
    (cm : ClusterManager) :
    (Engine.initNetwork remote retrieveNodeId networkInitSuccess cm).outcome =
        .thrown 3001 "Computer is not a part of the cluster configuration" ↔
      Engine.rejectsNodeId
        (if remote then retrieveNodeId cm else cm).getThisNodeId
        (if remote then retrieveNodeId cm else cm).getNumberOfNodes = true := by
  cases remote <;> cases networkInitSuccess <;>
    unfold Engine.initNetwork Engine.rejectsNodeId <;>
    simp only [Bool.false_eq_true, if_false, if_true, Bool.not_true, Bool.not_false,
      decide_eq_true_eq] <;>
    split_ifs with h <;> simp [h]

theorem legacy_initNetwork_local (constructed : Bool) (matchAddress : String → Bool)
    (nodeIps : List String) (thisNodeId : Int) (initResult : Bool)
    (mode : LocalRunningMode) (hmode : mode ≠ .NotLocal) (hc : constructed = true) :
    LegacyEngine.initNetwork constructed mode matchAddress nodeIps thisNodeId initResult =
      if LegacyEngine.rejectsNodeId thisNodeId nodeIps.length then
        { thisNodeId := thisNodeId, calls := [.create, .close], result := false }
      else
        { thisNodeId := thisNodeId
          calls := [.create, .printNodeInfo (ofSigned 4 thisNodeId), .init]
          result := initResult } := by
  subst hc
  unfold LegacyEngine.initNetwork
  simp only [Bool.not_true, Bool.false_eq_true, if_false, if_neg hmode]
  cases initResult <;> split_ifs <;> simp_all

/-- The two node checks agree on the id -1 and on every id from 0 on. -/
theorem node_checks_agree_from_minus_one (thisNodeId : Int) (numberOfNodes : Nat)
    (hn : numberOfNodes < 2 ^ 31) (h : thisNodeId = -1 ∨ 0 ≤ thisNodeId) :
    LegacyEngine.rejectsNodeId thisNodeId numberOfNodes =
      Engine.rejectsNodeId thisNodeId (toSigned 4 (numberOfNodes % 2 ^ 32)) := by
  have hs : toSigned 4 (numberOfNodes % 2 ^ 32) = (numberOfNodes : Int) := by
    unfold toSigned
    have h1 : numberOfNodes % 2 ^ 32 = numberOfNodes := Nat.mod_eq_of_lt (by omega)
    rw [h1]
    norm_num
    omega
  unfold LegacyEngine.rejectsNodeId Engine.rejectsNodeId
  rw [hs]
  rcases h with h | h
  · subst h
    simp
  · have h1 : ¬ thisNodeId = -1 := by omega
    have h2 : ¬ thisNodeId < 0 := by omega
    simp [h1, h2]

theorem parseArguments_local_node (readInt : String → Int) (value : String) :
    (LegacyEngine.parseArguments readInt ["prog", "-local", value]
        sampleSettings).settings.thisNodeId = readInt value ∧
    (LegacyEngine.parseArguments readInt ["prog", "-local", value]
        sampleSettings).settings.localRunningMode = .LocalServer := by
  unfold LegacyEngine.parseArguments
  rw [LegacyEngine.parseLoop_other readInt _ 0 _ _ (by simp)
    (by simp [LegacyEngine.valueFlags]) (by simp [LegacyEngine.plainFlags])]
  rw [LegacyEngine.parseLoop]
  simp
  rw [LegacyEngine.parseLoop_end _ _ _ _ _ (by simp)]
  simp

/-- C26. For the node id -2, which the legacy `parseArguments` stores for the arguments
`-local -2`, and two configured nodes, the check of the legacy `initNetwork` does not reject the id: the function goes on to
`printNodeInfo` with the index 4294967294 and to `NetworkManager::init`, and returns
true; the check of `initNetwork` of engine.cpp rejects it, closes the network manager
and throws. -/
theorem c26_legacy_check_accepts_minus_two :
    (LegacyEngine.parseArguments (fun _ => -2) ["prog", "-local", "-2"]
        sampleSettings).settings.thisNodeId = -2 ∧
    LegacyEngine.rejectsNodeId (-2) 2 = false ∧
    Engine.rejectsNodeId (-2) 2 = true ∧
    LegacyEngine.initNetwork true .LocalServer (fun _ => false) ["10.0.0.1", "10.0.0.2"]
        (-2) true =
      { thisNodeId := -2, calls := [.create, .printNodeInfo 4294967294, .init]
        result := true } ∧
    (Engine.initNetwork false id true (sampleCluster.setThisNodeId (-2))).outcome =
      .thrown 3001 "Computer is not a part of the cluster configuration" ∧
    (Engine.initNetwork false id true (sampleCluster.setThisNodeId (-2))).calls =
      [.create, .close] := by
  refine ⟨(parseArguments_local_node (fun _ => -2) "-2").1, by decide, by decide,
    ?_, ?_, ?_⟩
  · rw [legacy_initNetwork_local true _ _ _ _ .LocalServer (by decide) rfl]
    decide
  · exact (initNetwork_rejects_iff false id true _).mpr (by decide)
  · decide

theorem foldl_add_eq_sum (l : List Rat) (a : Rat) :
    l.foldl (fun acc x => acc + x) a = a + l.sum := by
  induction l generalizing a with
  | nil => simp
  | cons x xs ih => rw [List.foldl_cons, ih, List.sum_cons]; ring

theorem foldl_sq_eq_sum (l : List Rat) (avg a : Rat) :
    l.foldl (fun cur rhs => cur + (rhs - avg) ^ 2) a =
      a + (l.map (fun x => (x - avg) ^ 2)).sum := by
  induction l generalizing a with
  | nil => simp
  | cons x xs ih => rw [List.foldl_cons, ih, List.map_cons, List.sum_cons]; ring

theorem getDtStandardDeviation_eq (frametimes : List Rat) :
    Engine.getDtStandardDeviation frametimes.length frametimes =
      meanSquaredDeviation frametimes := by
  unfold Engine.getDtStandardDeviation Engine.getAvgDt meanSquaredDeviation
  simp only [foldl_add_eq_sum, foldl_sq_eq_sum, zero_add]

/-- C29. The function `getDtStandardDeviation` returns the mean of the squared
deviations itself, with no square root: for the history 0, 4 (mean 2) it returns 4,
whose square 16 is not the mean squared deviation 4. -/
theorem c29_standard_deviation_is_variance :
    Engine.getAvgDt 2 [0, 4] = 2 ∧
    meanSquaredDeviation [0, 4] = 4 ∧
    Engine.getDtStandardDeviation 2 [0, 4] = 4 ∧
    (Engine.getDtStandardDeviation 2 [0, 4]) ^ 2 ≠ meanSquaredDeviation [0, 4] ∧
    (∀ frametimes : List Rat,
      Engine.getDtStandardDeviation frametimes.length frametimes =
        meanSquaredDeviation frametimes) := by
  have h1 : Engine.getAvgDt 2 [0, 4] = 2 := by
    norm_num [Engine.getAvgDt, List.foldl]
  have h2 : meanSquaredDeviation [0, 4] = 4 := by
    norm_num [meanSquaredDeviation]
  have h3 : Engine.getDtStandardDeviation 2 [0, 4] = 4 := by
    rw [show (2 : Nat) = ([0, 4] : List Rat).length from rfl, getDtStandardDeviation_eq,
      h2]
  refine ⟨h1, h2, h3, ?_, getDtStandardDeviation_eq⟩
  rw [h3, h2]
  norm_num

/-! ## Run-length coded TGA data -/

theorem copyFromInput_reads (nChannels len : Nat) (st : TgaDecode)
    (h : ∀ i ∈ st.reads, i < len) (hg : len ≥ st.index + nChannels) :
    ∀ i ∈ (st.copyFromInput nChannels).reads, i < len := by
  intro i hi
  simp only [TgaDecode.copyFromInput, List.mem_append, List.mem_map, List.mem_range] at hi
  rcases hi with hi | ⟨k, hk, rfl⟩
  · exact h i hi
  · omega

theorem rawPacketLoop_reads (len nChannels pixelcount : Nat) (n : Nat) (st : TgaDecode)
    (h : ∀ i ∈ st.reads, i < len) :
    ∀ i ∈ (Image.rawPacketLoop len nChannels pixelcount n st).1.reads, i < len := by
  induction n generalizing st with
  | zero => exact h
  | succ n ih =>
    rw [Image.rawPacketLoop]
    try dsimp only
    split_ifs with hg hp
    · exact copyFromInput_reads nChannels len st h hg
    · exact ih _ (copyFromInput_reads nChannels len st h hg)
    · exact h

theorem rlePacketLoop_reads (nChannels pixelcount : Nat) (n : Nat) (st : TgaDecode) :
    (Image.rlePacketLoop nChannels pixelcount n st).1.reads = st.reads := by
  induction n generalizing st with
  | zero => rfl
  | succ n ih =>
    rw [Image.rlePacketLoop]
    try dsimp only
    split_ifs
    · rfl
    · rw [ih]; rfl

theorem decodePacket_reads (data : List Nat) (len nChannels pixelcount : Nat)
    (st : TgaDecode) (h : ∀ i ∈ st.reads, i < len) :
    ∀ i ∈ (Image.decodePacket data len nChannels pixelcount st).1.reads, i < len := by
  have hr : ∀ i ∈ st.reads ++ [st.index], len > st.index → i < len := by
    intro i hi h1
    simp only [List.mem_append, List.mem_singleton] at hi
    rcases hi with hi | rfl
    · exact h i hi
    · exact h1
  unfold Image.decodePacket
  try dsimp only
  split_ifs with h1 h2 h3
  · apply rawPacketLoop_reads
    intro i hi
    simp only [List.mem_append, List.mem_singleton] at hi
    rcases hi with hi | rfl
    · exact h i hi
    · exact h1
  · rw [rlePacketLoop_reads]
    apply copyFromInput_reads
    · intro i hi
      simp only [List.mem_append, List.mem_singleton] at hi
      rcases hi with hi | rfl
      · exact h i hi
      · exact h1
    · exact h3
  · intro i hi
    simp only [List.mem_append, List.mem_singleton] at hi
    rcases hi with hi | rfl
    · exact h i hi
    · exact h1
  · exact h

theorem decodeLoop_reads (data : List Nat) (len nChannels pixelcount : Nat) (fuel : Nat)
    (st : TgaDecode) (h : ∀ i ∈ st.reads, i < len) :
    ((Image.decodeLoop data len nChannels pixelcount fuel st).all
      fun r => r.1.reads.all fun i => decide (i < len)) = true := by
  induction fuel generalizing st with
  | zero => rfl
  | succ n ih =>
    have hp := decodePacket_reads data len nChannels pixelcount st h
    rw [Image.decodeLoop]
    try dsimp only
    split_ifs
    · simpa using hp
    · exact ih _ hp
    · simpa using hp

theorem rawPacketLoop_progress (len nChannels pixelcount : Nat) (n : Nat) (st : TgaDecode)
    (h : (Image.rawPacketLoop len nChannels pixelcount n st).2 = true) :
    (Image.rawPacketLoop len nChannels pixelcount n st).1.currentpixel =
      st.currentpixel + n := by
  induction n generalizing st with
  | zero => rfl
  | succ n ih =>
    rw [Image.rawPacketLoop] at h ⊢
    try dsimp only at h ⊢
    split_ifs at h ⊢ with hg hp
    rw [ih _ h]
    simp only [TgaDecode.copyFromInput]
    omega

theorem rlePacketLoop_progress (nChannels pixelcount : Nat) (n : Nat) (st : TgaDecode)
    (h : (Image.rlePacketLoop nChannels pixelcount n st).2 = true) :
    (Image.rlePacketLoop nChannels pixelcount n st).1.currentpixel =
      st.currentpixel + n := by
  induction n generalizing st with
  | zero => rfl
  | succ n ih =>
    rw [Image.rlePacketLoop] at h ⊢
    try dsimp only at h ⊢
    split_ifs at h ⊢ with hp
    rw [ih _ h]
    simp only [TgaDecode.copyFromChunk]
    omega

theorem decodePacket_progress (data : List Nat) (len nChannels pixelcount : Nat)
    (st : TgaDecode)
    (h : (Image.decodePacket data len nChannels pixelcount st).2 = true) :
    st.currentpixel + 1 ≤
      (Image.decodePacket data len nChannels pixelcount st).1.currentpixel := by
  unfold Image.decodePacket at h ⊢
  try dsimp only at h ⊢
  split_ifs at h ⊢ with h1 h2 h3
  · rw [rawPacketLoop_progress _ _ _ _ _ h]
    dsimp only
    omega
  · rw [rlePacketLoop_progress _ _ _ _ h]
    simp only [TgaDecode.copyFromInput]
    omega

theorem decodeLoop_isSome (data : List Nat) (len nChannels pixelcount : Nat) (fuel : Nat)
    (st : TgaDecode) (h : pixelcount ≤ st.currentpixel + fuel) :
    (Image.decodeLoop data len nChannels pixelcount (fuel + 1) st).isSome = true := by
  induction fuel generalizing st with
  | zero =>
    rw [Image.decodeLoop]
    try dsimp only
    split_ifs with h1 h2
    · rfl
    · have hp := decodePacket_progress data len nChannels pixelcount st (by simpa using h1)
      omega
    · rfl
  | succ n ih =>
    rw [Image.decodeLoop]
    try dsimp only
    split_ifs with h1 h2
    · rfl
    · apply ih
      have hp := decodePacket_progress data len nChannels pixelcount st (by simpa using h1)
      omega
    · rfl

theorem decodeTGARLE_total (img : ImageSize) (data : List Nat) (len : Nat) :
    (Image.decodeTGARLE img data len).isSome = true := by
  unfold Image.decodeTGARLE
  exact decodeLoop_isSome _ _ _ _ _ _ (by simp)

theorem decodeTGARLE_reads (img : ImageSize) (data : List Nat) (len : Nat) :
    ((Image.decodeTGARLE img data len).all
      fun r => r.1.reads.all fun i => decide (i < len)) = true := by
  unfold Image.decodeTGARLE
  exact decodeLoop_reads _ _ _ _ _ _ (by simp)

/-- C27. For an image of one pixel with three channels (a pixel buffer of 3 bytes) and
the 7 input bytes of a raw packet of two pixels, `decodeTGARLE(data, 7)` returns false
only after it has copied the second pixel to the offsets 3, 4, 5 of the pixel buffer,
past its end; a run-length packet of two pixels does the same. For every image and
every input the function returns, and all bytes it reads are inside the input. -/
theorem c27_packet_past_last_pixel_writes_outside :
    ({ _sizeX := 1, _sizeY := 1, _nChannels := 3 } : ImageSize).dataSize = 3 ∧
    Image.decodeTGARLE { _sizeX := 1, _sizeY := 1, _nChannels := 3 }
        [1, 10, 20, 30, 40, 50, 60] 7 =
      some ({ index := 7, currentbyte := 6, currentpixel := 2
              reads := [0, 1, 2, 3, 4, 5, 6], writes := [0, 1, 2, 3, 4, 5] }, false) ∧
    Image.decodeTGARLE { _sizeX := 1, _sizeY := 1, _nChannels := 3 }
        [129, 10, 20, 30] 4 =
      some ({ index := 4, currentbyte := 6, currentpixel := 2
              reads := [0, 1, 2, 3], writes := [0, 1, 2, 3, 4, 5] }, false) ∧
    (∀ (img : ImageSize) (data : List Nat) (len : Nat),
      (Image.decodeTGARLE img data len).isSome = true) ∧
    (∀ (img : ImageSize) (data : List Nat) (len : Nat),
      ((Image.decodeTGARLE img data len).all
        fun r => r.1.reads.all fun i => decide (i < len)) = true) :=
  ⟨by decide, by decide, by decide, decodeTGARLE_total, decodeTGARLE_reads⟩

theorem getTGAPackageLength_at_width (img : TgaImage) (row : Nat) (rle : Bool) :
    Image.getTGAPackageLength img row img._sizeX rle = 0 := by
  have h : subSize img._sizeX img._sizeX = 0 := by
    unfold subSize
    simp
  unfold Image.getTGAPackageLength
  rw [h]
  rfl

theorem saveRowLoop_stuck (img : TgaImage) (y : Nat) (hx : img._sizeX < 2 ^ 64)
    (hxy : img._sizeX < img._sizeY) (fuel : Nat) (out : List TgaPacket) :
    Image.saveRowLoop img y fuel img._sizeX out = none := by
  induction fuel generalizing out with
  | zero => rfl
  | succ n ih =>
    rw [Image.saveRowLoop, if_pos hxy]
    simp only [getTGAPackageLength_at_width img _ _, Nat.add_zero,
      Nat.mod_eq_of_lt hx]
    exact ih _

theorem saveRowLoop_width_one (img : TgaImage) (y : Nat) (hx : img._sizeX = 1)
    (hy : 1 < img._sizeY) (fuel : Nat) :
    Image.saveRowLoop img y fuel 0 [] = none := by
  cases fuel with
  | zero => rfl
  | succ n =>
    have hlen : ∀ rle, Image.getTGAPackageLength img (y * img._sizeX * img._nChannels) 0
        rle = 1 := by
      intro rle
      unfold Image.getTGAPackageLength
      rw [hx]
      rfl
    rw [Image.saveRowLoop, if_pos (by omega)]
    simp only [hlen, Nat.zero_add]
    have h1 : (1 : Nat) % 2 ^ 64 = img._sizeX := by rw [hx]; rfl
    rw [h1]
    exact saveRowLoop_stuck img y (by rw [hx]; decide) (by rw [hx]; exact hy) n _

theorem saveRows_width_one (img : TgaImage) (hx : img._sizeX = 1) (hy : 1 < img._sizeY)
    (fuel : Nat) : Image.saveRows img fuel (List.range img._sizeY) = none := by
  obtain ⟨k, hk⟩ : ∃ k, img._sizeY = k + 1 := ⟨img._sizeY - 1, by omega⟩
  rw [hk, List.range_succ_eq_map, Image.saveRows, saveRowLoop_width_one img 0 hx hy fuel]

theorem saveTGA_width_one (img : TgaImage) (preferBGRForExport : Bool)
    (hc : img._nChannels = 3) (hx : img._sizeX = 1) (hy : 1 < img._sizeY) (fuel : Nat) :
    Image.saveTGA img preferBGRForExport true fuel = none := by
  unfold Image.saveTGA
  rw [if_neg (by rw [hc]; decide)]
  have hd : Image.dataType img._nChannels true = 10 := by rw [hc]; rfl
  simp only [hd, ne_eq, not_true_eq_false, if_false]
  split_ifs
  · rw [saveRows_width_one (Image.toBGR img) hx hy fuel]
    rfl
  · rw [saveRows_width_one img hx hy fuel]
    rfl

/-- C28. With run-length coding enabled, for the image of width 5 and height 1 with
three channels and the pixels (1,1,1), (2,2,2), (3,3,3), (3,3,3), (3,3,3), the packet
loop of `saveTGA`, whose test is `pos < _sizeY`, ends after one packet of 2 pixels: the
three equal pixels are in no packet. For the image of width 1 and height 2 with three
channels the loop never ends: after the packet of 1 pixel every further packet has
length 0, whatever the number of passes allowed. For the same five pixels in the first
row of an image of height 5, the other rows black, the packets of the first row have 2
and 3 pixels. An image with one channel is written without packets (data type 3). -/
theorem c28_packet_loop_runs_to_height :
    Image.saveTGA (sampleImage 5 1 3 [1, 1, 1, 2, 2, 2, 3, 3, 3, 3, 3, 3, 3, 3, 3])
        false true 10 =
      some (.runLength [[{ packetHeader := 1, pos := 0, len := 2, rle := false }]]) ∧
    (∀ fuel : Nat,
      Image.saveTGA (sampleImage 1 2 3 [1, 1, 1, 2, 2, 2]) false true fuel = none) ∧
    Image.saveTGA (sampleImage 5 5 3 [1, 1, 1, 2, 2, 2, 3, 3, 3, 3, 3, 3, 3, 3, 3])
        false true 10 =
      some (.runLength
        [[{ packetHeader := 1, pos := 0, len := 2, rle := false },
          { packetHeader := 130, pos := 2, len := 3, rle := true }],
         [{ packetHeader := 132, pos := 0, len := 5, rle := true }],
         [{ packetHeader := 132, pos := 0, len := 5, rle := true }],
         [{ packetHeader := 132, pos := 0, len := 5, rle := true }],
         [{ packetHeader := 132, pos := 0, len := 5, rle := true }]]) ∧
    Image.saveTGA (sampleImage 5 1 1 [1, 2, 3, 3, 3]) false true 10 =
      some (.uncompressed 3) := by
  refine ⟨by decide, ?_, by decide, by decide⟩
  intro fuel
  exact saveTGA_width_one _ false rfl rfl (by decide) fuel

/-! ## The arrays of the sphere stay in bounds -/

theorem sphere_products (V H : Nat) (hV2 : 2 ≤ V) (hV : V ≤ 10000) (hH : H = V * 2) :
    (V - 1) * (H + 1) ≤ 199989999 ∧ (V - 2) * H ≤ 199960000 ∧
    (V - 1) * (H + 1) = (V - 2) * H + (V - 2) + (H + 1) ∧
    2 * (V - 2) * H = 2 * ((V - 2) * H) := by
  obtain ⟨k, rfl⟩ : ∃ k, V = k + 2 := ⟨V - 2, by omega⟩
  subst hH
  have e1 : k + 2 - 1 = k + 1 := by omega
  have e2 : k + 2 - 2 = k := by omega
  rw [e1, e2]
  have hk : k ≤ 9998 := by omega
  have hkk : k * k ≤ 9998 * 9998 := Nat.mul_le_mul hk hk
  refine ⟨?_, ?_, ?_, ?_⟩
  · nlinarith
  · nlinarith
  · ring
  · ring

theorem sphere_row (V W j : Nat) (hj : j + 1 ≤ V) : j * W + W ≤ V * W := by
  have h := Nat.mul_le_mul_right W hj
  rw [Nat.succ_mul] at h
  exact h

theorem sphere_vertexWrites (segments : Nat) (h : max segments 2 ≤ 10000) :
    ∀ p ∈ (Sphere.createVBO segments).vertexWrites,
      p < (Sphere.createVBO segments).nVertices := by
  have hV2 : 2 ≤ max segments 2 := le_max_right _ _
  unfold Sphere.createVBO
  simp only
  generalize max segments 2 = V at h hV2 ⊢
  have hH : V * 2 % 2 ^ 32 = V * 2 := Nat.mod_eq_of_lt (by omega)
  rw [hH]
  obtain ⟨f1, -, -, -⟩ := sphere_products V (V * 2) hV2 h rfl
  intro p hp
  simp only [List.mem_append, List.mem_cons, List.mem_singleton, List.not_mem_nil,
    or_false, List.mem_flatMap, List.mem_map, List.mem_range] at hp
  rcases hp with (hp | hp) | ⟨j, hj, i, hi, hp⟩
  · omega
  · unfold subU32 at hp
    omega
  · have f4 := sphere_row (V - 1) (V * 2 + 1) j (by omega)
    omega

theorem sphere_counts (segments : Nat) (h : max segments 2 ≤ 10000) :
    (Sphere.createVBO segments).nVertices =
      2 + (max segments 2 - 1) * (max segments 2 * 2 + 1) ∧
    (Sphere.createVBO segments).nFaces =
      2 * (max segments 2 * 2) * (max segments 2 - 1) := by
  have hV2 : 2 ≤ max segments 2 := le_max_right _ _
  unfold Sphere.createVBO
  simp only
  generalize max segments 2 = V at h hV2 ⊢
  have hH : V * 2 % 2 ^ 32 = V * 2 := Nat.mod_eq_of_lt (by omega)
  rw [hH]
  obtain ⟨f1, f2, f3, -⟩ := sphere_products V (V * 2) hV2 h rfl
  constructor
  · rw [Nat.mod_eq_of_lt (by omega)]
    omega
  · rw [Nat.mod_eq_of_lt (by omega)]
    obtain ⟨k, rfl⟩ : ∃ k, V = k + 2 := ⟨V - 2, by omega⟩
    have e1 : k + 2 - 1 = k + 1 := by omega
    have e2 : k + 2 - 2 = k := by omega
    rw [e1, e2]
    ring

theorem sphere_indexWrites (segments : Nat) (h : max segments 2 ≤ 10000) :
    ∀ w ∈ (Sphere.createVBO segments).indexWrites,
      w.1 < 3 * (Sphere.createVBO segments).nFaces ∧
      w.2 < (Sphere.createVBO segments).nVertices := by
  have hV2 : 2 ≤ max segments 2 := le_max_right _ _
  unfold Sphere.createVBO
  simp only
  generalize max segments 2 = V at h hV2 ⊢
  have hH : V * 2 % 2 ^ 32 = V * 2 := Nat.mod_eq_of_lt (by omega)
  rw [hH]
  obtain ⟨f1, f2, f3, f7⟩ := sphere_products V (V * 2) hV2 h rfl
  have hnV : (1 + (V - 1) * (V * 2 + 1) + 1) % 2 ^ 32 = 1 + (V - 1) * (V * 2 + 1) + 1 :=
    Nat.mod_eq_of_lt (by omega)
  have hnF : (V * 2 + (V - 2) * (V * 2) * 2 + V * 2) % 2 ^ 32 =
      V * 2 + (V - 2) * (V * 2) * 2 + V * 2 := Nat.mod_eq_of_lt (by omega)
  rw [hnV, hnF]
  intro w hw
  simp only [List.mem_append, List.mem_flatMap, List.mem_range, List.mem_cons,
    List.not_mem_nil, or_false, Sphere.middleCell, Sphere.bottomCell] at hw
  rcases hw with (⟨i, hi, hw⟩ | ⟨j, hj, i, hi, hw⟩) | ⟨i, hi, hw⟩
  · have e0 : 3 * i % 2 ^ 32 = 3 * i := Nat.mod_eq_of_lt (by omega)
    have e1 : (3 * i + 1) % 2 ^ 32 = 3 * i + 1 := Nat.mod_eq_of_lt (by omega)
    have e2 : (3 * i + 2) % 2 ^ 32 = 3 * i + 2 := Nat.mod_eq_of_lt (by omega)
    rw [e0, e1, e2] at hw
    rcases hw with rfl | rfl | rfl <;> simp only <;> omega
  · have f5 := sphere_row (V - 2) (V * 2) j (by omega)
    have f6 : j * (V * 2 + 1) = j * (V * 2) + j := Nat.mul_succ _ _
    have b0 : 3 * (V * 2 + 2 * (j * (V * 2) + i)) % 2 ^ 32 =
        3 * (V * 2 + 2 * (j * (V * 2) + i)) := Nat.mod_eq_of_lt (by omega)
    have b1 : (3 * (V * 2 + 2 * (j * (V * 2) + i)) + 1) % 2 ^ 32 =
        3 * (V * 2 + 2 * (j * (V * 2) + i)) + 1 := Nat.mod_eq_of_lt (by omega)
    have b2 : (3 * (V * 2 + 2 * (j * (V * 2) + i)) + 2) % 2 ^ 32 =
        3 * (V * 2 + 2 * (j * (V * 2) + i)) + 2 := Nat.mod_eq_of_lt (by omega)
    have b3 : (3 * (V * 2 + 2 * (j * (V * 2) + i)) + 3) % 2 ^ 32 =
        3 * (V * 2 + 2 * (j * (V * 2) + i)) + 3 := Nat.mod_eq_of_lt (by omega)
    have b4 : (3 * (V * 2 + 2 * (j * (V * 2) + i)) + 4) % 2 ^ 32 =
        3 * (V * 2 + 2 * (j * (V * 2) + i)) + 4 := Nat.mod_eq_of_lt (by omega)
    have b5 : (3 * (V * 2 + 2 * (j * (V * 2) + i)) + 5) % 2 ^ 32 =
        3 * (V * 2 + 2 * (j * (V * 2) + i)) + 5 := Nat.mod_eq_of_lt (by omega)
    have i0 : (1 + j * (V * 2 + 1) + i) % 2 ^ 32 = 1 + j * (V * 2 + 1) + i :=
      Nat.mod_eq_of_lt (by omega)
    have i1 : (1 + j * (V * 2 + 1) + i + 1) % 2 ^ 32 = 1 + j * (V * 2 + 1) + i + 1 :=
      Nat.mod_eq_of_lt (by omega)
    have i2 : (1 + j * (V * 2 + 1) + i + V * 2 + 1) % 2 ^ 32 =
        1 + j * (V * 2 + 1) + i + V * 2 + 1 := Nat.mod_eq_of_lt (by omega)
    have i3 : (1 + j * (V * 2 + 1) + i + V * 2 + 2) % 2 ^ 32 =
        1 + j * (V * 2 + 1) + i + V * 2 + 2 := Nat.mod_eq_of_lt (by omega)
    simp only [b0, b1, b2, b3, b4, b5, i0, i1, i2, i3] at hw
    rcases hw with rfl | rfl | rfl | rfl | rfl | rfl <;> simp only <;> omega
  · have c0 : 3 * (V * 2 + 2 * (V - 2) * (V * 2)) % 2 ^ 32 =
        3 * (V * 2 + 2 * (V - 2) * (V * 2)) := Nat.mod_eq_of_lt (by omega)
    have c1 : (3 * (V * 2 + 2 * (V - 2) * (V * 2)) + 3 * i) % 2 ^ 32 =
        3 * (V * 2 + 2 * (V - 2) * (V * 2)) + 3 * i := Nat.mod_eq_of_lt (by omega)
    have c2 : (3 * (V * 2 + 2 * (V - 2) * (V * 2)) + 3 * i + 1) % 2 ^ 32 =
        3 * (V * 2 + 2 * (V - 2) * (V * 2)) + 3 * i + 1 := Nat.mod_eq_of_lt (by omega)
    have c3 : (3 * (V * 2 + 2 * (V - 2) * (V * 2)) + 3 * i + 2) % 2 ^ 32 =
        3 * (V * 2 + 2 * (V - 2) * (V * 2)) + 3 * i + 2 := Nat.mod_eq_of_lt (by omega)
    have s1 : subU32 (1 + (V - 1) * (V * 2 + 1) + 1) 1 = (V - 1) * (V * 2 + 1) + 1 := by
      unfold subU32
      rw [Nat.mod_eq_of_lt (show 1 + (V - 1) * (V * 2 + 1) + 1 < 2 ^ 32 by omega),
        Nat.mod_eq_of_lt (show 1 < 2 ^ 32 by omega)]
      have e : 1 + (V - 1) * (V * 2 + 1) + 1 + 2 ^ 32 - 1 =
          (V - 1) * (V * 2 + 1) + 1 + 2 ^ 32 := by omega
      rw [e, Nat.add_mod_right, Nat.mod_eq_of_lt (by omega)]
    have s2 : subU32 (subU32 (1 + (V - 1) * (V * 2 + 1) + 1) 2) i =
        (V - 1) * (V * 2 + 1) - i := by
      have s2a : subU32 (1 + (V - 1) * (V * 2 + 1) + 1) 2 = (V - 1) * (V * 2 + 1) := by
        unfold subU32
        rw [Nat.mod_eq_of_lt (show 1 + (V - 1) * (V * 2 + 1) + 1 < 2 ^ 32 by omega),
          Nat.mod_eq_of_lt (show 2 < 2 ^ 32 by omega)]
        have e : 1 + (V - 1) * (V * 2 + 1) + 1 + 2 ^ 32 - 2 =
            (V - 1) * (V * 2 + 1) + 2 ^ 32 := by omega
        rw [e, Nat.add_mod_right, Nat.mod_eq_of_lt (by omega)]
      rw [s2a]
      unfold subU32
      rw [Nat.mod_eq_of_lt (show (V - 1) * (V * 2 + 1) < 2 ^ 32 by omega),
        Nat.mod_eq_of_lt (show i < 2 ^ 32 by omega)]
      have e : (V - 1) * (V * 2 + 1) + 2 ^ 32 - i =
          (V - 1) * (V * 2 + 1) - i + 2 ^ 32 := by omega
      rw [e, Nat.add_mod_right, Nat.mod_eq_of_lt (by omega)]
    have s3 : subU32 (subU32 (1 + (V - 1) * (V * 2 + 1) + 1) 3) i =
        (V - 1) * (V * 2 + 1) - 1 - i := by
      have s3a : subU32 (1 + (V - 1) * (V * 2 + 1) + 1) 3 =
          (V - 1) * (V * 2 + 1) - 1 := by
        unfold subU32
        rw [Nat.mod_eq_of_lt (show 1 + (V - 1) * (V * 2 + 1) + 1 < 2 ^ 32 by omega),
          Nat.mod_eq_of_lt (show 3 < 2 ^ 32 by omega)]
        have e : 1 + (V - 1) * (V * 2 + 1) + 1 + 2 ^ 32 - 3 =
            (V - 1) * (V * 2 + 1) - 1 + 2 ^ 32 := by omega
        rw [e, Nat.add_mod_right, Nat.mod_eq_of_lt (by omega)]
      rw [s3a]
      unfold subU32
      rw [Nat.mod_eq_of_lt (show (V - 1) * (V * 2 + 1) - 1 < 2 ^ 32 by omega),
        Nat.mod_eq_of_lt (show i < 2 ^ 32 by omega)]
      have e : (V - 1) * (V * 2 + 1) - 1 + 2 ^ 32 - i =
          (V - 1) * (V * 2 + 1) - 1 - i + 2 ^ 32 := by omega
      rw [e, Nat.add_mod_right, Nat.mod_eq_of_lt (by omega)]
    simp only [c0, c1, c2, c3, s1, s2, s3] at hw
    rcases hw with rfl | rfl | rfl <;> simp only <;> omega

theorem sphere_indexSlots (segments : Nat) (h : max segments 2 ≤ 10000) :
    ∀ p, p < 3 * (Sphere.createVBO segments).nFaces →
      ∃ v, (p, v) ∈ (Sphere.createVBO segments).indexWrites := by
  have hV2 : 2 ≤ max segments 2 := le_max_right _ _
  unfold Sphere.createVBO
  simp only
  generalize max segments 2 = V at h hV2 ⊢
  have hH : V * 2 % 2 ^ 32 = V * 2 := Nat.mod_eq_of_lt (by omega)
  rw [hH]
  obtain ⟨f1, f2, f3, f7⟩ := sphere_products V (V * 2) hV2 h rfl
  have hnV : (1 + (V - 1) * (V * 2 + 1) + 1) % 2 ^ 32 = 1 + (V - 1) * (V * 2 + 1) + 1 :=
    Nat.mod_eq_of_lt (by omega)
  have hnF : (V * 2 + (V - 2) * (V * 2) * 2 + V * 2) % 2 ^ 32 =
      V * 2 + (V - 2) * (V * 2) * 2 + V * 2 := Nat.mod_eq_of_lt (by omega)
  rw [hnV, hnF]
  intro p hp
  simp only [List.mem_append, List.mem_flatMap, List.mem_range, List.mem_cons,
    List.not_mem_nil, or_false, Sphere.middleCell, Sphere.bottomCell, Prod.mk.injEq]
  by_cases h1 : p < 3 * (V * 2)
  · have hi : p / 3 < V * 2 := by omega
    have e0 : 3 * (p / 3) % 2 ^ 32 = 3 * (p / 3) := Nat.mod_eq_of_lt (by omega)
    have e1 : (3 * (p / 3) + 1) % 2 ^ 32 = 3 * (p / 3) + 1 := Nat.mod_eq_of_lt (by omega)
    have e2 : (3 * (p / 3) + 2) % 2 ^ 32 = 3 * (p / 3) + 2 := Nat.mod_eq_of_lt (by omega)
    have hr : p % 3 = 0 ∨ p % 3 = 1 ∨ p % 3 = 2 := by omega
    rcases hr with hr | hr | hr
    · exact ⟨_, Or.inl (Or.inl ⟨p / 3, hi, Or.inl ⟨by rw [e0]; omega, rfl⟩⟩)⟩
    · exact ⟨_, Or.inl (Or.inl ⟨p / 3, hi, Or.inr (Or.inr ⟨by rw [e1]; omega, rfl⟩)⟩)⟩
    · exact ⟨_, Or.inl (Or.inl ⟨p / 3, hi, Or.inr (Or.inl ⟨by rw [e2]; omega, rfl⟩)⟩)⟩
  · by_cases h2 : p < 3 * (V * 2) + 6 * ((V - 2) * (V * 2))
    · have hH0 : 0 < V * 2 := by omega
      obtain ⟨j, i, hj, hi, ht⟩ : ∃ j i, j < V - 2 ∧ i < V * 2 ∧
          j * (V * 2) + i = (p - 3 * (V * 2)) / 6 := by
        refine ⟨(p - 3 * (V * 2)) / 6 / (V * 2), (p - 3 * (V * 2)) / 6 % (V * 2), ?_,
          Nat.mod_lt _ hH0, ?_⟩
        · have hc : V * 2 * (V - 2) = (V - 2) * (V * 2) := Nat.mul_comm _ _
          exact Nat.div_lt_of_lt_mul (by rw [hc]; omega)
        · exact Nat.div_add_mod' _ _
      have f5 := sphere_row (V - 2) (V * 2) j (by omega)
      have f6 : j * (V * 2 + 1) = j * (V * 2) + j := Nat.mul_succ _ _
      have b0 : 3 * (V * 2 + 2 * (j * (V * 2) + i)) % 2 ^ 32 =
          3 * (V * 2 + 2 * (j * (V * 2) + i)) := Nat.mod_eq_of_lt (by omega)
      have b1 : (3 * (V * 2 + 2 * (j * (V * 2) + i)) + 1) % 2 ^ 32 =
          3 * (V * 2 + 2 * (j * (V * 2) + i)) + 1 := Nat.mod_eq_of_lt (by omega)
      have b2 : (3 * (V * 2 + 2 * (j * (V * 2) + i)) + 2) % 2 ^ 32 =
          3 * (V * 2 + 2 * (j * (V * 2) + i)) + 2 := Nat.mod_eq_of_lt (by omega)
      have b3 : (3 * (V * 2 + 2 * (j * (V * 2) + i)) + 3) % 2 ^ 32 =
          3 * (V * 2 + 2 * (j * (V * 2) + i)) + 3 := Nat.mod_eq_of_lt (by omega)
      have b4 : (3 * (V * 2 + 2 * (j * (V * 2) + i)) + 4) % 2 ^ 32 =
          3 * (V * 2 + 2 * (j * (V * 2) + i)) + 4 := Nat.mod_eq_of_lt (by omega)
      have b5 : (3 * (V * 2 + 2 * (j * (V * 2) + i)) + 5) % 2 ^ 32 =
          3 * (V * 2 + 2 * (j * (V * 2) + i)) + 5 := Nat.mod_eq_of_lt (by omega)
      have hr : (p - 3 * (V * 2)) % 6 = 0 ∨ (p - 3 * (V * 2)) % 6 = 1 ∨
          (p - 3 * (V * 2)) % 6 = 2 ∨ (p - 3 * (V * 2)) % 6 = 3 ∨
          (p - 3 * (V * 2)) % 6 = 4 ∨ (p - 3 * (V * 2)) % 6 = 5 := by omega
      rcases hr with hr | hr | hr | hr | hr | hr
      · exact ⟨_, Or.inl (Or.inr ⟨j, hj, i, hi, Or.inl ⟨by rw [b0]; omega, rfl⟩⟩)⟩
      · exact ⟨_, Or.inl (Or.inr ⟨j, hj, i, hi,
          Or.inr (Or.inl ⟨by rw [b0, b1]; omega, rfl⟩)⟩)⟩
      · exact ⟨_, Or.inl (Or.inr ⟨j, hj, i, hi,
          Or.inr (Or.inr (Or.inl ⟨by rw [b0, b2]; omega, rfl⟩))⟩)⟩
      · exact ⟨_, Or.inl (Or.inr ⟨j, hj, i, hi,
          Or.inr (Or.inr (Or.inr (Or.inl ⟨by rw [b0, b3]; omega, rfl⟩)))⟩)⟩
      · exact ⟨_, Or.inl (Or.inr ⟨j, hj, i, hi,
          Or.inr (Or.inr (Or.inr (Or.inr (Or.inl ⟨by rw [b0, b4]; omega, rfl⟩))))⟩)⟩
      · exact ⟨_, Or.inl (Or.inr ⟨j, hj, i, hi,
          Or.inr (Or.inr (Or.inr (Or.inr (Or.inr ⟨by rw [b0, b5]; omega, rfl⟩))))⟩)⟩
    · have hq : p - (3 * (V * 2) + 6 * ((V - 2) * (V * 2))) < 3 * (V * 2) := by omega
      have hi : (p - (3 * (V * 2) + 6 * ((V - 2) * (V * 2)))) / 3 < V * 2 := by omega
      generalize hidef : (p - (3 * (V * 2) + 6 * ((V - 2) * (V * 2)))) / 3 = i at hi
      have c1 : (3 * (V * 2 + 2 * (V - 2) * (V * 2)) % 2 ^ 32 + 3 * i) % 2 ^ 32 =
          3 * (V * 2 + 2 * (V - 2) * (V * 2)) + 3 * i := by
        rw [Nat.mod_eq_of_lt (show 3 * (V * 2 + 2 * (V - 2) * (V * 2)) < 2 ^ 32 by omega)]
        exact Nat.mod_eq_of_lt (by omega)
      have c2 : (3 * (V * 2 + 2 * (V - 2) * (V * 2)) % 2 ^ 32 + 3 * i + 1) % 2 ^ 32 =
          3 * (V * 2 + 2 * (V - 2) * (V * 2)) + 3 * i + 1 := by
        rw [Nat.mod_eq_of_lt (show 3 * (V * 2 + 2 * (V - 2) * (V * 2)) < 2 ^ 32 by omega)]
        exact Nat.mod_eq_of_lt (by omega)
      have c3 : (3 * (V * 2 + 2 * (V - 2) * (V * 2)) % 2 ^ 32 + 3 * i + 2) % 2 ^ 32 =
          3 * (V * 2 + 2 * (V - 2) * (V * 2)) + 3 * i + 2 := by
        rw [Nat.mod_eq_of_lt (show 3 * (V * 2 + 2 * (V - 2) * (V * 2)) < 2 ^ 32 by omega)]
        exact Nat.mod_eq_of_lt (by omega)
      have hr : (p - (3 * (V * 2) + 6 * ((V - 2) * (V * 2)))) % 3 = 0 ∨
          (p - (3 * (V * 2) + 6 * ((V - 2) * (V * 2)))) % 3 = 1 ∨
          (p - (3 * (V * 2) + 6 * ((V - 2) * (V * 2)))) % 3 = 2 := by omega
      rcases hr with hr | hr | hr
      · exact ⟨_, Or.inr ⟨i, hi, Or.inl ⟨by rw [c1]; omega, rfl⟩⟩⟩
      · exact ⟨_, Or.inr ⟨i, hi, Or.inr (Or.inr ⟨by rw [c2]; omega, rfl⟩)⟩⟩
      · exact ⟨_, Or.inr ⟨i, hi, Or.inr (Or.inl ⟨by rw [c3]; omega, rfl⟩)⟩⟩

/-- C30. For every `segments` whose effective value `vsegs = max(segments, 2)` is at
most 10000, with `hsegs = 2 * vsegs`: `_nVertices` is 2 + (vsegs - 1) * (hsegs + 1) and
`_nFaces` is 2 * hsegs * (vsegs - 1); every subscript of the vertex array that
`createVBO` assigns is below `_nVertices`; every subscript of the index array it
assigns is below 3 * `_nFaces` and every index stored is below `_nVertices`; and every
slot of the index array is assigned. -/
theorem c30_sphere_arrays_in_bounds (segments : Nat) (h : max segments 2 ≤ 10000) :
    (Sphere.createVBO segments).nVertices =
      2 + (max segments 2 - 1) * (max segments 2 * 2 + 1) ∧
    (Sphere.createVBO segments).nFaces =
      2 * (max segments 2 * 2) * (max segments 2 - 1) ∧
    (∀ p ∈ (Sphere.createVBO segments).vertexWrites,
      p < (Sphere.createVBO segments).nVertices) ∧
    (∀ w ∈ (Sphere.createVBO segments).indexWrites,
      w.1 < 3 * (Sphere.createVBO segments).nFaces ∧
      w.2 < (Sphere.createVBO segments).nVertices) ∧
    (∀ p, p < 3 * (Sphere.createVBO segments).nFaces →
      ∃ v, (p, v) ∈ (Sphere.createVBO segments).indexWrites) :=
  ⟨(sphere_counts segments h).1, (sphere_counts segments h).2,
    sphere_vertexWrites segments h, sphere_indexWrites segments h,
    sphere_indexSlots segments h⟩

/-- C30, for `segments` = 0, whose effective value is 2: 7 vertices, 8 faces, and the
slot 14 of the index array holds the index 5. -/
theorem c30_sphere_arrays_in_bounds_witness :
    max 0 2 ≤ 10000 ∧
    (Sphere.createVBO 0).nVertices = 7 ∧ (Sphere.createVBO 0).nFaces = 8 ∧
    (14, 5) ∈ (Sphere.createVBO 0).indexWrites ∧
    (14 : Nat) < 3 * (Sphere.createVBO 0).nFaces ∧ (5 : Nat) < (Sphere.createVBO 0).nVertices :=
  ⟨by decide, by decide, by decide, by decide,
    ((c30_sphere_arrays_in_bounds 0 (by decide)).2.2.2.1 (14, 5) (by decide)).1,
    ((c30_sphere_arrays_in_bounds 0 (by decide)).2.2.2.1 (14, 5) (by decide)).2⟩

end sgct
